import Mathlib

/-!
# JetKVM native video core: bitrate, streaming lifecycle, EDID checksum

A shallow embedding of `internal/native/cgo/video.c`, `ctrl.c` and `edid.c`, and
of `internal/native/eez/src/ui/vars.c`.

* C `float` / `double` values are the rationals they denote; every arithmetic
  operation of the source is followed by the IEEE 754 round-to-nearest-even of
  its format (`f32`, `f64`).  NaN, infinities and exponent overflow are not
  represented.
* `int32_t` values are integers; a floating to integer conversion truncates
  toward zero, and where the truncated value does not fit, the C standard leaves
  the result undefined: the value the platform produces there is a parameter
  `ovf` of the model.
* Global variables become fields of an explicit state, calls whose outcome the
  program cannot control (`malloc`, `pthread_create`, `open`, `ioctl`, the
  encoder) become environment inputs, and the observable effects are appended
  to a trace.
* Unsigned machine integers are natural numbers with explicit reduction modulo
  `2^16` or `2^32` where the source narrows or can wrap; C strings are lists of
  character codes, and `strtol` follows ISO C.
* Functions run without interference from other threads, except in the section
  on interleavings, where every critical section of `streaming_mutex` is one
  atomic step.
-/

namespace Kvm

/-! ## Floating point -/

/-- Round a rational to the nearest integer, ties to the even one. -/
def roundHalfEven (q : ℚ) : ℤ :=
  let n := ⌊q⌋
  if q - n < 1 / 2 then n
  else if 1 / 2 < q - n then n + 1
  else if n % 2 = 0 then n else n + 1

/-- IEEE 754 round-to-nearest-even onto the binary format with `prec` significand
bits and smallest normal exponent `emin` (gradual underflow below it). -/
def roundNE (prec : ℕ) (emin : ℤ) (x : ℚ) : ℚ :=
  let e := max (Int.log 2 |x|) emin
  let ulp : ℚ := 2 ^ (e - (prec : ℤ) + 1)
  (roundHalfEven (x / ulp) : ℚ) * ulp

/-- Rounding to C `float` (binary32). -/
def f32 (x : ℚ) : ℚ := roundNE 24 (-126) x

/-- Rounding to C `double` (binary64). -/
def f64 (x : ℚ) : ℚ := roundNE 53 (-1022) x

/-- Truncation toward zero, the value part of a C floating to integer conversion. -/
def truncToInt (x : ℚ) : ℤ := if 0 ≤ x then ⌊x⌋ else ⌈x⌉

def INT32_MIN : ℤ := -2147483648

def INT32_MAX : ℤ := 2147483647

/-- Reduction of an integer into the `int32_t` range (two's complement). -/
def wrapInt32 (n : ℤ) : ℤ := (n + 2147483648) % 4294967296 - 2147483648

/-- The cast `(int32_t)x` of a floating value: the truncated value when it is
representable, otherwise whatever `int32_t` the platform yields (`ovf x`). -/
def toInt32 (ovf : ℚ → ℤ) (x : ℚ) : ℤ :=
  if INT32_MIN ≤ truncToInt x ∧ truncToInt x ≤ INT32_MAX then truncToInt x
  else wrapInt32 (ovf x)

/-- Out-of-range conversion as done by the ARM `VCVT` instruction: saturation. -/
def ovfSaturate (x : ℚ) : ℤ := if x < 0 then INT32_MIN else INT32_MAX

/-- Out-of-range conversion as done by x86 `CVTTSD2SI`: the "integer indefinite"
value `0x80000000`. -/
def ovfIndefinite (_x : ℚ) : ℤ := INT32_MIN

/-! ## `video.c`: bitrate -/

/-- Source function `double calculate_bitrate(float bitrate_factor, int width, int height)`
(video.c 54-75).  The `int` to `double` conversions of `width` and `height` are
exact; the returned `double` holds the `int32_t` bitrate exactly. -/
def calculate_bitrate (ovf : ℚ → ℤ) (bitrate_factor : ℚ) (width height : ℤ) : ℚ :=
  let base_bitrate_high : ℤ := 2000
  let base_bitrate_low : ℤ := 512
  let pixels : ℚ := f64 ((width : ℚ) * (height : ℚ))
  let ref_pixels : ℚ := f64 (1920 * 1080)
  let scale_factor : ℚ := f64 (pixels / ref_pixels)
  let base_bitrate : ℤ :=
    wrapInt32 (base_bitrate_low +
      toInt32 ovf (f32 (((base_bitrate_high - base_bitrate_low : ℤ) : ℚ) * bitrate_factor)))
  let bitrate : ℤ := toInt32 ovf (f64 ((base_bitrate : ℚ) * scale_factor))
  let min_bitrate : ℤ := 100
  let bitrate : ℤ := if bitrate < min_bitrate then min_bitrate else bitrate
  (bitrate : ℚ)

/-- The interpolated base bitrate computed on line 64 of video.c. -/
def base_bitrate (ovf : ℚ → ℤ) (bitrate_factor : ℚ) : ℤ :=
  wrapInt32 (512 + toInt32 ovf (f32 (((2000 - 512 : ℤ) : ℚ) * bitrate_factor)))

/-- The resolution scale computed on lines 59-62 of video.c. -/
def scale_factor (width height : ℤ) : ℚ :=
  f64 (f64 ((width : ℚ) * (height : ℚ)) / f64 (1920 * 1080))

/-- The bitrate formula in the words of the specification, in exact arithmetic:
the base interpolates linearly between 512 and 2000, is scaled by the pixel count
relative to 1920x1080, and the result is floored at 100. -/
def computeBitrate_spec (f : ℚ) (w h : ℤ) : ℚ :=
  let B : ℤ := 512 + truncToInt ((2000 - 512) * f)
  ((max 100 (truncToInt ((B : ℚ) * ((w : ℚ) * (h : ℚ)) / (1920 * 1080))) : ℤ) : ℚ)

/-! ## `video.c`: streaming lifecycle -/

/-- Observable effects of the lifecycle functions, in program order. -/
inductive Event
  | log_info
  | log_warn
  | log_error
  | malloc (ok : Bool)
  | pthread_create (result : ℤ) (thread : ℕ)
  | pthread_join (thread : ℕ)
  | free
  | usleep (us : ℕ)
  deriving DecidableEq

/-- The globals of video.c that the streaming lifecycle reads and writes
(`streaming_thread` is `none` when the pointer is NULL, otherwise the handle it
points to), together with the trace of effects performed so far. -/
structure VideoState where
  streaming_thread : Option ℕ
  streaming_flag : Bool
  quality_factor : ℚ
  trace : List Event
  deriving DecidableEq

/-- What the C library answers to one `video_start_streaming` call: whether
`malloc` returns non-NULL, the return value of `pthread_create`, and the handle
it stores on success. -/
structure ThreadEnv where
  malloc_ok : Bool
  create_result : ℤ
  thread : ℕ
  deriving DecidableEq

/-- Static initialisers of video.c (lines 43, 304, 306). -/
def initial_state : VideoState :=
  { streaming_thread := none, streaming_flag := false, quality_factor := 1, trace := [] }

/-- Source function `void video_start_streaming()` (video.c 586-617), with `streaming_mutex` held
throughout. -/
def video_start_streaming (env : ThreadEnv) (s : VideoState) : VideoState :=
  if s.streaming_thread ≠ none then
    { s with trace := s.trace ++ [Event.log_warn] }
  else if env.malloc_ok = false then
    { s with trace := s.trace ++ [Event.malloc false, Event.log_error] }
  else
    let s1 : VideoState :=
      { s with streaming_flag := true, trace := s.trace ++ [Event.malloc true] }
    if env.create_result ≠ 0 then
      { s1 with
        streaming_flag := false
        trace := s1.trace ++
          [Event.pthread_create env.create_result env.thread, Event.log_error, Event.free] }
    else
      { s1 with
        streaming_thread := some env.thread
        trace := s1.trace ++ [Event.pthread_create 0 env.thread] }

/-- Source function `void video_stop_streaming()` (video.c 619-635), with `streaming_mutex` held
throughout. -/
def video_stop_streaming (s : VideoState) : VideoState :=
  match s.streaming_thread with
  | some t =>
    { s with
      streaming_flag := false
      streaming_thread := none
      trace := s.trace ++
        [Event.log_info, Event.usleep 1000000, Event.log_info, Event.pthread_join t,
          Event.free, Event.log_info] }
  | none => s

/-- Source function `void video_set_quality_factor(float factor)` (video.c 729-747), run without
interference from other threads. -/
def video_set_quality_factor (env : ThreadEnv) (factor : ℚ) (s : VideoState) : VideoState :=
  let s1 : VideoState := { s with quality_factor := factor }
  if s1.streaming_flag = true then
    video_start_streaming env
      (video_stop_streaming { s1 with trace := s1.trace ++ [Event.log_info] })
  else s1

/-- Source function `float video_get_quality_factor()` (video.c 749-751). -/
def video_get_quality_factor (s : VideoState) : ℚ := s.quality_factor

/-- The restart at the end of a successful detection cycle of `run_detect_format`
(video.c 696-707), run without interference from other threads. -/
def run_detect_format_restart (env : ThreadEnv) (s : VideoState) : VideoState :=
  if s.streaming_flag = true then
    video_start_streaming env
      (video_stop_streaming { s with trace := s.trace ++ [Event.log_info] })
  else s

/-- Encoder bitrate set up by the capture worker (video.c 449): the `uint32_t`
geometry is passed as `int`, the `double` result is stored in an `int32_t`. -/
def run_video_stream_bitrate (ovf : ℚ → ℤ) (s : VideoState) (width height : ℕ) : ℤ :=
  toInt32 ovf
    (calculate_bitrate ovf s.quality_factor (wrapInt32 (width % 4294967296))
      (wrapInt32 (height % 4294967296)))

/-! ## `ctrl.c`: quality factor entry points -/

/-- Source function `int jetkvm_video_set_quality_factor(float quality_factor)` (ctrl.c 370-376):
the return value and the state afterwards. -/
def jetkvm_video_set_quality_factor (env : ThreadEnv) (quality_factor : ℚ) (s : VideoState) :
    ℤ × VideoState :=
  if quality_factor < 0 ∨ quality_factor > 1 then (-1, s)
  else (0, video_set_quality_factor env quality_factor s)

/-- Source function `float jetkvm_video_get_quality_factor()` (ctrl.c 378-380). -/
def jetkvm_video_get_quality_factor (s : VideoState) : ℚ := video_get_quality_factor s

/-! ## Sessions seen through the trace -/

/-- A worker thread was created. -/
def Event.isSpawn : Event → Bool
  | Event.pthread_create result _ => decide (result = 0)
  | _ => false

/-- A worker thread was joined. -/
def Event.isJoin : Event → Bool
  | Event.pthread_join _ => true
  | _ => false

/-- A thread handle was requested, the first step of every start that is not a no-op. -/
def Event.isAlloc : Event → Bool
  | Event.malloc _ => true
  | _ => false

/-- Number of worker threads created so far. -/
def spawned (s : VideoState) : ℕ := s.trace.countP Event.isSpawn

/-- Number of worker threads joined so far. -/
def joined (s : VideoState) : ℕ := s.trace.countP Event.isJoin

/-- Number of spawn attempts so far. -/
def spawn_attempts (s : VideoState) : ℕ := s.trace.countP Event.isAlloc

/-- Number of worker threads created and not yet joined: the active sessions. -/
def active_sessions (s : VideoState) : ℤ := (spawned s : ℤ) - (joined s : ℤ)

/-- States the lifecycle can be in: the initial one and those obtained from it by
`video_start_streaming`, `video_stop_streaming`, `video_set_quality_factor` and
the signal monitor's restart. -/
inductive Reachable : VideoState → Prop
  | init : Reachable initial_state
  | start (env : ThreadEnv) {s : VideoState} :
      Reachable s → Reachable (video_start_streaming env s)
  | stop {s : VideoState} : Reachable s → Reachable (video_stop_streaming s)
  | set_quality (env : ThreadEnv) (factor : ℚ) {s : VideoState} :
      Reachable s → Reachable (video_set_quality_factor env factor s)
  | format_change (env : ThreadEnv) {s : VideoState} :
      Reachable s → Reachable (run_detect_format_restart env s)

/-- The flag and the thread handle agree, and the trace accounts for exactly the
session the handle stands for. -/
def lifecycle_inv (s : VideoState) : Prop :=
  (s.streaming_flag = true ↔ s.streaming_thread ≠ none) ∧
  active_sessions s = if s.streaming_thread ≠ none then 1 else 0

/-! ## `edid.c`: checksum -/

/-- The inner loop of `fix_edid_checksum` (edid.c 64-68): the `uint8_t` running sum
of the first `i` bytes of a block. -/
def checksum_sum (edid : List ℕ) (block : ℕ) : ℕ → ℕ
  | 0 => 0
  | i + 1 => (checksum_sum edid block i + edid.getD (block * 128 + i) 0) % 256

/-- One iteration of the outer loop of `fix_edid_checksum` (edid.c 63-70). -/
def fix_edid_block (edid : List ℕ) (block : ℕ) : List ℕ :=
  edid.set (block * 128 + 127) ((256 - checksum_sum edid block 127) % 256)

/-- Source function `static void fix_edid_checksum(uint8_t *edid, size_t size)` (edid.c 60-71). -/
def fix_edid_checksum (edid : List ℕ) (size : ℕ) : List ℕ :=
  (List.range (size / 128)).foldl fix_edid_block edid

/-- Plain sum of the `n` bytes starting at offset `off`. -/
def sum_bytes (edid : List ℕ) (off : ℕ) : ℕ → ℕ
  | 0 => 0
  | n + 1 => sum_bytes edid off n + edid.getD (off + n) 0

/-! ## `edid.c`: reading and writing the EDID -/

/-- Linux value of `EINVAL` (asm-generic/errno-base.h). -/
def EINVAL : ℕ := 22

/-- Calls made on the HDMI sub-device `/dev/v4l-subdev2`, in program order. -/
inductive DevEvent
  | open_dev (fd : ℤ)
  | g_edid (blocks : ℕ) (result : ℤ)
  | s_edid (blocks : ℕ) (data : List ℕ) (result : ℤ)
  | close_dev
  deriving DecidableEq

/-- What the system answers to one EDID call: the descriptor returned by `open`,
the result of the `ioctl`, and, for `VIDIOC_G_EDID`, the block count the driver
leaves in `v4l2_edid.blocks` and the bytes it stores through `v4l2_edid.edid`. -/
structure EdidEnv where
  open_fd : ℤ
  ioctl_result : ℤ
  blocks_out : ℕ
  data_out : List ℕ
  deriving DecidableEq

/-- Outcome of an EDID call: return value, the caller's buffer afterwards (`none`
for a NULL pointer), the value the function itself assigns to `errno`, and the
device calls made. -/
structure EdidResult where
  ret : ℤ
  edid : Option (List ℕ)
  errno : Option ℕ
  dev : List DevEvent
  deriving DecidableEq

/-- Source function `int get_edid(uint8_t *edid, size_t max_size)` (edid.c 19-58).
The driver stores `data_out` from the start of the buffer; bytes stored past the
end of the buffer make the list longer. -/
def get_edid (env : EdidEnv) (edid : Option (List ℕ)) (max_size : ℕ) : EdidResult :=
  match edid with
  | none => { ret := -1, edid := none, errno := some EINVAL, dev := [] }
  | some buf =>
    if max_size ≠ 128 ∧ max_size ≠ 256 then
      { ret := -1, edid := some buf, errno := some EINVAL, dev := [] }
    else if env.open_fd < 0 then
      { ret := -1, edid := some buf, errno := none, dev := [DevEvent.open_dev env.open_fd] }
    else if env.ioctl_result < 0 then
      { ret := -1, edid := some buf, errno := none,
        dev := [DevEvent.open_dev env.open_fd, DevEvent.g_edid 2 env.ioctl_result,
          DevEvent.close_dev] }
    else
      { ret := wrapInt32 ((env.blocks_out * 128 % 4294967296 : ℕ) : ℤ),
        edid := some (env.data_out ++ buf.drop env.data_out.length), errno := none,
        dev := [DevEvent.open_dev env.open_fd, DevEvent.g_edid 2 env.ioctl_result,
          DevEvent.close_dev] }

/-- Source function `int set_edid(uint8_t *edid, size_t size)` (edid.c 73-114). -/
def set_edid (env : EdidEnv) (edid : Option (List ℕ)) (size : ℕ) : EdidResult :=
  match edid with
  | none => { ret := -1, edid := none, errno := some EINVAL, dev := [] }
  | some buf =>
    if size ≠ 128 ∧ size ≠ 256 then
      { ret := -1, edid := some buf, errno := some EINVAL, dev := [] }
    else if env.open_fd < 0 then
      { ret := -1, edid := some buf, errno := none, dev := [DevEvent.open_dev env.open_fd] }
    else
      let fixed := fix_edid_checksum buf size
      if env.ioctl_result < 0 then
        { ret := -1, edid := some fixed, errno := none,
          dev := [DevEvent.open_dev env.open_fd,
            DevEvent.s_edid (size / 128) (fixed.take size) env.ioctl_result,
            DevEvent.close_dev] }
      else
        { ret := 0, edid := some fixed, errno := none,
          dev := [DevEvent.open_dev env.open_fd,
            DevEvent.s_edid (size / 128) (fixed.take size) env.ioctl_result,
            DevEvent.close_dev] }

/-! ## `ctrl.c`: hexadecimal strings

A C string is the list of its character codes before the terminating NUL. -/

/-- The C library's `isspace` in the "C" locale: space, `\t`, `\n`, `\v`, `\f`, `\r`. -/
def isspace (c : ℕ) : Bool := c == 32 || (9 ≤ c && c ≤ 13)

/-- Value of a hexadecimal digit character (`0-9`, `a-f`, `A-F`). -/
def hex_digit (c : ℕ) : Option ℕ :=
  if 48 ≤ c ∧ c ≤ 57 then some (c - 48)
  else if 97 ≤ c ∧ c ≤ 102 then some (c - 87)
  else if 65 ≤ c ∧ c ≤ 70 then some (c - 55)
  else none

/-- The digit sequence read by `strtol`: accumulated value and number of digits. -/
def strtol_digits : List ℕ → ℕ → ℕ → ℕ × ℕ
  | [], acc, n => (acc, n)
  | c :: cs, acc, n =>
    match hex_digit c with
    | some d => strtol_digits cs (acc * 16 + d) (n + 1)
    | none => (acc, n)

/-- The C library's `strtol(nptr, &end_ptr, 16)` as specified by ISO C (7.22.1.4):
leading white space, an optional sign, an optional `0x`/`0X` prefix and the
longest run of hexadecimal digits; without any digit no conversion is performed
and `end_ptr` is `nptr`.  Returns the value and the offset of `end_ptr`.  The
clamping to the range of `long` is left out. -/
def strtol16 (nptr : List ℕ) : ℤ × ℕ :=
  let ws := (nptr.takeWhile isspace).length
  let s1 := nptr.drop ws
  let sign : Bool × ℕ × List ℕ :=
    match s1 with
    | 45 :: r => (true, 1, r)
    | 43 :: r => (false, 1, r)
    | _ => (false, 0, s1)
  let s2 := sign.2.2
  let pre : ℕ × List ℕ :=
    match s2 with
    | 48 :: x :: d :: r =>
      if (x = 120 ∨ x = 88) ∧ (hex_digit d).isSome then (2, d :: r) else (0, s2)
    | _ => (0, s2)
  let dv := strtol_digits pre.2 0 0
  if dv.2 = 0 then (0, 0)
  else ((if sign.1 then -(dv.1 : ℤ) else (dv.1 : ℤ)), ws + sign.2.1 + pre.1 + dv.2)

/-- The C library's `strnlen`. -/
def strnlen (s : List ℕ) (maxlen : ℕ) : ℕ := min s.length maxlen

/-- The loop of `hex_to_bytes` (ctrl.c 98-110) over the remaining characters, `k`
being `i / 2`; the flag is false when the loop returned -1. -/
def hex_to_bytes_loop : List ℕ → ℕ → List ℕ → Bool × List ℕ
  | c0 :: c1 :: rest, k, bytes =>
    let byte_str : List ℕ := [c0, c1]
    let r := strtol16 byte_str
    if (byte_str ++ [0]).getD r.2 0 ≠ 0 ∨ r.1 < 0 ∨ r.1 > 255 then (false, bytes)
    else hex_to_bytes_loop rest (k + 1) (bytes.set k (r.1.toNat % 256))
  | _, _, bytes => (true, bytes)

/-- Source function `int hex_to_bytes(const char *hex_str, uint8_t *bytes, size_t max_len)`
(ctrl.c 90-113): the return value and the output array afterwards. -/
def hex_to_bytes (hex_str : List ℕ) (bytes : List ℕ) (max_len : ℕ) : ℤ × List ℕ :=
  let hex_len := strnlen hex_str 4096
  if hex_len % 2 ≠ 0 ∨ hex_len / 2 > max_len then (-1, bytes)
  else
    match hex_to_bytes_loop (hex_str.take hex_len) 0 bytes with
    | (false, b) => (-1, b)
    | (true, b) => (((hex_len / 2 : ℕ) : ℤ), b)

/-- Source function `int jetkvm_video_set_edid(const char *edid_hex)` (ctrl.c 382-389);
`stack` is the initial content of the local array `edid[256]`. -/
def jetkvm_video_set_edid (env : EdidEnv) (edid_hex : List ℕ) (stack : List ℕ) : EdidResult :=
  let r := hex_to_bytes edid_hex stack 256
  if r.1 < 0 then { ret := -1, edid := some r.2, errno := none, dev := [] }
  else set_edid env (some r.2) r.1.toNat

/-! ## `video.c`: initialisation -/

/-- The status codes of the Rockchip SDK header `rk_type.h`, which the sources
include but do not contain. -/
structure RkConsts where
  RK_SUCCESS : ℤ
  RK_FAILURE : ℤ
  deriving DecidableEq

/-- What the system answers during `video_init`: the result of `RK_MPI_SYS_Init`,
the descriptor returned by `open`, the value of `errno` read on line 207, and the
pool returned by `RK_MPI_MB_CreatePool` (`none` for `MB_INVALID_POOLID`). -/
structure InitEnv where
  sys_init : ℤ
  open_fd : ℤ
  errno : ℤ
  pool : Option ℕ
  deriving DecidableEq

/-- The globals `video_init` writes. -/
structure InitState where
  sub_dev_fd : ℤ
  memPool : Option ℕ
  format_thread_started : Bool
  deriving DecidableEq

/-- Static initialisers of video.c (lines 38, 40, 191). -/
def initial_init_state : InitState :=
  { sub_dev_fd := -1, memPool := none, format_thread_started := false }

/-- Source function `static int32_t buf_init()` (video.c 173-189). -/
def buf_init (k : RkConsts) (env : InitEnv) (s : InitState) : ℤ × InitState :=
  match env.pool with
  | none => (-1, { s with memPool := none })
  | some p => (k.RK_SUCCESS, { s with memPool := some p })

/-- Source function `int video_init()` (video.c 193-223). -/
def video_init (k : RkConsts) (env : InitEnv) (s : InitState) : ℤ × InitState :=
  if env.sys_init ≠ k.RK_SUCCESS then (k.RK_FAILURE, s)
  else
    let s1 : InitState := if s.sub_dev_fd < 0 then { s with sub_dev_fd := env.open_fd } else s
    if s.sub_dev_fd < 0 ∧ s1.sub_dev_fd < 0 then (env.errno, s1)
    else
      let r := buf_init k env s1
      if r.1 ≠ k.RK_SUCCESS then (r.1, r.2)
      else (k.RK_SUCCESS, { r.2 with format_thread_started := true })

/-! ## `video.c` and `ctrl.c`: signal monitor -/

/-- Linux values of the `errno` codes tested by `run_detect_format`
(asm-generic/errno-base.h, errno.h). -/
def ERANGE : ℕ := 34

def ENOLCK : ℕ := 37

def ENOLINK : ℕ := 67

/-- The three error texts `run_detect_format` publishes: `"no_signal"`, `"no_lock"`
and `"out_of_range"`. -/
inductive StatusError
  | no_signal
  | no_lock
  | out_of_range
  deriving DecidableEq

/-- The C struct `jetkvm_video_state_t` (ctrl.h 8-15); `error` is `none` for NULL,
`width` and `height` are `u_int16_t`. -/
structure jetkvm_video_state_t where
  ready : Bool
  error : Option StatusError
  width : ℕ
  height : ℕ
  frame_per_second : ℚ
  deriving DecidableEq

/-- The fields of `struct v4l2_bt_timings` used by the monitor: `pixelclock` is
`__u64`, the others are `__u32`. -/
structure v4l2_bt_timings where
  width : ℕ
  height : ℕ
  pixelclock : ℕ
  hfrontporch : ℕ
  hsync : ℕ
  hbackporch : ℕ
  vfrontporch : ℕ
  vsync : ℕ
  vbackporch : ℕ
  deriving DecidableEq

/-- Outcome of `VIDIOC_QUERY_DV_TIMINGS`: failure with an `errno`, or the timings. -/
inductive QueryResult
  | failed (errno : ℕ)
  | ok (bt : v4l2_bt_timings)
  deriving DecidableEq

/-- The lifecycle state together with the globals of the signal monitor
(`detected_width`, `detected_height`, `detected_signal` of video.c; `state` and
`video_state_handler` of ctrl.c) and the list of statuses handed to the handler. -/
structure MonitorState where
  video : VideoState
  detected_width : ℕ
  detected_height : ℕ
  detected_signal : Bool
  state : jetkvm_video_state_t
  handler_set : Bool
  handler_calls : List jetkvm_video_state_t
  deriving DecidableEq

/-- Static initialisers of the monitor globals. -/
def initial_monitor_state : MonitorState :=
  { video := initial_state, detected_width := 0, detected_height := 0,
    detected_signal := false,
    state := { ready := false, error := none, width := 0, height := 0, frame_per_second := 0 },
    handler_set := false, handler_calls := [] }

/-- Source function `void video_report_format(bool ready, const char *error, u_int16_t width,
u_int16_t height, double frame_per_second)` (ctrl.c 60-70); the arguments are
converted to the 16-bit parameter type. -/
def video_report_format (ready : Bool) (error : Option StatusError) (width height : ℕ)
    (frame_per_second : ℚ) (s : MonitorState) : MonitorState :=
  let st : jetkvm_video_state_t :=
    { ready := ready, error := error, width := width % 65536, height := height % 65536,
      frame_per_second := frame_per_second }
  if s.handler_set = true then
    { s with state := st, handler_calls := s.handler_calls ++ [st] }
  else { s with state := st }

/-- Source function `jetkvm_video_state_t *jetkvm_video_get_status()` (ctrl.c 400-402). -/
def jetkvm_video_get_status (s : MonitorState) : jetkvm_video_state_t := s.state

/-- The frame rate computed on lines 686-690 of video.c: the sums and the product
are `__u32` arithmetic, the pixel clock and the product are converted to `double`
and divided.  For a zero divisor the C result is an infinity or a NaN, which the
model does not represent. -/
def frames_per_second (bt : v4l2_bt_timings) : ℚ :=
  let vtotal := (bt.height + bt.vfrontporch + bt.vsync + bt.vbackporch) % 4294967296
  let htotal := (bt.width + bt.hfrontporch + bt.hsync + bt.hbackporch) % 4294967296
  let total := vtotal * htotal % 4294967296
  f64 (f64 (bt.pixelclock : ℚ) / f64 (total : ℚ))

/-- One pass of the loop of `run_detect_format` (video.c 651-708) up to the wait
for the next event, for a given outcome of the timings query; the restart runs
without interference from other threads. -/
def run_detect_format_cycle (env : ThreadEnv) (q : QueryResult) (s : MonitorState) :
    MonitorState :=
  match q with
  | QueryResult.failed errno =>
    let s1 : MonitorState := { s with detected_signal := false }
    if errno = ENOLINK then video_report_format false (some StatusError.no_signal) 0 0 0 s1
    else if errno = ENOLCK then video_report_format false (some StatusError.no_lock) 0 0 0 s1
    else if errno = ERANGE then
      video_report_format false (some StatusError.out_of_range) 0 0 0 s1
    else s1
  | QueryResult.ok bt =>
    let fps := frames_per_second bt
    let s1 : MonitorState :=
      { s with
        detected_width := bt.width
        detected_height := bt.height
        detected_signal := true }
    let s2 := video_report_format true none s1.detected_width s1.detected_height fps s1
    { s2 with video := run_detect_format_restart env s2.video }

/-- Successive passes of the monitor loop. -/
def run_detect_format_cycles : List (ThreadEnv × QueryResult) → MonitorState → MonitorState
  | [], s => s
  | (env, q) :: rest, s => run_detect_format_cycles rest (run_detect_format_cycle env q s)

/-- The frame rate in the words of the specification: pixel clock over the product
of the total height and the total width, taken as exact natural numbers, rounded
to `double`. -/
def framesPerSecond_spec (bt : v4l2_bt_timings) : ℚ :=
  f64 ((bt.pixelclock : ℚ) /
    (((bt.height + bt.vfrontporch + bt.vsync + bt.vbackporch) *
      (bt.width + bt.hfrontporch + bt.hsync + bt.hbackporch) : ℕ) : ℚ))

/-- What a capture session sets up from the globals when it starts (video.c
339-345, 449-450): the geometry requested with `VIDIOC_S_FMT`, the picture size
given to the encoder and the bitrate. -/
structure SessionSetup where
  fmt_width : ℕ
  fmt_height : ℕ
  venc_width : ℕ
  venc_height : ℕ
  bitrate : ℤ
  deriving DecidableEq

/-- The set-up of a session whose worker reads the globals in state `s`. -/
def run_video_stream_setup (ovf : ℚ → ℤ) (s : MonitorState) : SessionSetup :=
  let width := s.detected_width
  let height := s.detected_height
  { fmt_width := width, fmt_height := height,
    venc_width := (wrapInt32 (width % 4294967296) % 4294967296).toNat,
    venc_height := (wrapInt32 (height % 4294967296) % 4294967296).toNat,
    bitrate := run_video_stream_bitrate ovf s.video width height }

/-! ## `video.c`: submitting a captured frame -/

/-- Effects of the capture worker while it handles one dequeued buffer. -/
inductive CaptureEvent
  | send_frame (blk width height time_ref pts : ℕ) (ok : Bool)
  | log_error
  | usleep (us : ℕ)
  | qbuf (index : ℕ) (ok : Bool)
  | assert_failed
  deriving DecidableEq

/-- What the system answers while one dequeued buffer is handled: the handle
returned by `RK_MPI_MMZ_Fd2Handle` (`none` for `RK_NULL`), the clock read by
`get_us`, for every `n` whether the `n`-th call of `RK_MPI_VENC_SendFrame` for
this frame would return `RK_SUCCESS`, and whether `VIDIOC_QBUF` succeeds. -/
structure FrameEnv where
  blk : Option ℕ
  now : ℕ
  send : ℕ → Bool
  qbuf : Bool

/-- The locals of the capture loop: the frame counter `num`, the effects so far,
and whether the loop is still running (false once the assertion on line 499 has
stopped the process). -/
structure CaptureState where
  num : ℕ
  trace : List CaptureEvent
  running : Bool
  deriving DecidableEq

/-- The code at the label `retry_send_frame` (video.c 513-527) when it is reached
with `retried == true`: the second call of `RK_MPI_VENC_SendFrame`. -/
def retry_send_frame (env : FrameEnv) (blk width height time_ref pts : ℕ) :
    List CaptureEvent :=
  if env.send 1 = true then [CaptureEvent.send_frame blk width height time_ref pts true]
  else [CaptureEvent.send_frame blk width height time_ref pts false, CaptureEvent.log_error]

/-- The code at the label `retry_send_frame` (video.c 512-527) when it is reached
with `retried == false`: the first call, and on failure the jump back to the label. -/
def send_frame (env : FrameEnv) (blk width height time_ref pts : ℕ) : List CaptureEvent :=
  if env.send 0 = true then [CaptureEvent.send_frame blk width height time_ref pts true]
  else
    [CaptureEvent.send_frame blk width height time_ref pts false, CaptureEvent.log_error,
      CaptureEvent.usleep 1000] ++ retry_send_frame env blk width height time_ref pts

/-- The body of the capture loop of `run_video_stream` from a successful
`VIDIOC_DQBUF` to the end of the pass (video.c 495-533), for the buffer slot
`index` and the session geometry `width` x `height`. -/
def run_video_stream_frame (env : FrameEnv) (index width height : ℕ) (s : CaptureState) :
    CaptureState :=
  match env.blk with
  | none => { s with trace := s.trace ++ [CaptureEvent.assert_failed], running := false }
  | some blk =>
    let time_ref := s.num
    let pts := env.now
    let sent := send_frame env blk width height time_ref pts
    let requeue : List CaptureEvent :=
      if env.qbuf = true then [CaptureEvent.qbuf index true]
      else [CaptureEvent.qbuf index false, CaptureEvent.log_error]
    { s with num := (s.num + 1) % 4294967296, trace := s.trace ++ sent ++ requeue }

/-- Submissions of a frame to the encoder in a trace, as (sequence number,
timestamp) pairs. -/
def submissions : List CaptureEvent → List (ℕ × ℕ)
  | [] => []
  | CaptureEvent.send_frame _ _ _ time_ref pts _ :: rest => (time_ref, pts) :: submissions rest
  | _ :: rest => submissions rest

/-- Number of `VIDIOC_QBUF` calls in a trace. -/
def requeues : List CaptureEvent → ℕ
  | [] => 0
  | CaptureEvent.qbuf _ _ :: rest => requeues rest + 1
  | _ :: rest => requeues rest

/-! ## Interleaving of lifecycle requests

Every access of the lifecycle functions to `streaming_flag` and
`streaming_thread` happens with `streaming_mutex` held, so each critical section
is one atomic step; a request is the list of its critical sections. -/

/-- The atomic steps requests are made of. `check` is the locked test of
`streaming_flag` (video.c 735-738 and 696-699), whose outcome guards the steps
`stop_if` and `start_if` of the same request. -/
inductive AtomicStep
  | store_quality (factor : ℚ)
  | check
  | log_if
  | stop_if
  | start_if (env : ThreadEnv)
  | stop
  | start (env : ThreadEnv)
  deriving DecidableEq

/-- A request in progress: the steps still to run and the outcome of its `check`. -/
structure Request where
  steps : List AtomicStep
  saw_active : Bool
  deriving DecidableEq

/-- Effect of one atomic step on the local flag of its request and on the state. -/
def exec_step (st : AtomicStep) (saw_active : Bool) (s : VideoState) : Bool × VideoState :=
  match st with
  | AtomicStep.store_quality f => (saw_active, { s with quality_factor := f })
  | AtomicStep.check => (s.streaming_flag, s)
  | AtomicStep.log_if =>
    (saw_active, if saw_active = true then { s with trace := s.trace ++ [Event.log_info] } else s)
  | AtomicStep.stop_if =>
    (saw_active, if saw_active = true then video_stop_streaming s else s)
  | AtomicStep.start_if env =>
    (saw_active, if saw_active = true then video_start_streaming env s else s)
  | AtomicStep.stop => (saw_active, video_stop_streaming s)
  | AtomicStep.start env => (saw_active, video_start_streaming env s)

/-- The critical sections of `video_set_quality_factor(factor)` in program order. -/
def set_quality_request (env : ThreadEnv) (factor : ℚ) : Request :=
  { steps := [AtomicStep.store_quality factor, AtomicStep.check, AtomicStep.log_if,
      AtomicStep.stop_if, AtomicStep.start_if env],
    saw_active := false }

/-- The critical sections of the monitor's restart (video.c 696-707). -/
def monitor_restart_request (env : ThreadEnv) : Request :=
  { steps := [AtomicStep.check, AtomicStep.log_if, AtomicStep.stop_if, AtomicStep.start_if env],
    saw_active := false }

/-- The single critical section of `video_stop_streaming`. -/
def stop_request : Request := { steps := [AtomicStep.stop], saw_active := false }

/-- The single critical section of `video_start_streaming`. -/
def start_request (env : ThreadEnv) : Request :=
  { steps := [AtomicStep.start env], saw_active := false }

/-- The next step of request number `i` is run, if it has one. -/
def step_request (i : ℕ) (rs : List Request) (s : VideoState) : List Request × VideoState :=
  match rs.get? i with
  | some r =>
    match r.steps with
    | st :: rest =>
      let out := exec_step st r.saw_active s
      (rs.set i { steps := rest, saw_active := out.1 }, out.2)
    | [] => (rs, s)
  | none => (rs, s)

/-- Run of a schedule: the list of the request numbers that move, in order. -/
def run_schedule : List ℕ → List Request → VideoState → List Request × VideoState
  | [], rs, s => (rs, s)
  | i :: sched, rs, s =>
    let out := step_request i rs s
    run_schedule sched out.1 out.2

/-! ## Outcomes of the timings query -/

/-- The query succeeded. -/
def QueryResult.succeeded : QueryResult → Bool
  | QueryResult.ok _ => true
  | QueryResult.failed _ => false

/-- The query failed with an error other than `ENOLINK`, `ENOLCK` and `ERANGE`:
the case in which the monitor publishes nothing. -/
def QueryResult.unclassified : QueryResult → Bool
  | QueryResult.ok _ => false
  | QueryResult.failed errno => errno ≠ ENOLINK && errno ≠ ENOLCK && errno ≠ ERANGE

/-- The `ready` flag predicted from the outcomes alone: the outcome of the most
recent query that is not an unclassified failure, `r` when there is none. -/
def ready_after : Bool → List QueryResult → Bool
  | r, [] => r
  | r, q :: rest => ready_after (if q.unclassified then r else q.succeeded) rest

/-- The timings of 1920x1080 at 60 Hz (CEA-861): pixel clock 148.5 MHz, totals
2200 x 1125. -/
def timings_1080p60 : v4l2_bt_timings :=
  { width := 1920, height := 1080, pixelclock := 148500000, hfrontporch := 88, hsync := 44,
    hbackporch := 148, vfrontporch := 4, vsync := 5, vbackporch := 36 }

/-- Timings whose totals, 65536 x 65537, have a product above `2^32`. -/
def timings_wide : v4l2_bt_timings :=
  { width := 65536, height := 65537, pixelclock := 3932160, hfrontporch := 0, hsync := 0,
    hbackporch := 0, vfrontporch := 0, vsync := 0, vbackporch := 0 }

/-- Timings with an active width of 67456 = 65536 + 1920, which needs more than
16 bits. -/
def timings_width_17bit : v4l2_bt_timings :=
  { width := 67456, height := 1080, pixelclock := 148500000, hfrontporch := 0, hsync := 0,
    hbackporch := 0, vfrontporch := 4, vsync := 5, vbackporch := 36 }

/-- The character `printf` writes for one hexadecimal digit under `%x`. -/
def hex_char (d : ℕ) : ℕ := if d < 10 then 48 + d else 87 + d

/-- The two characters `snprintf(p, 3, "%02x", byte)` stores at `p` for a
`uint8_t` value (ctrl.c 137); the terminator it stores at `p[2]` is overwritten by
the next iteration or by line 140. -/
def snprintf_02x (byte : ℕ) : List ℕ := [hex_char (byte / 16), hex_char (byte % 16)]

/-- The loop of `bytes_to_hex` (ctrl.c 135-138): the characters stored for the
bytes still to convert. -/
def bytes_to_hex_loop : List ℕ → List ℕ
  | [] => []
  | byte :: rest => snprintf_02x byte ++ bytes_to_hex_loop rest

/-- Source function `const char *bytes_to_hex(const uint8_t *bytes, size_t len)`
(ctrl.c 122-142); `none` is `NULL`, a string is the list of its characters before
the terminator, and `malloc_ok` says whether `malloc` returns storage. -/
def bytes_to_hex (malloc_ok : Bool) (bytes : Option (List ℕ)) (len : ℕ) : Option (List ℕ) :=
  match bytes with
  | none => none
  | some b =>
    if len = 0 then none
    else if malloc_ok = false then none
    else some (bytes_to_hex_loop (b.take len))

/-! ## `vars.c`: the UI variables -/

/-- The character arrays of vars.c (lines 6-9), each as the list of its bytes. -/
structure UiVars where
  app_version : List ℕ
  system_version : List ℕ
  lvgl_version : List ℕ
  main_screen : List ℕ
  deriving DecidableEq

/-- Static initialisers of vars.c (lines 6-9); `main_screen` holds "home_screen". -/
def initial_ui_vars : UiVars :=
  { app_version := List.replicate 100 0,
    system_version := List.replicate 100 0,
    lvgl_version := List.replicate 32 0,
    main_screen :=
      [104, 111, 109, 101, 95, 115, 99, 114, 101, 101, 110] ++ List.replicate 21 0 }

/-- The string a `char` array holds: the characters before the first NUL. -/
def c_string (buf : List ℕ) : List ℕ := buf.takeWhile (fun c => c ≠ 0)

/-- The C library's `strncpy(dst, src, n)`: the first `n` characters of the string
`src`, padded with NULs up to `n` bytes, replace the first `n` bytes of `dst`. -/
def strncpy (dst src : List ℕ) (n : ℕ) : List ℕ :=
  (c_string src).take n ++ List.replicate (n - (c_string src).length) 0 ++ dst.drop n

/-- The text `sprintf(buf, "%d.%d.%d", major, minor, patch)` writes for
non-negative numbers (vars.c 22). -/
def sprintf_version (major minor patch : ℕ) : List ℕ :=
  ((Nat.toDigits 10 major).map Char.toNat) ++ [46] ++
  ((Nat.toDigits 10 minor).map Char.toNat) ++ [46] ++
  ((Nat.toDigits 10 patch).map Char.toNat)

/-- Source function `const char *get_var_app_version()` (vars.c 11-13). -/
def get_var_app_version (s : UiVars) : List ℕ := c_string s.app_version

/-- Source function `const char *get_var_system_version()` (vars.c 15-17). -/
def get_var_system_version (s : UiVars) : List ℕ := c_string s.system_version

/-- Source function `const char *get_var_main_screen()` (vars.c 48-50). -/
def get_var_main_screen (s : UiVars) : List ℕ := c_string s.main_screen

/-- Source function `const char *get_var_lvgl_version()` (vars.c 19-29) for the
version numbers of the LVGL headers: the arrays afterwards and the string
returned.  Line 26 stores the terminator into `app_version`. -/
def get_var_lvgl_version (major minor patch : ℕ) (s : UiVars) : UiVars × List ℕ :=
  if s.lvgl_version.getD 0 0 = 0 then
    let buf := sprintf_version major minor patch
    let s1 := { s with lvgl_version := strncpy s.lvgl_version buf 32 }
    let s2 := { s1 with app_version := s1.app_version.set (32 - 1) 0 }
    (s2, c_string s2.lvgl_version)
  else (s, c_string s.lvgl_version)

/-- Source function `void set_var_app_version(const char *value)` (vars.c 31-34). -/
def set_var_app_version (value : List ℕ) (s : UiVars) : UiVars :=
  { s with app_version := (strncpy s.app_version value 100).set (100 - 1) 0 }

/-- Source function `void set_var_system_version(const char *value)` (vars.c 36-39). -/
def set_var_system_version (value : List ℕ) (s : UiVars) : UiVars :=
  { s with system_version := (strncpy s.system_version value 100).set (100 - 1) 0 }

/-- Source function `void set_var_main_screen(const char *value)` (vars.c 43-46). -/
def set_var_main_screen (value : List ℕ) (s : UiVars) : UiVars :=
  { s with main_screen := (strncpy s.main_screen value 32).set (32 - 1) 0 }

/-! ## `video.c`: the encode channel -/

/-- Effects of `venc_start` and `venc_stop`: the SDK calls with their results,
the allocation of the thread handle, `pthread_create` with its result,
`pthread_join` on the handle stored (`none` when no `pthread_create` ever
filled the storage), `free`, and an error log line. -/
inductive VencEvent
  | create_chn (ret : ℤ)
  | start_recv_frame (ret : ℤ)
  | malloc
  | pthread_create (result : ℤ)
  | stop_recv_frame (ret : ℤ)
  | pthread_join (thread : Option ℕ)
  | free
  | destroy_chn (ret : ℤ)
  | log_error
  deriving DecidableEq

/-- The globals `venc_running` and `venc_read_thread` (video.c 100-101) with the
state of the channel inside the encode engine and the effects so far.
`venc_read_thread` is `none` for `NULL`, `some none` for allocated storage that
holds no created thread, `some (some t)` for the handle of thread `t`.  The
engine state follows the SDK's contract: a call that reports success has its
effect, a call that reports failure has none. -/
structure VencState where
  venc_running : Bool
  venc_read_thread : Option (Option ℕ)
  chn_created : Bool
  receiving : Bool
  trace : List VencEvent
  deriving DecidableEq

/-- What the system answers to the calls of `venc_start` and `venc_stop`: the
results of `RK_MPI_VENC_CreateChn`, `RK_MPI_VENC_StartRecvFrame`,
`pthread_create` (with the thread it creates), `RK_MPI_VENC_StopRecvFrame` and
`RK_MPI_VENC_DestroyChn`. -/
structure VencEnv where
  create_chn : ℤ
  start_recv_frame : ℤ
  pthread_create : ℤ
  thread : ℕ
  stop_recv_frame : ℤ
  destroy_chn : ℤ
  deriving DecidableEq

/-- Static initialisers of video.c (lines 100-101); no channel exists. -/
def initial_venc_state : VencState :=
  { venc_running := false, venc_read_thread := none, chn_created := false,
    receiving := false, trace := [] }

/-- Source function `static int32_t venc_start(int32_t bitrate, int32_t max_bitrate,
int32_t width, int32_t height)` (video.c 102-134).  The attribute structure
filled from the arguments only goes to the SDK, whose answers are inputs here,
and `malloc` is taken to return storage. -/
def venc_start (k : RkConsts) (env : VencEnv) (s : VencState) : ℤ × VencState :=
  let ret := env.create_chn
  if ret < 0 then
    (ret, { s with trace := s.trace ++ [VencEvent.create_chn ret, VencEvent.log_error] })
  else
    let s1 := { s with chn_created := true, trace := s.trace ++ [VencEvent.create_chn ret] }
    let ret := env.start_recv_frame
    if ret < 0 then
      (ret, { s1 with
        trace := s1.trace ++ [VencEvent.start_recv_frame ret, VencEvent.log_error] })
    else
      let s2 := { s1 with
        receiving := true, venc_running := true, venc_read_thread := some none,
        trace := s1.trace ++ [VencEvent.start_recv_frame ret, VencEvent.malloc] }
      if env.pthread_create ≠ 0 then
        (k.RK_FAILURE, { s2 with
          trace := s2.trace ++ [VencEvent.pthread_create env.pthread_create,
            VencEvent.log_error] })
      else
        (k.RK_SUCCESS, { s2 with
          venc_read_thread := some (some env.thread),
          trace := s2.trace ++ [VencEvent.pthread_create env.pthread_create] })

/-- Source function `static int32_t venc_stop()` (video.c 136-163). -/
def venc_stop (k : RkConsts) (env : VencEnv) (s : VencState) : ℤ × VencState :=
  let s0 := { s with venc_running := false }
  let ret := env.stop_recv_frame
  if ret ≠ k.RK_SUCCESS then
    (ret, { s0 with
      trace := s0.trace ++ [VencEvent.stop_recv_frame ret, VencEvent.log_error] })
  else
    let s1 := { s0 with
      receiving := false, trace := s0.trace ++ [VencEvent.stop_recv_frame ret] }
    let s2 :=
      match s1.venc_read_thread with
      | some t =>
        { s1 with
          venc_read_thread := none,
          trace := s1.trace ++ [VencEvent.pthread_join t, VencEvent.free] }
      | none => s1
    let ret := env.destroy_chn
    if ret ≠ k.RK_SUCCESS then
      (ret, { s2 with trace := s2.trace ++ [VencEvent.destroy_chn ret, VencEvent.log_error] })
    else
      (k.RK_SUCCESS, { s2 with
        chn_created := false, trace := s2.trace ++ [VencEvent.destroy_chn ret] })

/-- The encode channel is Idle: no channel exists in the engine, no frame is
taken in, `venc_running` is false and `venc_read_thread` is `NULL`. -/
def venc_idle (s : VencState) : Prop :=
  s.venc_running = false ∧ s.venc_read_thread = none ∧ s.chn_created = false ∧
    s.receiving = false

instance (s : VencState) : Decidable (venc_idle s) := by
  unfold venc_idle
  exact inferInstance

/-- The encode channel is Active with the read-back thread `t`. -/
def venc_active (t : ℕ) (s : VencState) : Prop :=
  s.venc_running = true ∧ s.venc_read_thread = some (some t) ∧ s.chn_created = true ∧
    s.receiving = true

instance (t : ℕ) (s : VencState) : Decidable (venc_active t s) := by
  unfold venc_active
  exact inferInstance

/-! ## `video.c`: the capture worker

One pass of the outer loop of `run_video_stream` is a function of what the
worker reads and of what the system answers during that pass; logging is left
out of the effects. -/

/-- What `select` reports in one round of the capture loop (video.c 470-484): a
time-out (`r == 0`), an interruption (`r == -1` with `errno == EINTR`), another
error, or a readable device; for a readable device, the slot `VIDIOC_DQBUF`
hands out (`none` when it fails) and the answers while the frame is handled. -/
inductive WaitOutcome
  | timeout
  | eintr
  | error
  | ready (dqbuf : Option ℕ) (frame : FrameEnv)

/-- One round of the capture loop: the value of `streaming_flag` read by the loop
condition and the outcome of the wait. -/
structure Round where
  streaming_flag : Bool
  wait : WaitOutcome

/-- The kind of wait of a round, as recorded in the effects. -/
inductive WaitKind
  | timeout
  | eintr
  | error
  | ready
  deriving DecidableEq

/-- The kind of a wait outcome. -/
def WaitOutcome.kind : WaitOutcome → WaitKind
  | WaitOutcome.timeout => WaitKind.timeout
  | WaitOutcome.eintr => WaitKind.eintr
  | WaitOutcome.error => WaitKind.error
  | WaitOutcome.ready _ _ => WaitKind.ready

/-- Effects of the capture worker; `venc_start` records the picture width and
height that `populate_venc_attr` stores into the channel attributes
(`u32PicWidth`, `u32PicHeight`) and the value `venc_start` returns. -/
inductive WorkerEvent
  | usleep (us : ℕ)
  | open_dev (ok : Bool)
  | s_fmt (width height : ℕ) (ok : Bool)
  | reqbufs (ok : Bool)
  | querybuf (index : ℕ) (ok : Bool)
  | get_mb (index : ℕ) (blk : Option ℕ)
  | handle2fd (blk : ℕ) (ok : Bool)
  | qbuf (index : ℕ) (ok : Bool)
  | streamon (ok : Bool)
  | venc_start (pic_width pic_height : ℕ) (ret : ℤ)
  | select (r : WaitKind)
  | dqbuf (index : Option ℕ)
  | capture (e : CaptureEvent)
  | streamoff (ok : Bool)
  | venc_stop (ret : ℤ)
  | release_mb (blk : ℕ)
  | close
  deriving DecidableEq

/-- What the system answers for one buffer slot during set-up: whether
`VIDIOC_QUERYBUF` succeeds, the block `RK_MPI_MB_GetMB` returns (`none` for
`NULL`), and whether `RK_MPI_MB_Handle2Fd` returns a descriptor. -/
structure SlotEnv where
  querybuf_ok : Bool
  blk : Option ℕ
  handle2fd_ok : Bool
  deriving DecidableEq

/-- What the worker reads and what the system answers during one pass of the
outer loop: the globals `streaming_flag`, `detected_signal`, `detected_width` and
`detected_height`, the results of `open`, `VIDIOC_S_FMT`, `VIDIOC_REQBUFS`, of the
per-slot calls, of `VIDIOC_QBUF` per slot, of `VIDIOC_STREAMON`, of the encoder
calls, the rounds of the capture loop, and the result of `VIDIOC_STREAMOFF`. -/
structure PassEnv where
  streaming_flag : Bool
  detected_signal : Bool
  detected_width : ℕ
  detected_height : ℕ
  open_ok : Bool
  s_fmt_ok : Bool
  reqbufs_ok : Bool
  slots : ℕ → SlotEnv
  qbuf_ok : ℕ → Bool
  streamon_ok : Bool
  venc : VencEnv
  rounds : List Round
  streamoff_ok : Bool

/-- The return statement through which the thread function returns, named after
its operand: `null` is the final `return NULL;` (line 556), `errno` is one of the
statements `return (void *)errno;` (lines 368, 392, 415, 434, 443), `unspecified`
is `return ;` (line 404).  It tells which statement ran, not which pointer the
joining thread receives: see `exit_pointer`. -/
inductive ExitValue
  | null
  | errno
  | unspecified
  deriving DecidableEq

/-- How a pass ends: the outer loop goes on with its next pass, the thread
function returns, the worker is still inside the capture loop when the supplied
rounds are used up, or the assertion on line 499 stops the process. -/
inductive PassResult
  | next
  | exited (value : ExitValue)
  | pending
  | aborted
  deriving DecidableEq

/-- The state a pass works on: the encode channel and the effects so far. -/
structure WorkerState where
  venc : VencState
  trace : List WorkerEvent
  deriving DecidableEq

/-- The worker before its first pass. -/
def initial_worker_state : WorkerState := { venc := initial_venc_state, trace := [] }

/-- The constant `input_buffer_count` (video.c 171). -/
def input_buffer_count : ℕ := 3

/-- The first set-up loop of `run_video_stream` (video.c 372-419) over the slots
still to prepare: the exit taken (`none` when the loop completes), the `mb_blk`
fields of `buffers` and the effects. -/
def query_buffers (env : PassEnv) :
    List ℕ → List (Option ℕ) → List WorkerEvent →
      Option ExitValue × List (Option ℕ) × List WorkerEvent
  | [], buffers, tr => (none, buffers, tr)
  | i :: rest, buffers, tr =>
    if (env.slots i).querybuf_ok = false then
      (some ExitValue.errno, buffers,
        tr ++ [WorkerEvent.querybuf i false, WorkerEvent.close])
    else
      match (env.slots i).blk with
      | none =>
        (some ExitValue.unspecified, buffers,
          tr ++ [WorkerEvent.querybuf i true, WorkerEvent.get_mb i none, WorkerEvent.close])
      | some blk =>
        let buffers1 := buffers.set i (some blk)
        if (env.slots i).handle2fd_ok = false then
          (some ExitValue.errno, buffers1,
            tr ++ [WorkerEvent.querybuf i true, WorkerEvent.get_mb i (some blk),
              WorkerEvent.handle2fd blk false, WorkerEvent.close])
        else
          query_buffers env rest buffers1
            (tr ++ [WorkerEvent.querybuf i true, WorkerEvent.get_mb i (some blk),
              WorkerEvent.handle2fd blk true])

/-- The second set-up loop of `run_video_stream` (video.c 421-437): queueing the
slots still to queue. -/
def queue_buffers (env : PassEnv) :
    List ℕ → List WorkerEvent → Option ExitValue × List WorkerEvent
  | [], tr => (none, tr)
  | i :: rest, tr =>
    if env.qbuf_ok i = false then
      (some ExitValue.errno, tr ++ [WorkerEvent.qbuf i false, WorkerEvent.close])
    else queue_buffers env rest (tr ++ [WorkerEvent.qbuf i true])

/-- How the capture loop ends: by leaving the loop towards `cleanup` (condition
false or `break`), with the rounds used up, or by the failed assertion. -/
inductive LoopEnd
  | left
  | pending
  | aborted
  deriving DecidableEq

/-- The capture loop of `run_video_stream` (video.c 463-533) over the rounds
still to come, with the frame counter `num`. -/
def capture_loop (width height : ℕ) :
    List Round → ℕ → List WorkerEvent → LoopEnd × List WorkerEvent
  | [], _, tr => (LoopEnd.pending, tr)
  | r :: rest, num, tr =>
    if r.streaming_flag = false then (LoopEnd.left, tr)
    else
      match r.wait with
      | WaitOutcome.timeout => (LoopEnd.left, tr ++ [WorkerEvent.select WaitKind.timeout])
      | WaitOutcome.eintr =>
        capture_loop width height rest num (tr ++ [WorkerEvent.select WaitKind.eintr])
      | WaitOutcome.error => (LoopEnd.left, tr ++ [WorkerEvent.select WaitKind.error])
      | WaitOutcome.ready none _ =>
        (LoopEnd.left, tr ++ [WorkerEvent.select WaitKind.ready, WorkerEvent.dqbuf none])
      | WaitOutcome.ready (some index) frame =>
        let cs := run_video_stream_frame frame index width height
          { num := num, trace := [], running := true }
        let tr1 := tr ++ [WorkerEvent.select WaitKind.ready, WorkerEvent.dqbuf (some index)] ++
          cs.trace.map WorkerEvent.capture
        if cs.running = false then (LoopEnd.aborted, tr1)
        else capture_loop width height rest cs.num tr1

/-- The code at the label `cleanup` of `run_video_stream` (video.c 534-553). -/
def cleanup (k : RkConsts) (env : PassEnv) (buffers : List (Option ℕ)) (s : WorkerState) :
    WorkerState :=
  let r := venc_stop k env.venc s.venc
  { venc := r.2,
    trace := s.trace ++ [WorkerEvent.streamoff env.streamoff_ok, WorkerEvent.venc_stop r.1] ++
      (buffers.filterMap id).map WorkerEvent.release_mb ++ [WorkerEvent.close] }

/-- One evaluation of the condition of the outer loop of `run_video_stream` and,
when it holds, one pass of its body (video.c 322-554); when it does not hold, the
return on line 556.  The `uint32_t` geometry is passed to `venc_start` as
`int32_t` and stored into the `RK_U32` attribute fields. -/
def run_video_stream_pass (k : RkConsts) (env : PassEnv) (s : WorkerState) :
    PassResult × WorkerState :=
  if env.streaming_flag = false then (PassResult.exited ExitValue.null, s)
  else if env.detected_signal = false then
    (PassResult.next, { s with trace := s.trace ++ [WorkerEvent.usleep 10000] })
  else if env.open_ok = false then
    (PassResult.next,
      { s with trace := s.trace ++ [WorkerEvent.open_dev false, WorkerEvent.usleep 1000000] })
  else
    let width := env.detected_width
    let height := env.detected_height
    if env.s_fmt_ok = false then
      (PassResult.next,
        { s with trace := s.trace ++ [WorkerEvent.open_dev true,
            WorkerEvent.s_fmt width height false, WorkerEvent.usleep 100000,
            WorkerEvent.close] })
    else if env.reqbufs_ok = false then
      (PassResult.exited ExitValue.errno,
        { s with trace := s.trace ++ [WorkerEvent.open_dev true,
            WorkerEvent.s_fmt width height true, WorkerEvent.reqbufs false,
            WorkerEvent.close] })
    else
      match query_buffers env (List.range input_buffer_count)
          (List.replicate 3 none)
          (s.trace ++ [WorkerEvent.open_dev true, WorkerEvent.s_fmt width height true,
            WorkerEvent.reqbufs true]) with
      | (some e, _, tr) => (PassResult.exited e, { s with trace := tr })
      | (none, buffers, tr) =>
        match queue_buffers env (List.range input_buffer_count) tr with
        | (some e, tr1) => (PassResult.exited e, { s with trace := tr1 })
        | (none, tr1) =>
          if env.streamon_ok = false then
            (PassResult.exited ExitValue.errno,
              { s with trace := tr1 ++ [WorkerEvent.streamon false, WorkerEvent.close] })
          else
            let r := venc_start k env.venc s.venc
            let s1 : WorkerState :=
              { venc := r.2,
                trace := tr1 ++ [WorkerEvent.streamon true,
                  WorkerEvent.venc_start
                    (wrapInt32 (width % 4294967296) % 4294967296).toNat
                    (wrapInt32 (height % 4294967296) % 4294967296).toNat r.1] }
            if r.1 ≠ k.RK_SUCCESS then (PassResult.next, cleanup k env buffers s1)
            else
              match capture_loop width height env.rounds 0 s1.trace with
              | (LoopEnd.pending, tr2) => (PassResult.pending, { s1 with trace := tr2 })
              | (LoopEnd.aborted, tr2) => (PassResult.aborted, { s1 with trace := tr2 })
              | (LoopEnd.left, tr2) =>
                (PassResult.next, cleanup k env buffers { s1 with trace := tr2 })

/-- Source function `void *run_video_stream(void *arg)` (video.c 316-557) over
the passes the environment supplies; `PassResult.pending` also stands for a
worker that is still in its outer loop when the passes are used up. -/
def run_video_stream (k : RkConsts) : List PassEnv → WorkerState → PassResult × WorkerState
  | [], s => (PassResult.pending, s)
  | env :: rest, s =>
    match run_video_stream_pass k env s with
    | (PassResult.next, s1) => run_video_stream k rest s1
    | r => r

/-- A pass in which every set-up step succeeds: slot `i` gets block `10 + i`. -/
def pass_ok (rounds : List Round) : PassEnv :=
  { streaming_flag := true, detected_signal := true, detected_width := 1920,
    detected_height := 1080, open_ok := true, s_fmt_ok := true, reqbufs_ok := true,
    slots := fun i => ⟨true, some (10 + i), true⟩, qbuf_ok := fun _ => true,
    streamon_ok := true, venc := ⟨0, 0, 0, 7, 0, 0⟩, rounds := rounds, streamoff_ok := true }

/-- The cleanup effects in a trace: stream-off, encoder stop, block release and
device close. -/
def WorkerEvent.isCleanup : WorkerEvent → Bool
  | WorkerEvent.streamoff _ => true
  | WorkerEvent.venc_stop _ => true
  | WorkerEvent.release_mb _ => true
  | WorkerEvent.close => true
  | _ => false

/-- The wait events of a trace, in order. -/
def WorkerEvent.waitKind : WorkerEvent → Option WaitKind
  | WorkerEvent.select r => some r
  | _ => none

/-- A round after which the capture loop goes on in the same session: the loop
condition reads `streaming_flag` true, and the wait was interrupted (`continue`
on line 480) or a buffer was dequeued whose memory block is found. -/
def Round.stays (r : Round) : Bool :=
  r.streaming_flag &&
    match r.wait with
    | WaitOutcome.eintr => true
    | WaitOutcome.ready (some _) frame => frame.blk.isSome
    | _ => false

/-- The answers of the system with which the set-up of a session succeeds, the
three slots getting the blocks `b0`, `b1`, `b2`, and `venc_start` succeeding. -/
def session_starts (env : PassEnv) (b0 b1 b2 : ℕ) : Prop :=
  env.detected_signal = true ∧ env.open_ok = true ∧ env.s_fmt_ok = true ∧
  env.reqbufs_ok = true ∧
  env.slots 0 = ⟨true, some b0, true⟩ ∧ env.slots 1 = ⟨true, some b1, true⟩ ∧
  env.slots 2 = ⟨true, some b2, true⟩ ∧
  env.qbuf_ok 0 = true ∧ env.qbuf_ok 1 = true ∧ env.qbuf_ok 2 = true ∧
  env.streamon_ok = true ∧
  0 ≤ env.venc.create_chn ∧ 0 ≤ env.venc.start_recv_frame ∧ env.venc.pthread_create = 0

instance (env : PassEnv) (b0 b1 b2 : ℕ) : Decidable (session_starts env b0 b1 b2) := by
  unfold session_starts
  exact inferInstance

/-- The effects, in program order, of a set-up in which every step succeeds
(video.c 329-450) for the geometry `width` x `height` and the blocks `b0`, `b1`,
`b2`, `ret` being the value `venc_start` returns. -/
def setup_events (width height b0 b1 b2 : ℕ) (ret : ℤ) : List WorkerEvent :=
  [WorkerEvent.open_dev true, WorkerEvent.s_fmt width height true, WorkerEvent.reqbufs true,
    WorkerEvent.querybuf 0 true, WorkerEvent.get_mb 0 (some b0), WorkerEvent.handle2fd b0 true,
    WorkerEvent.querybuf 1 true, WorkerEvent.get_mb 1 (some b1), WorkerEvent.handle2fd b1 true,
    WorkerEvent.querybuf 2 true, WorkerEvent.get_mb 2 (some b2), WorkerEvent.handle2fd b2 true,
    WorkerEvent.qbuf 0 true, WorkerEvent.qbuf 1 true, WorkerEvent.qbuf 2 true,
    WorkerEvent.streamon true,
    WorkerEvent.venc_start (width % 4294967296) (height % 4294967296) ret]

/-- The effects of the code at the label `cleanup` for a session holding the
blocks `b0`, `b1`, `b2`. -/
def cleanup_events (streamoff_ok : Bool) (ret : ℤ) (b0 b1 b2 : ℕ) : List WorkerEvent :=
  [WorkerEvent.streamoff streamoff_ok, WorkerEvent.venc_stop ret, WorkerEvent.release_mb b0,
    WorkerEvent.release_mb b1, WorkerEvent.release_mb b2, WorkerEvent.close]

/-! ## Rounding lemmas -/

theorem roundHalfEven_intCast (n : ℤ) : roundHalfEven (n : ℚ) = n := by
  simp [roundHalfEven]

theorem floor_le_roundHalfEven (q : ℚ) : ⌊q⌋ ≤ roundHalfEven q := by
  unfold roundHalfEven
  simp only
  split_ifs <;> omega

theorem roundHalfEven_le_floor_succ (q : ℚ) : roundHalfEven q ≤ ⌊q⌋ + 1 := by
  unfold roundHalfEven
  simp only
  split_ifs <;> omega

theorem roundHalfEven_mono {p q : ℚ} (h : p ≤ q) : roundHalfEven p ≤ roundHalfEven q := by
  rcases (Int.floor_mono h).lt_or_eq with hlt | heq
  · calc roundHalfEven p ≤ ⌊p⌋ + 1 := roundHalfEven_le_floor_succ p
      _ ≤ ⌊q⌋ := hlt
      _ ≤ roundHalfEven q := floor_le_roundHalfEven q
  · unfold roundHalfEven
    simp only
    rw [← heq]
    have hpq : p - ⌊p⌋ ≤ q - ⌊p⌋ := by linarith
    split_ifs <;> first | omega | linarith

theorem roundHalfEven_le_of_le {q : ℚ} {n : ℤ} (h : q ≤ n) : roundHalfEven q ≤ n := by
  have := roundHalfEven_mono h
  rwa [roundHalfEven_intCast] at this

theorem le_roundHalfEven_of_le {q : ℚ} {n : ℤ} (h : (n : ℚ) ≤ q) : n ≤ roundHalfEven q := by
  have := roundHalfEven_mono h
  rwa [roundHalfEven_intCast] at this

theorem two_zpow_pos (k : ℤ) : (0 : ℚ) < 2 ^ k := zpow_pos (by norm_num) k

theorem roundNE_zero (prec : ℕ) (emin : ℤ) : roundNE prec emin 0 = 0 := by
  simp [roundNE, roundHalfEven]

theorem roundNE_nonneg (prec : ℕ) (emin : ℤ) {x : ℚ} (hx : 0 ≤ x) : 0 ≤ roundNE prec emin x := by
  unfold roundNE
  simp only
  have hu := two_zpow_pos (max (Int.log 2 |x|) emin - (prec : ℤ) + 1)
  have hq : ((0 : ℤ) : ℚ) ≤ x / 2 ^ (max (Int.log 2 |x|) emin - (prec : ℤ) + 1) := by
    simpa using div_nonneg hx hu.le
  have := le_roundHalfEven_of_le hq
  have h2 : (0 : ℚ) ≤ (roundHalfEven (x / 2 ^ (max (Int.log 2 |x|) emin - (prec : ℤ) + 1)) : ℚ) := by
    exact_mod_cast this
  exact mul_nonneg h2 hu.le

/-- Upper bound inside a binade: a positive value rounds to at most the next power of two. -/
theorem roundNE_le_zpow (prec : ℕ) (emin : ℤ) {x : ℚ} (hx : 0 < x) :
    roundNE prec emin x ≤ 2 ^ (max (Int.log 2 |x|) emin + 1) := by
  unfold roundNE
  simp only
  set e := max (Int.log 2 |x|) emin with he
  have hu := two_zpow_pos (e - (prec : ℤ) + 1)
  have hxlt : x < 2 ^ (e + 1) := by
    have h1 : x < 2 ^ (Int.log 2 x + 1) := Int.lt_zpow_succ_log_self (by norm_num) x
    have h2 : (2 : ℚ) ^ (Int.log 2 x + 1) ≤ 2 ^ (e + 1) := by
      apply zpow_le_zpow_right₀ (by norm_num)
      have : Int.log 2 x ≤ e := by rw [he, abs_of_pos hx]; exact le_max_left _ _
      omega
    exact lt_of_lt_of_le h1 h2
  have hq : x / 2 ^ (e - (prec : ℤ) + 1) ≤ ((2 ^ prec : ℤ) : ℚ) := by
    rw [div_le_iff₀ hu]
    have : ((2 ^ prec : ℤ) : ℚ) * 2 ^ (e - (prec : ℤ) + 1) = 2 ^ (e + 1) := by
      push_cast
      rw [← zpow_natCast, ← zpow_add₀ (by norm_num)]
      congr 1
      ring
    rw [this]
    exact hxlt.le
  have h3 := roundHalfEven_le_of_le hq
  have h4 : (roundHalfEven (x / 2 ^ (e - (prec : ℤ) + 1)) : ℚ) ≤ ((2 ^ prec : ℤ) : ℚ) := by
    exact_mod_cast h3
  calc (roundHalfEven (x / 2 ^ (e - (prec : ℤ) + 1)) : ℚ) * 2 ^ (e - (prec : ℤ) + 1)
      ≤ ((2 ^ prec : ℤ) : ℚ) * 2 ^ (e - (prec : ℤ) + 1) := mul_le_mul_of_nonneg_right h4 hu.le
    _ = 2 ^ (e + 1) := by
      push_cast
      rw [← zpow_natCast, ← zpow_add₀ (by norm_num)]
      congr 1
      ring

/-- Lower bound for a normal value: it rounds to at least the power of two below it. -/
theorem zpow_le_roundNE (prec : ℕ) (emin : ℤ) (hp : 1 ≤ prec) {x : ℚ} (hx : 0 < x)
    (hn : emin ≤ Int.log 2 |x|) : 2 ^ (Int.log 2 |x|) ≤ roundNE prec emin x := by
  unfold roundNE
  simp only
  rw [max_eq_left hn]
  set e := Int.log 2 |x| with he
  have hu := two_zpow_pos (e - (prec : ℤ) + 1)
  have hxge : (2 : ℚ) ^ e ≤ x := by
    have := Int.zpow_log_le_self (b := 2) (by norm_num) hx
    rw [he, abs_of_pos hx]
    exact_mod_cast this
  have hpow : ((2 ^ (prec - 1) : ℤ) : ℚ) * 2 ^ (e - (prec : ℤ) + 1) = 2 ^ e := by
    push_cast
    rw [← zpow_natCast, ← zpow_add₀ (by norm_num)]
    congr 1
    have : ((prec - 1 : ℕ) : ℤ) = (prec : ℤ) - 1 := by omega
    rw [this]
    ring
  have hq : ((2 ^ (prec - 1) : ℤ) : ℚ) ≤ x / 2 ^ (e - (prec : ℤ) + 1) := by
    rw [le_div_iff₀ hu, hpow]
    exact hxge
  have h3 := le_roundHalfEven_of_le hq
  have h4 : ((2 ^ (prec - 1) : ℤ) : ℚ) ≤ (roundHalfEven (x / 2 ^ (e - (prec : ℤ) + 1)) : ℚ) := by
    exact_mod_cast h3
  calc (2 : ℚ) ^ e = ((2 ^ (prec - 1) : ℤ) : ℚ) * 2 ^ (e - (prec : ℤ) + 1) := hpow.symm
    _ ≤ _ := mul_le_mul_of_nonneg_right h4 hu.le

theorem roundNE_mono (prec : ℕ) (emin : ℤ) (hp : 1 ≤ prec) {x y : ℚ} (hx : 0 ≤ x)
    (hxy : x ≤ y) : roundNE prec emin x ≤ roundNE prec emin y := by
  rcases hx.lt_or_eq with hx0 | hx0
  · have hy0 : 0 < y := lt_of_lt_of_le hx0 hxy
    have hlog : Int.log 2 |x| ≤ Int.log 2 |y| := by
      rw [abs_of_pos hx0, abs_of_pos hy0]
      exact Int.log_mono_right hx0 hxy
    have hmax : max (Int.log 2 |x|) emin ≤ max (Int.log 2 |y|) emin := max_le_max hlog le_rfl
    rcases hmax.lt_or_eq with hlt | heq
    · have hn : emin ≤ Int.log 2 |y| := by
        by_contra hcon
        push_neg at hcon
        rw [max_eq_right hcon.le] at hlt
        have := le_max_right (Int.log 2 |x|) emin
        omega
      rw [max_eq_left hn] at hlt
      calc roundNE prec emin x ≤ 2 ^ (max (Int.log 2 |x|) emin + 1) := roundNE_le_zpow prec emin hx0
        _ ≤ 2 ^ (Int.log 2 |y|) := zpow_le_zpow_right₀ (by norm_num) (by omega)
        _ ≤ roundNE prec emin y := zpow_le_roundNE prec emin hp hy0 hn
    · unfold roundNE
      simp only
      rw [heq]
      have hu := two_zpow_pos (max (Int.log 2 |y|) emin - (prec : ℤ) + 1)
      apply mul_le_mul_of_nonneg_right _ hu.le
      have := roundHalfEven_mono (div_le_div_of_nonneg_right hxy hu.le)
      exact_mod_cast this
  · rw [← hx0, roundNE_zero]
    exact roundNE_nonneg prec emin (hx0 ▸ hxy)

theorem roundNE_intCast (prec : ℕ) (emin : ℤ) (hemin : emin + 1 ≤ prec) (n : ℤ)
    (hn : |n| < 2 ^ prec) : roundNE prec emin (n : ℚ) = n := by
  rcases eq_or_ne n 0 with h0 | h0
  · subst h0
    simpa using roundNE_zero prec emin
  · have habs : (0 : ℚ) < |(n : ℚ)| := abs_pos.mpr (by exact_mod_cast h0)
    have hlt : |(n : ℚ)| < 2 ^ (prec : ℤ) := by
      rw [zpow_natCast]
      exact_mod_cast hn
    have hlog : Int.log 2 |(n : ℚ)| < prec :=
      (Int.lt_zpow_iff_log_lt (by norm_num) habs).mp hlt
    unfold roundNE
    simp only
    set e := max (Int.log 2 |(n : ℚ)|) emin with he
    have hle : e - (prec : ℤ) + 1 ≤ 0 := by
      have : e ≤ (prec : ℤ) - 1 := max_le (by omega) (by omega)
      omega
    obtain ⟨j, hj⟩ : ∃ j : ℕ, e - (prec : ℤ) + 1 = -(j : ℤ) :=
      ⟨(-(e - (prec : ℤ) + 1)).toNat, by omega⟩
    rw [hj]
    have hq : (n : ℚ) / 2 ^ (-(j : ℤ)) = ((n * 2 ^ j : ℤ) : ℚ) := by
      rw [zpow_neg, zpow_natCast]
      push_cast
      field_simp
    rw [hq, roundHalfEven_intCast, zpow_neg, zpow_natCast]
    push_cast
    field_simp
/-! ### The two formats -/

theorem f32_mono {x y : ℚ} (hx : 0 ≤ x) (hxy : x ≤ y) : f32 x ≤ f32 y :=
  roundNE_mono 24 (-126) (by norm_num) hx hxy

theorem f64_mono {x y : ℚ} (hx : 0 ≤ x) (hxy : x ≤ y) : f64 x ≤ f64 y :=
  roundNE_mono 53 (-1022) (by norm_num) hx hxy

theorem f32_nonneg {x : ℚ} (hx : 0 ≤ x) : 0 ≤ f32 x := roundNE_nonneg 24 (-126) hx

theorem f64_nonneg {x : ℚ} (hx : 0 ≤ x) : 0 ≤ f64 x := roundNE_nonneg 53 (-1022) hx

theorem f32_nat (n : ℕ) (hn : n < 2 ^ 24) : f32 (n : ℚ) = n := by
  have h := roundNE_intCast 24 (-126) (by norm_num) (n : ℤ) (by rw [Nat.abs_cast]; exact_mod_cast hn)
  simpa [f32] using h

theorem f64_nat (n : ℕ) (hn : n < 2 ^ 53) : f64 (n : ℚ) = n := by
  have h := roundNE_intCast 53 (-1022) (by norm_num) (n : ℤ) (by rw [Nat.abs_cast]; exact_mod_cast hn)
  simpa [f64] using h

theorem f64_ref_pixels : f64 (1920 * 1080) = 2073600 := by
  have h := f64_nat 2073600 (by norm_num)
  norm_num at h ⊢
  exact h

/-! ### Conversions to `int32_t` -/

theorem truncToInt_of_nonneg {x : ℚ} (hx : 0 ≤ x) : truncToInt x = ⌊x⌋ := by
  simp [truncToInt, hx]

theorem truncToInt_intCast (n : ℤ) : truncToInt (n : ℚ) = n := by
  unfold truncToInt
  split_ifs <;> simp

theorem truncToInt_mono {x y : ℚ} (hx : 0 ≤ x) (hxy : x ≤ y) : truncToInt x ≤ truncToInt y := by
  rw [truncToInt_of_nonneg hx, truncToInt_of_nonneg (hx.trans hxy)]
  exact Int.floor_mono hxy

theorem toInt32_of_fits (ovf : ℚ → ℤ) {x : ℚ} (hx : 0 ≤ x) (hlt : x < 2147483648) :
    toInt32 ovf x = ⌊x⌋ := by
  have h0 : (0 : ℤ) ≤ ⌊x⌋ := Int.floor_nonneg.mpr hx
  have h1 : ⌊x⌋ < 2147483648 := by
    rw [Int.floor_lt]
    exact_mod_cast hlt
  rw [toInt32, truncToInt_of_nonneg hx, if_pos]
  constructor
  · simp only [INT32_MIN]; omega
  · simp only [INT32_MAX]; omega

theorem toInt32_saturate {x : ℚ} (hx : 0 ≤ x) :
    toInt32 ovfSaturate x = min ⌊x⌋ INT32_MAX := by
  have h0 : (0 : ℤ) ≤ ⌊x⌋ := Int.floor_nonneg.mpr hx
  rw [toInt32, truncToInt_of_nonneg hx]
  split_ifs with h
  · rw [min_eq_left h.2]
  · have hgt : INT32_MAX < ⌊x⌋ := by
      by_contra hcon
      exact h ⟨by simp only [INT32_MIN]; omega, not_lt.mp hcon⟩
    rw [min_eq_right hgt.le]
    simp [ovfSaturate, not_lt.mpr hx, wrapInt32, INT32_MAX]

/-! ### Structure of `calculate_bitrate` -/

theorem calculate_bitrate_eq (ovf : ℚ → ℤ) (f : ℚ) (w h : ℤ) :
    calculate_bitrate ovf f w h
      = ((max 100 (toInt32 ovf (f64 ((base_bitrate ovf f : ℚ) * scale_factor w h))) : ℤ) : ℚ) := by
  unfold calculate_bitrate base_bitrate scale_factor
  simp only
  congr 1
  split_ifs with hlt
  · rw [max_eq_left hlt.le]
  · rw [max_eq_right (not_lt.mp hlt)]

theorem f32_interp_bounds {f : ℚ} (h0 : 0 ≤ f) (h1 : f ≤ 1) :
    0 ≤ f32 (((2000 - 512 : ℤ) : ℚ) * f) ∧ f32 (((2000 - 512 : ℤ) : ℚ) * f) ≤ 1488 := by
  have hx : (0 : ℚ) ≤ ((2000 - 512 : ℤ) : ℚ) * f := by
    apply mul_nonneg _ h0
    norm_num
  refine ⟨f32_nonneg hx, ?_⟩
  have hle : ((2000 - 512 : ℤ) : ℚ) * f ≤ ((1488 : ℕ) : ℚ) := by
    norm_num
    linarith
  have := f32_mono hx hle
  rw [f32_nat 1488 (by norm_num)] at this
  exact_mod_cast this

theorem base_bitrate_eq (ovf : ℚ → ℤ) {f : ℚ} (h0 : 0 ≤ f) (h1 : f ≤ 1) :
    base_bitrate ovf f = 512 + ⌊f32 (((2000 - 512 : ℤ) : ℚ) * f)⌋ := by
  obtain ⟨hlo, hhi⟩ := f32_interp_bounds h0 h1
  have hfl0 : (0 : ℤ) ≤ ⌊f32 (((2000 - 512 : ℤ) : ℚ) * f)⌋ := Int.floor_nonneg.mpr hlo
  have hfl1 : ⌊f32 (((2000 - 512 : ℤ) : ℚ) * f)⌋ ≤ 1488 := by
    have := Int.floor_mono hhi
    simpa using this
  unfold base_bitrate
  rw [toInt32_of_fits ovf hlo (by linarith)]
  unfold wrapInt32
  omega

theorem base_bitrate_bounds (ovf : ℚ → ℤ) {f : ℚ} (h0 : 0 ≤ f) (h1 : f ≤ 1) :
    512 ≤ base_bitrate ovf f ∧ base_bitrate ovf f ≤ 2000 := by
  obtain ⟨hlo, hhi⟩ := f32_interp_bounds h0 h1
  have hfl0 : (0 : ℤ) ≤ ⌊f32 (((2000 - 512 : ℤ) : ℚ) * f)⌋ := Int.floor_nonneg.mpr hlo
  have hfl1 : ⌊f32 (((2000 - 512 : ℤ) : ℚ) * f)⌋ ≤ 1488 := by
    have := Int.floor_mono hhi
    simpa using this
  rw [base_bitrate_eq ovf h0 h1]
  omega

theorem base_bitrate_mono (ovf : ℚ → ℤ) {f1 f2 : ℚ} (h0 : 0 ≤ f1) (h12 : f1 ≤ f2)
    (h1 : f2 ≤ 1) : base_bitrate ovf f1 ≤ base_bitrate ovf f2 := by
  rw [base_bitrate_eq ovf h0 (h12.trans h1), base_bitrate_eq ovf (h0.trans h12) h1]
  have hx : (0 : ℚ) ≤ ((2000 - 512 : ℤ) : ℚ) * f1 := by
    apply mul_nonneg _ h0
    norm_num
  have hle : ((2000 - 512 : ℤ) : ℚ) * f1 ≤ ((2000 - 512 : ℤ) : ℚ) * f2 := by
    apply mul_le_mul_of_nonneg_left h12
    norm_num
  have := Int.floor_mono (f32_mono hx hle)
  omega

theorem scale_factor_nonneg {w h : ℤ} (hpos : 0 ≤ w * h) : 0 ≤ scale_factor w h := by
  unfold scale_factor
  apply f64_nonneg
  rw [f64_ref_pixels]
  apply div_nonneg _ (by norm_num)
  apply f64_nonneg
  exact_mod_cast hpos

theorem scale_factor_le {w h : ℤ} (hpos : 0 ≤ w * h) (hfit : w * h ≤ 1920 * 1080 * 2 ^ 20) :
    scale_factor w h ≤ 1048576 := by
  unfold scale_factor
  rw [f64_ref_pixels]
  have hwh : (0 : ℚ) ≤ (w : ℚ) * (h : ℚ) := by exact_mod_cast hpos
  have h1 : f64 ((w : ℚ) * (h : ℚ)) ≤ 2174327193600 := by
    have hle : (w : ℚ) * (h : ℚ) ≤ ((2174327193600 : ℕ) : ℚ) := by
      have : ((w * h : ℤ) : ℚ) ≤ ((1920 * 1080 * 2 ^ 20 : ℤ) : ℚ) := by exact_mod_cast hfit
      push_cast at this
      norm_num at this ⊢
      exact this
    have := f64_mono hwh hle
    rw [f64_nat _ (by norm_num)] at this
    exact_mod_cast this
  have h2 : f64 ((w : ℚ) * (h : ℚ)) / 2073600 ≤ ((1048576 : ℕ) : ℚ) := by
    rw [div_le_iff₀ (by norm_num)]
    norm_num
    linarith
  have := f64_mono (div_nonneg (f64_nonneg hwh) (by norm_num)) h2
  rw [f64_nat _ (by norm_num)] at this
  exact_mod_cast this
/-! ### Evaluating a rounding at a concrete operand -/

theorem roundHalfEven_eq_of_near {q : ℚ} (n : ℤ) (h1 : (n : ℚ) - 1 / 2 < q)
    (h2 : q < (n : ℚ) + 1 / 2) : roundHalfEven q = n := by
  have hfl : ⌊q⌋ = n ∨ ⌊q⌋ = n - 1 := by
    have ha : n - 1 ≤ ⌊q⌋ := by
      rw [Int.le_floor]
      push_cast
      linarith
    have hb : ⌊q⌋ < n + 1 := by
      rw [Int.floor_lt]
      push_cast
      linarith
    omega
  have hle := Int.floor_le q
  have hlt := Int.lt_floor_add_one q
  unfold roundHalfEven
  simp only
  rcases hfl with hf | hf
  · rw [hf] at hle hlt ⊢
    rw [if_pos (by linarith)]
  · rw [hf] at hle hlt ⊢
    push_cast at hle hlt ⊢
    rw [if_neg (by linarith), if_pos (by linarith)]
    ring

theorem log_two_eq {x : ℚ} (e : ℤ) (hx : 0 < x) (h1 : (2 : ℚ) ^ e ≤ x)
    (h2 : x < (2 : ℚ) ^ (e + 1)) : Int.log 2 x = e := by
  have ha : e ≤ Int.log 2 x := (Int.zpow_le_iff_le_log (by norm_num) hx).mp (by exact_mod_cast h1)
  have hb : Int.log 2 x < e + 1 := (Int.lt_zpow_iff_log_lt (by norm_num) hx).mp (by exact_mod_cast h2)
  omega

theorem roundNE_eq_of_near (prec : ℕ) (emin : ℤ) {x : ℚ} (e n : ℤ) (hx : 0 < x)
    (h1 : (2 : ℚ) ^ e ≤ x) (h2 : x < (2 : ℚ) ^ (e + 1)) (hemin : emin ≤ e)
    (hn1 : ((n : ℚ) - 1 / 2) * 2 ^ (e - (prec : ℤ) + 1) < x)
    (hn2 : x < ((n : ℚ) + 1 / 2) * 2 ^ (e - (prec : ℤ) + 1)) :
    roundNE prec emin x = (n : ℚ) * 2 ^ (e - (prec : ℤ) + 1) := by
  unfold roundNE
  simp only
  rw [abs_of_pos hx, log_two_eq e hx h1 h2, max_eq_left hemin]
  have hu := two_zpow_pos (e - (prec : ℤ) + 1)
  rw [roundHalfEven_eq_of_near n ((lt_div_iff₀ hu).mpr hn1) ((div_lt_iff₀ hu).mpr hn2)]

theorem f32_quality_near_one_1488th : f32 (11545611 / 2 ^ 34) = 11545611 / 2 ^ 34 := by
  have h := roundNE_eq_of_near 24 (-126) (x := 11545611 / 2 ^ 34) (-11) 11545611
    (by norm_num) (by norm_num) (by norm_num) (by norm_num) (by norm_num) (by norm_num)
  rw [f32, h]
  norm_num

theorem f32_interp_near_one_1488th :
    f32 (((2000 - 512 : ℤ) : ℚ) * (11545611 / 2 ^ 34)) = 1 := by
  have h := roundNE_eq_of_near 24 (-126) (x := ((2000 - 512 : ℤ) : ℚ) * (11545611 / 2 ^ 34))
    (-1) 16777216
    (by norm_num) (by norm_num) (by norm_num) (by norm_num) (by norm_num) (by norm_num)
  rw [f32, h]
  norm_num

theorem scale_factor_full_hd {w h : ℤ} (hwh : w * h = 1920 * 1080) : scale_factor w h = 1 := by
  have hq : (w : ℚ) * (h : ℚ) = ((2073600 : ℕ) : ℚ) := by
    have : ((w * h : ℤ) : ℚ) = ((1920 * 1080 : ℤ) : ℚ) := by rw [hwh]
    push_cast at this
    norm_num at this ⊢
    exact this
  unfold scale_factor
  rw [f64_ref_pixels, hq, f64_nat _ (by norm_num)]
  have h1 := f64_nat 1 (by norm_num)
  norm_num at h1 ⊢
  exact h1

theorem scale_factor_pow21 : scale_factor 1966080 2211840 = 2097152 := by
  unfold scale_factor
  rw [f64_ref_pixels]
  have hq : ((1966080 : ℤ) : ℚ) * ((2211840 : ℤ) : ℚ) = ((4348654387200 : ℕ) : ℚ) := by norm_num
  rw [hq, f64_nat _ (by norm_num)]
  have h1 := f64_nat 2097152 (by norm_num)
  norm_num at h1 ⊢
  exact h1

theorem base_bitrate_zero (ovf : ℚ → ℤ) : base_bitrate ovf 0 = 512 := by
  rw [base_bitrate_eq ovf le_rfl (by norm_num)]
  have : f32 (((2000 - 512 : ℤ) : ℚ) * 0) = 0 := by
    rw [mul_zero]
    exact roundNE_zero 24 (-126)
  rw [this]
  simp

theorem base_bitrate_one (ovf : ℚ → ℤ) : base_bitrate ovf 1 = 2000 := by
  rw [base_bitrate_eq ovf (by norm_num) le_rfl]
  have h := f32_nat 1488 (by norm_num)
  have : f32 (((2000 - 512 : ℤ) : ℚ) * 1) = 1488 := by
    norm_num at h ⊢
    exact h
  rw [this]
  have : ⌊(1488 : ℚ)⌋ = 1488 := by
    have := Int.floor_intCast (α := ℚ) 1488
    exact_mod_cast this
  rw [this]
  norm_num

theorem toInt32_nat (ovf : ℚ → ℤ) (n : ℕ) (hn : n < 2147483648) :
    toInt32 ovf (n : ℚ) = n := by
  rw [toInt32_of_fits ovf (by positivity) (by exact_mod_cast hn)]
  exact Int.floor_natCast n

/-! ### Claims on `calculate_bitrate` -/

/-- C1 (as amended): for every width and height with `0 < w*h <= 1920*1080*2^20`
(the scaled value then fits `int32_t`), and for every `w*h > 0` when the
out-of-range conversion saturates, the bitrate is monotonically non-decreasing in
the quality factor over `[0,1]`. -/
theorem calculate_bitrate_mono (ovf : ℚ → ℤ) (f1 f2 : ℚ) (w h : ℤ) (h0 : 0 ≤ f1)
    (h12 : f1 ≤ f2) (h1 : f2 ≤ 1) (hpos : 0 < w * h)
    (hfit : w * h ≤ 1920 * 1080 * 2 ^ 20 ∨ ovf = ovfSaturate) :
    calculate_bitrate ovf f1 w h ≤ calculate_bitrate ovf f2 w h := by
  have hs := scale_factor_nonneg hpos.le
  have hb1 := base_bitrate_bounds ovf h0 (h12.trans h1)
  have hb2 := base_bitrate_bounds ovf (h0.trans h12) h1
  have hbm := base_bitrate_mono ovf h0 h12 h1
  have hx1 : (0 : ℚ) ≤ (base_bitrate ovf f1 : ℚ) * scale_factor w h :=
    mul_nonneg (by exact_mod_cast (by omega : (0 : ℤ) ≤ base_bitrate ovf f1)) hs
  have hx12 : (base_bitrate ovf f1 : ℚ) * scale_factor w h
      ≤ (base_bitrate ovf f2 : ℚ) * scale_factor w h :=
    mul_le_mul_of_nonneg_right (by exact_mod_cast hbm) hs
  have hv1 := f64_nonneg hx1
  have hv12 := f64_mono hx1 hx12
  rw [calculate_bitrate_eq, calculate_bitrate_eq]
  have key : toInt32 ovf (f64 ((base_bitrate ovf f1 : ℚ) * scale_factor w h))
      ≤ toInt32 ovf (f64 ((base_bitrate ovf f2 : ℚ) * scale_factor w h)) := by
    rcases hfit with hfit | hsat
    · have hsc := scale_factor_le hpos.le hfit
      have hx2 : (base_bitrate ovf f2 : ℚ) * scale_factor w h ≤ ((2097152000 : ℕ) : ℚ) := by
        have hb : (base_bitrate ovf f2 : ℚ) ≤ 2000 := by exact_mod_cast hb2.2
        have : (base_bitrate ovf f2 : ℚ) * scale_factor w h ≤ 2000 * 1048576 :=
          mul_le_mul hb hsc hs (by norm_num)
        norm_num at this ⊢
        exact this
      have hv2 := f64_mono (hx1.trans hx12) hx2
      rw [f64_nat _ (by norm_num)] at hv2
      have hv2lt : f64 ((base_bitrate ovf f2 : ℚ) * scale_factor w h) < 2147483648 :=
        lt_of_le_of_lt hv2 (by norm_num)
      rw [toInt32_of_fits ovf hv1 (lt_of_le_of_lt hv12 hv2lt),
        toInt32_of_fits ovf (hv1.trans hv12) hv2lt]
      exact Int.floor_mono hv12
    · subst hsat
      rw [toInt32_saturate hv1, toInt32_saturate (hv1.trans hv12)]
      exact min_le_min (Int.floor_mono hv12) le_rfl
  exact_mod_cast max_le_max le_rfl key

/-- C1, witness: 1920x1080, quality factors 0 and 1. -/
theorem calculate_bitrate_mono_witness :
    calculate_bitrate ovfIndefinite 0 1920 1080 ≤ calculate_bitrate ovfIndefinite 1 1920 1080 :=
  calculate_bitrate_mono ovfIndefinite 0 1 1920 1080 le_rfl (by norm_num) le_rfl (by norm_num)
    (Or.inl (by norm_num))

/-- C1, counterexample: at 1966080x2211840 (both valid `int`, product positive)
the scaled value for quality factor 1 is 4194304000, outside `int32_t`; where the
conversion then yields `INT32_MIN` the result is floored to 100, below the
1073741824 obtained for quality factor 0. -/
theorem calculate_bitrate_not_mono :
    calculate_bitrate ovfIndefinite 0 1966080 2211840 = 1073741824 ∧
    calculate_bitrate ovfIndefinite 1 1966080 2211840 = 100 ∧
    ¬ (calculate_bitrate ovfIndefinite 0 1966080 2211840
        ≤ calculate_bitrate ovfIndefinite 1 1966080 2211840) := by
  have e0 : calculate_bitrate ovfIndefinite 0 1966080 2211840 = 1073741824 := by
    rw [calculate_bitrate_eq, base_bitrate_zero, scale_factor_pow21]
    have hq : ((512 : ℤ) : ℚ) * 2097152 = ((1073741824 : ℕ) : ℚ) := by norm_num
    rw [hq, f64_nat _ (by norm_num), toInt32_nat _ _ (by norm_num)]
    norm_num
  have e1 : calculate_bitrate ovfIndefinite 1 1966080 2211840 = 100 := by
    rw [calculate_bitrate_eq, base_bitrate_one, scale_factor_pow21]
    have hq : ((2000 : ℤ) : ℚ) * 2097152 = ((4194304000 : ℕ) : ℚ) := by norm_num
    rw [hq, f64_nat _ (by norm_num)]
    have : toInt32 ovfIndefinite ((4194304000 : ℕ) : ℚ) = -2147483648 := by
      unfold toInt32
      rw [truncToInt_of_nonneg (by positivity), Int.floor_natCast]
      simp [INT32_MIN, INT32_MAX, ovfIndefinite, wrapInt32]
    rw [this]
    norm_num
  refine ⟨e0, e1, ?_⟩
  rw [e0, e1]
  norm_num

/-- C2: for every quality factor, width and height, and whatever the conversion to
`int32_t` yields, `calculate_bitrate` returns at least 100. -/
theorem calculate_bitrate_ge_min (ovf : ℚ → ℤ) (f : ℚ) (w h : ℤ) :
    100 ≤ calculate_bitrate ovf f w h := by
  rw [calculate_bitrate_eq]
  exact_mod_cast le_max_left (100 : ℤ) _

theorem floor_f32_interp_near {f : ℚ} (h0 : 0 ≤ f) (h1 : f ≤ 1) :
    ⌊(1488 : ℚ) * f⌋ ≤ ⌊f32 (((2000 - 512 : ℤ) : ℚ) * f)⌋ ∧
    ⌊f32 (((2000 - 512 : ℤ) : ℚ) * f)⌋ ≤ ⌊(1488 : ℚ) * f⌋ + 1 := by
  have hcast : ((2000 - 512 : ℤ) : ℚ) * f = 1488 * f := by norm_num
  rw [hcast]
  have hx : (0 : ℚ) ≤ 1488 * f := by positivity
  have hfl0 : (0 : ℤ) ≤ ⌊(1488 : ℚ) * f⌋ := Int.floor_nonneg.mpr hx
  have hfl1 : ⌊(1488 : ℚ) * f⌋ ≤ 1488 := by
    have : (1488 : ℚ) * f ≤ ((1488 : ℤ) : ℚ) := by
      push_cast
      linarith
    have := Int.floor_mono this
    rwa [Int.floor_intCast] at this
  obtain ⟨k, hk⟩ : ∃ k : ℕ, ⌊(1488 : ℚ) * f⌋ = (k : ℤ) := ⟨⌊(1488 : ℚ) * f⌋.toNat, by omega⟩
  have hk1 : k ≤ 1488 := by omega
  have hlo : ((k : ℕ) : ℚ) ≤ 1488 * f := by
    have := Int.floor_le ((1488 : ℚ) * f)
    rw [hk] at this
    exact_mod_cast this
  have hhi : 1488 * f ≤ ((k + 1 : ℕ) : ℚ) := by
    have := (Int.lt_floor_add_one ((1488 : ℚ) * f)).le
    rw [hk] at this
    exact_mod_cast this
  have r1 := f32_mono (by positivity) hlo
  rw [f32_nat k (by omega)] at r1
  have r2 := f32_mono hx hhi
  rw [f32_nat (k + 1) (by omega)] at r2
  rw [hk]
  constructor
  · rw [Int.le_floor]
    exact_mod_cast r1
  · have := Int.floor_mono r2
    rw [Int.floor_natCast] at this
    exact_mod_cast this

/-- C3 (as amended): for every quality factor in `[0,1]` and every resolution with
`0 < w*h <= 1920*1080*2^20`, `calculate_bitrate` equals
`max(100, trunc(fl(B * fl(fl(w*h) / (1920*1080)))))`, where `fl` rounds to the
nearest `double` and `B = 512 + trunc(fl32(1488 * f))` with `fl32` rounding the
product to the nearest `float`; `B` is the exact interpolation
`512 + trunc(1488 * f)` or one more; at 1920x1080 the result is `B`, which is 512
for `f = 0` and 2000 for `f = 1`. -/
theorem calculate_bitrate_formula (ovf : ℚ → ℤ) (f : ℚ) (w h : ℤ) (h0 : 0 ≤ f) (h1 : f ≤ 1)
    (hpos : 0 < w * h) (hfit : w * h ≤ 1920 * 1080 * 2 ^ 20) :
    calculate_bitrate ovf f w h
        = ((max 100 (truncToInt (f64 (((512 + truncToInt (f32 (1488 * f)) : ℤ) : ℚ)
            * f64 (f64 ((w : ℚ) * (h : ℚ)) / (1920 * 1080))))) : ℤ) : ℚ) ∧
    512 + truncToInt (1488 * f) ≤ 512 + truncToInt (f32 (1488 * f)) ∧
    512 + truncToInt (f32 (1488 * f)) ≤ 512 + truncToInt (1488 * f) + 1 ∧
    (w * h = 1920 * 1080 →
      calculate_bitrate ovf f w h = ((512 + truncToInt (f32 (1488 * f)) : ℤ) : ℚ)) ∧
    (f = 0 → 512 + truncToInt (f32 (1488 * f)) = 512) ∧
    (f = 1 → 512 + truncToInt (f32 (1488 * f)) = 2000) := by
  have hcast : ((2000 - 512 : ℤ) : ℚ) * f = 1488 * f := by norm_num
  have hx : (0 : ℚ) ≤ 1488 * f := by positivity
  obtain ⟨hlo, hhi⟩ := f32_interp_bounds h0 h1
  rw [hcast] at hlo hhi
  have hB : base_bitrate ovf f = 512 + truncToInt (f32 (1488 * f)) := by
    rw [base_bitrate_eq ovf h0 h1, hcast, truncToInt_of_nonneg hlo]
  have hb := base_bitrate_bounds ovf h0 h1
  have hs := scale_factor_nonneg hpos.le
  have hsc := scale_factor_le hpos.le hfit
  have hxs : (0 : ℚ) ≤ (base_bitrate ovf f : ℚ) * scale_factor w h :=
    mul_nonneg (by exact_mod_cast (by omega : (0 : ℤ) ≤ base_bitrate ovf f)) hs
  have hv := f64_nonneg hxs
  have hvlt : f64 ((base_bitrate ovf f : ℚ) * scale_factor w h) < 2147483648 := by
    have hx2 : (base_bitrate ovf f : ℚ) * scale_factor w h ≤ ((2097152000 : ℕ) : ℚ) := by
      have hbq : (base_bitrate ovf f : ℚ) ≤ 2000 := by exact_mod_cast hb.2
      have : (base_bitrate ovf f : ℚ) * scale_factor w h ≤ 2000 * 1048576 :=
        mul_le_mul hbq hsc hs (by norm_num)
      norm_num at this ⊢
      exact this
    have hv2 := f64_mono hxs hx2
    rw [f64_nat _ (by norm_num)] at hv2
    exact lt_of_le_of_lt hv2 (by norm_num)
  have hnear := floor_f32_interp_near h0 h1
  rw [hcast] at hnear
  have hmain : calculate_bitrate ovf f w h
      = ((max 100 (truncToInt (f64 ((base_bitrate ovf f : ℚ) * scale_factor w h))) : ℤ) : ℚ) := by
    rw [calculate_bitrate_eq, toInt32_of_fits ovf hv hvlt, truncToInt_of_nonneg hv]
  refine ⟨?_, ?_, ?_, ?_, ?_, ?_⟩
  · rw [hmain, hB]
    unfold scale_factor
    rw [f64_ref_pixels]
    norm_num
  · rw [truncToInt_of_nonneg hx, truncToInt_of_nonneg hlo]
    omega
  · rw [truncToInt_of_nonneg hx, truncToInt_of_nonneg hlo]
    omega
  · intro hwh
    rw [hmain, scale_factor_full_hd hwh, mul_one]
    obtain ⟨k, hk⟩ : ∃ k : ℕ, base_bitrate ovf f = (k : ℤ) :=
      ⟨(base_bitrate ovf f).toNat, by omega⟩
    rw [← hB, hk]
    have hk2 : k < 2 ^ 53 := by
      have : k ≤ 2000 := by omega
      exact lt_of_le_of_lt this (by norm_num)
    have : ((k : ℤ) : ℚ) = ((k : ℕ) : ℚ) := by push_cast; rfl
    rw [this, f64_nat k hk2, ← this, truncToInt_intCast]
    have : (100 : ℤ) ≤ k := by omega
    rw [max_eq_right this]
  · intro hf
    subst hf
    rw [← hB, base_bitrate_zero]
  · intro hf
    subst hf
    rw [← hB, base_bitrate_one]

/-- C3, witness: quality factor 1 at 1920x1080. -/
theorem calculate_bitrate_formula_witness :
    calculate_bitrate ovfSaturate 1 1920 1080
      = ((512 + truncToInt (f32 (1488 * 1)) : ℤ) : ℚ) ∧
    512 + truncToInt (f32 (1488 * 1)) = 2000 :=
  have h := calculate_bitrate_formula ovfSaturate 1 1920 1080 (by norm_num) le_rfl
    (by norm_num) (by norm_num)
  ⟨h.2.2.2.1 (by norm_num), h.2.2.2.2.2 rfl⟩

/-- C3, counterexample: (a) at 1920x1080 with the `float` quality factor
`0x1.605816p-11` (just below 1/1488) the product `1488 * f` is `1 - 2^-30`, which
rounds to `1.0f`, so the code returns 513 where the exact formula gives 512;
(b) at 1966080x2211840 with quality factor 1 the exact formula gives 4194304000,
which no `int32_t` result can equal (saturating conversion gives 2147483647). -/
theorem calculate_bitrate_ne_spec :
    f32 (11545611 / 2 ^ 34) = 11545611 / 2 ^ 34 ∧
    calculate_bitrate ovfSaturate (11545611 / 2 ^ 34) 1920 1080 = 513 ∧
    computeBitrate_spec (11545611 / 2 ^ 34) 1920 1080 = 512 ∧
    calculate_bitrate ovfSaturate 1 1966080 2211840 = 2147483647 ∧
    computeBitrate_spec 1 1966080 2211840 = 4194304000 ∧
    calculate_bitrate ovfSaturate (11545611 / 2 ^ 34) 1920 1080
      ≠ computeBitrate_spec (11545611 / 2 ^ 34) 1920 1080 ∧
    calculate_bitrate ovfSaturate 1 1966080 2211840 ≠ computeBitrate_spec 1 1966080 2211840 := by
  have key : f32 (11545611 / 2 ^ 34) = 11545611 / 2 ^ 34 ∧
      calculate_bitrate ovfSaturate (11545611 / 2 ^ 34) 1920 1080 = 513 ∧
      computeBitrate_spec (11545611 / 2 ^ 34) 1920 1080 = 512 ∧
      calculate_bitrate ovfSaturate 1 1966080 2211840 = 2147483647 ∧
      computeBitrate_spec 1 1966080 2211840 = 4194304000 := by
    refine ⟨f32_quality_near_one_1488th, ?_, ?_, ?_, ?_⟩
    · rw [calculate_bitrate_eq, base_bitrate_eq _ (by norm_num) (by norm_num),
        f32_interp_near_one_1488th, scale_factor_full_hd (by norm_num)]
      have hq : ((512 + ⌊(1 : ℚ)⌋ : ℤ) : ℚ) * 1 = ((513 : ℕ) : ℚ) := by norm_num
      rw [hq, f64_nat _ (by norm_num), toInt32_nat _ _ (by norm_num)]
      norm_num
    · unfold computeBitrate_spec
      simp only
      have h1 : truncToInt ((2000 - 512) * (11545611 / 2 ^ 34 : ℚ)) = 0 := by
        rw [truncToInt_of_nonneg (by norm_num), Int.floor_eq_iff]
        norm_num
      rw [h1]
      have h2 : truncToInt ((((512 + 0 : ℤ) : ℚ)) * (((1920 : ℤ) : ℚ) * ((1080 : ℤ) : ℚ))
          / (1920 * 1080)) = 512 := by
        rw [truncToInt_of_nonneg (by norm_num), Int.floor_eq_iff]
        norm_num
      rw [h2]
      norm_num
    · rw [calculate_bitrate_eq, base_bitrate_one, scale_factor_pow21]
      have hq : ((2000 : ℤ) : ℚ) * 2097152 = ((4194304000 : ℕ) : ℚ) := by norm_num
      have hnn : (0 : ℚ) ≤ f64 ((4194304000 : ℕ) : ℚ) := by
        rw [f64_nat _ (by norm_num)]
        positivity
      rw [hq, toInt32_saturate hnn, f64_nat _ (by norm_num), Int.floor_natCast]
      simp [INT32_MAX]
    · unfold computeBitrate_spec
      simp only
      have h1 : truncToInt ((2000 - 512) * (1 : ℚ)) = 1488 := by
        rw [truncToInt_of_nonneg (by norm_num), Int.floor_eq_iff]
        norm_num
      rw [h1]
      have h2 : truncToInt ((((512 + 1488 : ℤ) : ℚ)) * (((1966080 : ℤ) : ℚ) * ((2211840 : ℤ) : ℚ))
          / (1920 * 1080)) = 4194304000 := by
        rw [truncToInt_of_nonneg (by norm_num), Int.floor_eq_iff]
        norm_num
      rw [h2]
      norm_num
  obtain ⟨k1, k2, k3, k4, k5⟩ := key
  refine ⟨k1, k2, k3, k4, k5, ?_, ?_⟩
  · rw [k2, k3]
    norm_num
  · rw [k4, k5]
    norm_num

/-! ### Lifecycle invariant -/

theorem lifecycle_inv_initial : lifecycle_inv initial_state := by
  simp [lifecycle_inv, initial_state, active_sessions, spawned, joined]

theorem lifecycle_inv_start (env : ThreadEnv) {s : VideoState} (hs : lifecycle_inv s) :
    lifecycle_inv (video_start_streaming env s) := by
  obtain ⟨hflag, hact⟩ := hs
  unfold video_start_streaming
  split_ifs with h1 h2 h3
  · refine ⟨hflag, ?_⟩
    simp only [active_sessions, spawned, joined, List.countP_append] at hact ⊢
    simp [Event.isSpawn, Event.isJoin, h1] at hact ⊢
    exact hact
  · refine ⟨hflag, ?_⟩
    simp only [active_sessions, spawned, joined, List.countP_append] at hact ⊢
    simp [Event.isSpawn, Event.isJoin, h1] at hact ⊢
    exact hact
  · simp only [ne_eq, not_not] at h1
    simp only [lifecycle_inv, active_sessions, spawned, joined, List.countP_append] at hact ⊢
    simp [Event.isSpawn, Event.isJoin, h1, h3] at hact ⊢
    exact hact
  · simp only [ne_eq, not_not] at h1 h3
    simp only [lifecycle_inv, active_sessions, spawned, joined, List.countP_append] at hact ⊢
    simp [Event.isSpawn, Event.isJoin, h1, h3] at hact ⊢
    omega

theorem lifecycle_inv_stop {s : VideoState} (hs : lifecycle_inv s) :
    lifecycle_inv (video_stop_streaming s) := by
  obtain ⟨hflag, hact⟩ := hs
  unfold video_stop_streaming
  split
  · rename_i t ht
    simp only [lifecycle_inv, active_sessions, spawned, joined, List.countP_append] at hact ⊢
    simp [Event.isSpawn, Event.isJoin, ht] at hact ⊢
    omega
  · exact ⟨hflag, hact⟩

theorem lifecycle_inv_log {s : VideoState} (hs : lifecycle_inv s) (f : ℚ) :
    lifecycle_inv { s with quality_factor := f, trace := s.trace ++ [Event.log_info] } := by
  obtain ⟨hflag, hact⟩ := hs
  refine ⟨hflag, ?_⟩
  simp only [active_sessions, spawned, joined, List.countP_append] at hact ⊢
  simp [Event.isSpawn, Event.isJoin] at hact ⊢
  exact hact

theorem lifecycle_inv_set_quality (env : ThreadEnv) (f : ℚ) {s : VideoState}
    (hs : lifecycle_inv s) : lifecycle_inv (video_set_quality_factor env f s) := by
  unfold video_set_quality_factor
  simp only
  split_ifs with h
  · exact lifecycle_inv_start env (lifecycle_inv_stop (lifecycle_inv_log hs f))
  · exact ⟨hs.1, hs.2⟩

theorem lifecycle_inv_restart (env : ThreadEnv) {s : VideoState} (hs : lifecycle_inv s) :
    lifecycle_inv (run_detect_format_restart env s) := by
  unfold run_detect_format_restart
  split_ifs with h
  · have := lifecycle_inv_log hs s.quality_factor
    exact lifecycle_inv_start env (lifecycle_inv_stop this)
  · exact hs

theorem lifecycle_inv_of_reachable {s : VideoState} (hs : Reachable s) : lifecycle_inv s := by
  induction hs with
  | init => exact lifecycle_inv_initial
  | start env _ ih => exact lifecycle_inv_start env ih
  | stop _ ih => exact lifecycle_inv_stop ih
  | set_quality env f _ ih => exact lifecycle_inv_set_quality env f ih
  | format_change env _ ih => exact lifecycle_inv_restart env ih

/-! ### Frame lemmas -/

theorem video_start_streaming_quality (env : ThreadEnv) (s : VideoState) :
    (video_start_streaming env s).quality_factor = s.quality_factor := by
  unfold video_start_streaming
  split_ifs <;> rfl

theorem video_stop_streaming_quality (s : VideoState) :
    (video_stop_streaming s).quality_factor = s.quality_factor := by
  unfold video_stop_streaming
  split <;> rfl

theorem video_set_quality_factor_quality (env : ThreadEnv) (f : ℚ) (s : VideoState) :
    (video_set_quality_factor env f s).quality_factor = f := by
  unfold video_set_quality_factor
  simp only
  split_ifs
  · rw [video_start_streaming_quality, video_stop_streaming_quality]
  · rfl

theorem video_start_streaming_of_session (env : ThreadEnv) (s : VideoState)
    (h : s.streaming_thread ≠ none) :
    video_start_streaming env s = { s with trace := s.trace ++ [Event.log_warn] } := by
  unfold video_start_streaming
  rw [if_pos h]

theorem spawn_attempts_start_of_no_session (env : ThreadEnv) (s : VideoState)
    (h : s.streaming_thread = none) :
    spawn_attempts (video_start_streaming env s) = spawn_attempts s + 1 := by
  unfold video_start_streaming
  split_ifs with h1 h2 h3
  · exact absurd h h1
  · simp [spawn_attempts, List.countP_append, Event.isAlloc]
  · simp [spawn_attempts, List.countP_append, Event.isAlloc]
  · simp [spawn_attempts, List.countP_append, Event.isAlloc]

theorem video_start_streaming_success (env : ThreadEnv) (s : VideoState)
    (h : s.streaming_thread = none) (hm : env.malloc_ok = true) (hc : env.create_result = 0) :
    (video_start_streaming env s).streaming_thread = some env.thread ∧
    (video_start_streaming env s).streaming_flag = true := by
  unfold video_start_streaming
  simp [h, hm, hc]

/-- C4: in every state where a session already exists (`streaming_thread` non-NULL)
`video_start_streaming` only logs a warning: the thread handle, the flag and the
quality factor are unchanged and no worker is spawned; in every reachable such
state, so in particular after a first successful start, exactly one session is
active before and after the call. -/
theorem video_start_streaming_existing_session (env : ThreadEnv) (s : VideoState)
    (h : s.streaming_thread ≠ none) :
    video_start_streaming env s = { s with trace := s.trace ++ [Event.log_warn] } ∧
    (video_start_streaming env s).streaming_thread = s.streaming_thread ∧
    (video_start_streaming env s).streaming_flag = s.streaming_flag ∧
    spawned (video_start_streaming env s) = spawned s ∧
    spawn_attempts (video_start_streaming env s) = spawn_attempts s ∧
    (Reachable s →
      active_sessions s = 1 ∧ active_sessions (video_start_streaming env s) = 1) := by
  have heq := video_start_streaming_of_session env s h
  refine ⟨heq, by rw [heq], by rw [heq], ?_, ?_, ?_⟩
  · rw [heq]
    simp [spawned, List.countP_append, Event.isSpawn]
  · rw [heq]
    simp [spawn_attempts, List.countP_append, Event.isAlloc]
  · intro hr
    have hinv := lifecycle_inv_of_reachable hr
    have hinv2 := lifecycle_inv_of_reachable (Reachable.start env hr)
    have h2 : (video_start_streaming env s).streaming_thread ≠ none := by rw [heq]; exact h
    refine ⟨?_, ?_⟩
    · rw [hinv.2, if_pos h]
    · rw [hinv2.2, if_pos h2]

/-- C4, witness: start called twice in a row from the initial state, the first call
succeeding with thread handle 7. -/
theorem video_start_streaming_existing_session_witness :
    (video_start_streaming ⟨true, 0, 7⟩ initial_state).streaming_thread = some 7 ∧
    (video_start_streaming ⟨true, 0, 8⟩
        (video_start_streaming ⟨true, 0, 7⟩ initial_state)).streaming_thread = some 7 ∧
    active_sessions (video_start_streaming ⟨true, 0, 8⟩
        (video_start_streaming ⟨true, 0, 7⟩ initial_state)) = 1 :=
  have h1 : (video_start_streaming ⟨true, 0, 7⟩ initial_state).streaming_thread = some 7 := by
    simp [video_start_streaming, initial_state]
  have h := video_start_streaming_existing_session ⟨true, 0, 8⟩
    (video_start_streaming ⟨true, 0, 7⟩ initial_state) (by rw [h1]; simp)
  ⟨h1, h.2.1.trans h1, (h.2.2.2.2.2 (Reachable.start _ Reachable.init)).2⟩

/-- C5: with no session (`streaming_thread` NULL) `video_stop_streaming` returns
leaving the whole state as it was: thread handle, flag, quality factor and trace
(no sleep, no join). -/
theorem video_stop_streaming_no_session (s : VideoState) (h : s.streaming_thread = none) :
    video_stop_streaming s = s ∧ joined (video_stop_streaming s) = joined s := by
  have : video_stop_streaming s = s := by
    unfold video_stop_streaming
    rw [h]
  exact ⟨this, by rw [this]⟩

/-- C5, witness: stop in the initial state. -/
theorem video_stop_streaming_no_session_witness :
    video_stop_streaming initial_state = initial_state :=
  (video_stop_streaming_no_session initial_state rfl).1

/-- C6: when `video_start_streaming` is called in a reachable state without a
session and the allocation or `pthread_create` fails, afterwards
`streaming_thread` is NULL, `streaming_flag` is false, no worker was spawned and
no session is active; a later `video_start_streaming` makes a new spawn attempt,
and creates the session when that attempt succeeds. -/
theorem video_start_streaming_spawn_failure (env env2 : ThreadEnv) (s : VideoState)
    (hr : Reachable s) (h : s.streaming_thread = none)
    (hfail : env.malloc_ok = false ∨ env.create_result ≠ 0) :
    (video_start_streaming env s).streaming_thread = none ∧
    (video_start_streaming env s).streaming_flag = false ∧
    spawned (video_start_streaming env s) = spawned s ∧
    active_sessions (video_start_streaming env s) = 0 ∧
    spawn_attempts (video_start_streaming env2 (video_start_streaming env s))
      = spawn_attempts (video_start_streaming env s) + 1 ∧
    (env2.malloc_ok = true → env2.create_result = 0 →
      (video_start_streaming env2 (video_start_streaming env s)).streaming_thread
          = some env2.thread ∧
      (video_start_streaming env2 (video_start_streaming env s)).streaming_flag = true) := by
  have hinv := lifecycle_inv_of_reachable hr
  have hflag : s.streaming_flag = false := by
    by_contra hcon
    have : s.streaming_flag = true := by simpa using hcon
    exact (hinv.1.mp this) h
  have hthread : (video_start_streaming env s).streaming_thread = none := by
    unfold video_start_streaming
    rcases hfail with hm | hc
    · simp [h, hm]
    · by_cases hm : env.malloc_ok = false
      · simp [h, hm]
      · simp [h, hm, hc]
  have hinv2 := lifecycle_inv_of_reachable (Reachable.start env hr)
  refine ⟨hthread, ?_, ?_, ?_, ?_, ?_⟩
  · by_contra hcon
    have : (video_start_streaming env s).streaming_flag = true := by simpa using hcon
    exact (hinv2.1.mp this) hthread
  · unfold video_start_streaming
    rcases hfail with hm | hc
    · simp [h, hm, spawned, List.countP_append, Event.isSpawn]
    · by_cases hm : env.malloc_ok = false
      · simp [h, hm, spawned, List.countP_append, Event.isSpawn]
      · simp [h, hm, hc, spawned, List.countP_append, Event.isSpawn]
  · rw [hinv2.2, if_neg (by rw [hthread]; simp)]
  · exact spawn_attempts_start_of_no_session env2 _ hthread
  · intro hm hc
    exact video_start_streaming_success env2 _ hthread hm hc

/-- C6, witness: `pthread_create` fails with 11 (EAGAIN) in the initial state, the
next attempt succeeds. -/
theorem video_start_streaming_spawn_failure_witness :
    (video_start_streaming ⟨true, 11, 0⟩ initial_state).streaming_thread = none ∧
    (video_start_streaming ⟨true, 11, 0⟩ initial_state).streaming_flag = false ∧
    (video_start_streaming ⟨true, 0, 7⟩
      (video_start_streaming ⟨true, 11, 0⟩ initial_state)).streaming_thread = some 7 :=
  have h := video_start_streaming_spawn_failure ⟨true, 11, 0⟩ ⟨true, 0, 7⟩ initial_state
    Reachable.init rfl (Or.inr (by decide))
  ⟨h.1, h.2.1, (h.2.2.2.2.2 rfl rfl).1⟩

/-- C7: `jetkvm_video_set_quality_factor(f)` returns -1 exactly when `f < 0` or
`f > 1`, and then leaves the whole state unchanged (stored quality factor,
session, trace); for every `f` in `[0,1]` it returns 0. -/
theorem jetkvm_video_set_quality_factor_range (env : ThreadEnv) (f : ℚ) (s : VideoState) :
    ((jetkvm_video_set_quality_factor env f s).1 = -1 ↔ (f < 0 ∨ f > 1)) ∧
    ((f < 0 ∨ f > 1) → (jetkvm_video_set_quality_factor env f s).2 = s) ∧
    ((0 ≤ f ∧ f ≤ 1) → (jetkvm_video_set_quality_factor env f s).1 = 0) := by
  unfold jetkvm_video_set_quality_factor
  refine ⟨?_, ?_, ?_⟩
  · split_ifs with h
    · simp [h]
    · simp [h]
  · intro h
    rw [if_pos h]
  · intro h
    rw [if_neg (by push_neg; exact h)]

/-- C7, witness: the factor 2 is rejected in the initial state, which is left as it
was; the factor 1/2 is accepted. -/
theorem jetkvm_video_set_quality_factor_range_witness :
    jetkvm_video_set_quality_factor ⟨true, 0, 7⟩ 2 initial_state = (-1, initial_state) ∧
    (jetkvm_video_set_quality_factor ⟨true, 0, 7⟩ (1 / 2) initial_state).1 = 0 :=
  have h2 := jetkvm_video_set_quality_factor_range ⟨true, 0, 7⟩ 2 initial_state
  have hh := jetkvm_video_set_quality_factor_range ⟨true, 0, 7⟩ (1 / 2) initial_state
  ⟨Prod.ext (h2.1.mpr (Or.inr (by norm_num))) (h2.2.1 (Or.inr (by norm_num))),
    hh.2.2 ⟨by norm_num, by norm_num⟩⟩

/-- C8: for every `f` in `[0,1]`, `jetkvm_video_set_quality_factor(f)` returns 0,
after it `jetkvm_video_get_quality_factor()` returns exactly `f`, and the capture
worker of the session running then, or of the session a following
`video_start_streaming` creates, computes its bitrate from `f`. -/
theorem quality_factor_round_trip (ovf : ℚ → ℤ) (env env2 : ThreadEnv) (f : ℚ)
    (s : VideoState) (w h : ℕ) (h0 : 0 ≤ f) (h1 : f ≤ 1) :
    (jetkvm_video_set_quality_factor env f s).1 = 0 ∧
    jetkvm_video_get_quality_factor (jetkvm_video_set_quality_factor env f s).2 = f ∧
    run_video_stream_bitrate ovf (jetkvm_video_set_quality_factor env f s).2 w h
      = toInt32 ovf (calculate_bitrate ovf f (wrapInt32 (w % 4294967296))
          (wrapInt32 (h % 4294967296))) ∧
    run_video_stream_bitrate ovf
        (video_start_streaming env2 (jetkvm_video_set_quality_factor env f s).2) w h
      = toInt32 ovf (calculate_bitrate ovf f (wrapInt32 (w % 4294967296))
          (wrapInt32 (h % 4294967296))) := by
  have hacc : jetkvm_video_set_quality_factor env f s
      = (0, video_set_quality_factor env f s) := by
    unfold jetkvm_video_set_quality_factor
    rw [if_neg (by push_neg; exact ⟨h0, h1⟩)]
  rw [hacc]
  refine ⟨rfl, ?_, ?_, ?_⟩
  · exact video_set_quality_factor_quality env f s
  · unfold run_video_stream_bitrate
    rw [video_set_quality_factor_quality]
  · unfold run_video_stream_bitrate
    rw [video_start_streaming_quality, video_set_quality_factor_quality]

/-- C8, witness: the `float` nearest to 0.42, set while no session is active. -/
theorem quality_factor_round_trip_witness :
    jetkvm_video_get_quality_factor
      (jetkvm_video_set_quality_factor ⟨true, 0, 7⟩ (14092861 / 33554432) initial_state).2
      = 14092861 / 33554432 :=
  (quality_factor_round_trip ovfSaturate ⟨true, 0, 7⟩ ⟨true, 0, 8⟩ (14092861 / 33554432)
    initial_state 1920 1080 (by norm_num) (by norm_num)).2.1

/-- C9: in every reachable state `video_set_quality_factor` restarts exactly when a
session is active: with a session it stores the factor and performs one
`video_stop_streaming` (one join) followed by one `video_start_streaming` (one
spawn attempt); without a session it only stores the factor, leaving
`streaming_thread`, `streaming_flag` and the trace unchanged. -/
theorem video_set_quality_factor_restart (env : ThreadEnv) (f : ℚ) (s : VideoState)
    (hr : Reachable s) :
    (s.streaming_thread ≠ none →
      video_set_quality_factor env f s
        = video_start_streaming env (video_stop_streaming
            { s with quality_factor := f, trace := s.trace ++ [Event.log_info] }) ∧
      joined (video_set_quality_factor env f s) = joined s + 1 ∧
      spawn_attempts (video_set_quality_factor env f s) = spawn_attempts s + 1) ∧
    (s.streaming_thread = none →
      video_set_quality_factor env f s = { s with quality_factor := f } ∧
      (video_set_quality_factor env f s).streaming_thread = s.streaming_thread ∧
      (video_set_quality_factor env f s).streaming_flag = s.streaming_flag ∧
      joined (video_set_quality_factor env f s) = joined s ∧
      spawn_attempts (video_set_quality_factor env f s) = spawn_attempts s) := by
  have hinv := lifecycle_inv_of_reachable hr
  constructor
  · intro h
    have hflag : s.streaming_flag = true := hinv.1.mpr h
    have heq : video_set_quality_factor env f s
        = video_start_streaming env (video_stop_streaming
            { s with quality_factor := f, trace := s.trace ++ [Event.log_info] }) := by
      unfold video_set_quality_factor
      simp only
      rw [if_pos hflag]
    obtain ⟨t, ht⟩ := Option.ne_none_iff_exists'.mp h
    have hstop : video_stop_streaming
        { s with quality_factor := f, trace := s.trace ++ [Event.log_info] }
        = { s with
            quality_factor := f
            streaming_flag := false
            streaming_thread := none
            trace := (s.trace ++ [Event.log_info]) ++
              [Event.log_info, Event.usleep 1000000, Event.log_info, Event.pthread_join t,
                Event.free, Event.log_info] } := by
      unfold video_stop_streaming
      simp only [ht]
    refine ⟨heq, ?_, ?_⟩
    · rw [heq, hstop]
      unfold video_start_streaming
      simp only [ne_eq, not_true_eq_false, if_false]
      split_ifs <;> simp [joined, List.countP_append, Event.isJoin]
    · rw [heq, spawn_attempts_start_of_no_session env _ (by rw [hstop]), hstop]
      simp [spawn_attempts, List.countP_append, Event.isAlloc]
  · intro h
    have hflag : ¬ s.streaming_flag = true := fun hc => (hinv.1.mp hc) h
    have heq : video_set_quality_factor env f s = { s with quality_factor := f } := by
      unfold video_set_quality_factor
      simp only
      rw [if_neg hflag]
    refine ⟨heq, ?_, ?_, ?_, ?_⟩ <;> rw [heq] <;> rfl

/-- C9, witness: a session with thread handle 7 is running when the factor is set
to 1/2; the old worker is joined and a new one with handle 8 is created. -/
theorem video_set_quality_factor_restart_witness :
    joined (video_set_quality_factor ⟨true, 0, 8⟩ (1 / 2)
        (video_start_streaming ⟨true, 0, 7⟩ initial_state))
      = joined (video_start_streaming ⟨true, 0, 7⟩ initial_state) + 1 ∧
    video_set_quality_factor ⟨true, 0, 8⟩ (1 / 2) initial_state
      = { initial_state with quality_factor := 1 / 2 } :=
  ⟨((video_set_quality_factor_restart ⟨true, 0, 8⟩ (1 / 2)
      (video_start_streaming ⟨true, 0, 7⟩ initial_state)
      (Reachable.start _ Reachable.init)).1
      (by simp [video_start_streaming, initial_state])).2.1,
   ((video_set_quality_factor_restart ⟨true, 0, 8⟩ (1 / 2) initial_state
      Reachable.init).2 rfl).1⟩

/-! ### EDID checksum -/

theorem getD_set_nat (l : List ℕ) (i j v : ℕ) :
    (l.set i v).getD j 0 = if i = j ∧ i < l.length then v else l.getD j 0 := by
  simp only [List.getD_eq_getElem?_getD, List.getElem?_set]
  by_cases hij : i = j
  · subst hij
    by_cases hlt : i < l.length
    · simp [hlt]
    · simp [hlt]
      have : l.length ≤ i := not_lt.mp hlt
      simp [List.getElem?_eq_none this]
  · simp [hij]

theorem checksum_sum_congr (a b : List ℕ) (block n : ℕ)
    (hab : ∀ i, i < n → a.getD (block * 128 + i) 0 = b.getD (block * 128 + i) 0) :
    checksum_sum a block n = checksum_sum b block n := by
  induction n with
  | zero => rfl
  | succ n ih =>
    simp only [checksum_sum]
    rw [ih (fun i hi => hab i (by omega)), hab n (by omega)]

theorem sum_bytes_congr (a b : List ℕ) (off n : ℕ)
    (hab : ∀ i, i < n → a.getD (off + i) 0 = b.getD (off + i) 0) :
    sum_bytes a off n = sum_bytes b off n := by
  induction n with
  | zero => rfl
  | succ n ih =>
    simp only [sum_bytes]
    rw [ih (fun i hi => hab i (by omega)), hab n (by omega)]

theorem checksum_sum_eq (edid : List ℕ) (block n : ℕ) :
    checksum_sum edid block n = sum_bytes edid (block * 128) n % 256 := by
  induction n with
  | zero => rfl
  | succ n ih =>
    simp only [checksum_sum, sum_bytes]
    rw [ih]
    omega

theorem fix_edid_block_getD (l : List ℕ) (k j : ℕ) :
    (fix_edid_block l k).getD j 0
      = if k * 128 + 127 = j ∧ k * 128 + 127 < l.length
        then (256 - checksum_sum l k 127) % 256 else l.getD j 0 := by
  unfold fix_edid_block
  exact getD_set_nat l _ j _

theorem fix_edid_blocks_succ (edid : List ℕ) (k : ℕ) :
    (List.range (k + 1)).foldl fix_edid_block edid
      = fix_edid_block ((List.range k).foldl fix_edid_block edid) k := by
  rw [List.range_succ, List.foldl_append]
  rfl

theorem fix_edid_blocks_spec (edid : List ℕ) (k : ℕ) :
    ((List.range k).foldl fix_edid_block edid).length = edid.length ∧
    ∀ j, ((List.range k).foldl fix_edid_block edid).getD j 0
      = if j % 128 = 127 ∧ j / 128 < k ∧ j < edid.length
        then (256 - checksum_sum edid (j / 128) 127) % 256 else edid.getD j 0 := by
  induction k with
  | zero => simp
  | succ k ih =>
    obtain ⟨hlen, hget⟩ := ih
    rw [fix_edid_blocks_succ]
    refine ⟨by simp [fix_edid_block, hlen], ?_⟩
    intro j
    have hsum : checksum_sum ((List.range k).foldl fix_edid_block edid) k 127
        = checksum_sum edid k 127 := by
      apply checksum_sum_congr
      intro i hi
      rw [hget, if_neg]
      omega
    rw [fix_edid_block_getD, hsum, hlen, hget]
    by_cases hj : k * 128 + 127 = j ∧ k * 128 + 127 < edid.length
    · rw [if_pos hj, if_pos (by omega)]
      have : j / 128 = k := by omega
      rw [this]
    · rw [if_neg hj]
      by_cases hc : j % 128 = 127 ∧ j / 128 < k ∧ j < edid.length
      · rw [if_pos hc, if_pos (by omega)]
      · rw [if_neg hc, if_neg (by omega)]

/-- C10: for every buffer holding at least `size` bytes (in particular size 128 or
256) and every complete 128-byte block of it, after `fix_edid_checksum` the other
127 bytes of the block are unchanged, byte 127 is `(256 - sum of the other 127
bytes) mod 256`, and the sum of all 128 bytes of the block is 0 modulo 256. -/
theorem fix_edid_checksum_block_sum (edid : List ℕ) (size block : ℕ)
    (hsize : size ≤ edid.length) (hblock : block < size / 128) :
    (∀ i, i < 127 →
      (fix_edid_checksum edid size).getD (block * 128 + i) 0 = edid.getD (block * 128 + i) 0) ∧
    (fix_edid_checksum edid size).getD (block * 128 + 127) 0
      = (256 - sum_bytes (fix_edid_checksum edid size) (block * 128) 127 % 256) % 256 ∧
    sum_bytes (fix_edid_checksum edid size) (block * 128) 128 % 256 = 0 := by
  obtain ⟨_, hget⟩ := fix_edid_blocks_spec edid (size / 128)
  have hother : ∀ i, i < 127 →
      (fix_edid_checksum edid size).getD (block * 128 + i) 0
        = edid.getD (block * 128 + i) 0 := by
    intro i hi
    unfold fix_edid_checksum
    rw [hget, if_neg]
    omega
  have hsum : sum_bytes (fix_edid_checksum edid size) (block * 128) 127
      = sum_bytes edid (block * 128) 127 :=
    sum_bytes_congr _ _ _ _ hother
  have hlast : (fix_edid_checksum edid size).getD (block * 128 + 127) 0
      = (256 - sum_bytes edid (block * 128) 127 % 256) % 256 := by
    unfold fix_edid_checksum
    rw [hget, if_pos (by omega)]
    have : (block * 128 + 127) / 128 = block := by omega
    rw [this, checksum_sum_eq]
  refine ⟨hother, ?_, ?_⟩
  · rw [hlast, hsum]
  · have : sum_bytes (fix_edid_checksum edid size) (block * 128) 128
        = sum_bytes (fix_edid_checksum edid size) (block * 128) 127
          + (fix_edid_checksum edid size).getD (block * 128 + 127) 0 := rfl
    rw [this, hlast, hsum]
    omega

/-- C10, witness: a 256-byte buffer of bytes `0xff`, second block. -/
theorem fix_edid_checksum_block_sum_witness :
    sum_bytes (fix_edid_checksum (List.replicate 256 255) 256) (1 * 128) 128 % 256 = 0 :=
  (fix_edid_checksum_block_sum (List.replicate 256 255) 256 1
    (by rw [List.length_replicate]) (by decide)).2.2

/-! ### EDID length check -/

theorem set_edid_of_bad_size (env : EdidEnv) (edid : Option (List ℕ)) (size : ℕ)
    (h128 : size ≠ 128) (h256 : size ≠ 256) :
    (set_edid env edid size).ret = -1 ∧ (set_edid env edid size).edid = edid ∧
    (set_edid env edid size).dev = [] := by
  unfold set_edid
  cases edid with
  | none => simp
  | some buf => simp [h128, h256]

/-- C11: for every size other than 128 and 256 `set_edid` returns -1, leaves the
caller's buffer as it was and makes no call on the device; and
`jetkvm_video_set_edid` returns -1, again without any call on the device, for
every string for which `hex_to_bytes` fails or yields a byte count other than 128
and 256. -/
theorem set_edid_malformed_length (env : EdidEnv) (edid : Option (List ℕ)) (size : ℕ)
    (edid_hex stack : List ℕ) (h128 : size ≠ 128) (h256 : size ≠ 256) :
    (set_edid env edid size).ret = -1 ∧ (set_edid env edid size).edid = edid ∧
    (set_edid env edid size).dev = [] ∧
    ((hex_to_bytes edid_hex stack 256).1 ≠ 128 → (hex_to_bytes edid_hex stack 256).1 ≠ 256 →
      (jetkvm_video_set_edid env edid_hex stack).ret = -1 ∧
      (jetkvm_video_set_edid env edid_hex stack).dev = []) := by
  obtain ⟨h1, h2, h3⟩ := set_edid_of_bad_size env edid size h128 h256
  refine ⟨h1, h2, h3, ?_⟩
  intro hn128 hn256
  unfold jetkvm_video_set_edid
  simp only
  split_ifs with hneg
  · exact ⟨rfl, rfl⟩
  · have hs := set_edid_of_bad_size env (some (hex_to_bytes edid_hex stack 256).2)
      (hex_to_bytes edid_hex stack 256).1.toNat (by omega) (by omega)
    exact ⟨hs.1, hs.2.2⟩

/-- C11, witness: size 127 with a device that would accept the write, and the
two-character string "00", which decodes to one byte. -/
theorem set_edid_malformed_length_witness :
    (set_edid ⟨3, 0, 0, []⟩ (some (List.replicate 127 0)) 127).ret = -1 ∧
    (set_edid ⟨3, 0, 0, []⟩ (some (List.replicate 127 0)) 127).dev = [] ∧
    (jetkvm_video_set_edid ⟨3, 0, 0, []⟩ [48, 48] (List.replicate 256 0)).ret = -1 :=
  have h := set_edid_malformed_length ⟨3, 0, 0, []⟩ (some (List.replicate 127 0)) 127
    [48, 48] (List.replicate 256 0) (by decide) (by decide)
  ⟨h.1, h.2.2.1, (h.2.2.2 (by decide) (by decide)).1⟩

/-! ### Signal monitor -/

theorem video_report_format_state (ready : Bool) (error : Option StatusError) (w h : ℕ)
    (fps : ℚ) (s : MonitorState) :
    (video_report_format ready error w h fps s).state
      = { ready := ready, error := error, width := w % 65536, height := h % 65536,
          frame_per_second := fps } := by
  unfold video_report_format
  simp only
  split_ifs <;> rfl

theorem run_detect_format_cycle_ok_state (env : ThreadEnv) (bt : v4l2_bt_timings)
    (s : MonitorState) :
    (run_detect_format_cycle env (QueryResult.ok bt) s).state
      = { ready := true, error := none, width := bt.width % 65536,
          height := bt.height % 65536, frame_per_second := frames_per_second bt } := by
  simp only [run_detect_format_cycle]
  exact video_report_format_state true none bt.width bt.height (frames_per_second bt) _

theorem run_detect_format_cycle_failed_state (env : ThreadEnv) (errno : ℕ) (s : MonitorState) :
    (run_detect_format_cycle env (QueryResult.failed errno) s).state
      = if errno = ENOLINK then
          { ready := false, error := some StatusError.no_signal, width := 0, height := 0,
            frame_per_second := 0 }
        else if errno = ENOLCK then
          { ready := false, error := some StatusError.no_lock, width := 0, height := 0,
            frame_per_second := 0 }
        else if errno = ERANGE then
          { ready := false, error := some StatusError.out_of_range, width := 0, height := 0,
            frame_per_second := 0 }
        else s.state := by
  simp only [run_detect_format_cycle]
  split_ifs <;> first | rfl | (rw [video_report_format_state])

theorem run_detect_format_cycle_ready (env : ThreadEnv) (q : QueryResult) (s : MonitorState) :
    (run_detect_format_cycle env q s).state.ready
      = if q.unclassified then s.state.ready else q.succeeded := by
  cases q with
  | ok bt =>
    rw [run_detect_format_cycle_ok_state]
    simp [QueryResult.unclassified, QueryResult.succeeded]
  | failed errno =>
    rw [run_detect_format_cycle_failed_state]
    simp only [QueryResult.unclassified, QueryResult.succeeded]
    split_ifs with h1 h2 h3 h4 <;> simp_all

theorem run_detect_format_cycles_ready (qs : List (ThreadEnv × QueryResult)) (s : MonitorState) :
    (run_detect_format_cycles qs s).state.ready
      = ready_after s.state.ready (qs.map Prod.snd) := by
  induction qs generalizing s with
  | nil => rfl
  | cons eq rest ih =>
    obtain ⟨env, q⟩ := eq
    simp only [run_detect_format_cycles, List.map_cons, ready_after]
    rw [ih, run_detect_format_cycle_ready]

theorem run_detect_format_cycle_unclassified (env : ThreadEnv) (q : QueryResult)
    (s : MonitorState) (hq : q.unclassified = true) :
    (run_detect_format_cycle env q s).state = s.state ∧
    (run_detect_format_cycle env q s).handler_calls = s.handler_calls := by
  cases q with
  | ok bt => simp [QueryResult.unclassified] at hq
  | failed errno =>
    simp only [QueryResult.unclassified, Bool.and_eq_true, bne_iff_ne, ne_eq,
      decide_eq_true_eq, decide_not, Bool.not_eq_true', decide_eq_false_iff_not] at hq
    obtain ⟨⟨h1, h2⟩, h3⟩ := hq
    constructor <;> simp [run_detect_format_cycle, h1, h2, h3]

theorem run_detect_format_cycle_detected (env : ThreadEnv) (bt : v4l2_bt_timings)
    (s : MonitorState) :
    (run_detect_format_cycle env (QueryResult.ok bt) s).detected_width = bt.width ∧
    (run_detect_format_cycle env (QueryResult.ok bt) s).detected_height = bt.height ∧
    (run_detect_format_cycle env (QueryResult.ok bt) s).detected_signal = true := by
  simp only [run_detect_format_cycle, video_report_format]
  split_ifs <;> exact ⟨rfl, rfl, rfl⟩

/-- C12 (as amended): in every detection cycle the status is determined by the
query outcome: `ENOLINK`, `ENOLCK` and `ERANGE` publish
(false, no_signal / no_lock / out_of_range, 0, 0, 0), any other failure publishes
nothing and keeps the previous status, success publishes ready = true, no error
and the detected geometry in the 16-bit status fields; so `ready` is true after
a cycle iff its query succeeded or it failed with another error while `ready`
was already true, and after any sequence of cycles `ready` is the outcome of the
most recent query that was not such a failure. -/
theorem run_detect_format_status (env : ThreadEnv) (q : QueryResult) (s : MonitorState)
    (qs : List (ThreadEnv × QueryResult)) :
    (q = QueryResult.failed ENOLINK →
      jetkvm_video_get_status (run_detect_format_cycle env q s)
        = ⟨false, some StatusError.no_signal, 0, 0, 0⟩) ∧
    (q = QueryResult.failed ENOLCK →
      jetkvm_video_get_status (run_detect_format_cycle env q s)
        = ⟨false, some StatusError.no_lock, 0, 0, 0⟩) ∧
    (q = QueryResult.failed ERANGE →
      jetkvm_video_get_status (run_detect_format_cycle env q s)
        = ⟨false, some StatusError.out_of_range, 0, 0, 0⟩) ∧
    (q.unclassified = true →
      jetkvm_video_get_status (run_detect_format_cycle env q s) = jetkvm_video_get_status s ∧
      (run_detect_format_cycle env q s).handler_calls = s.handler_calls) ∧
    (∀ bt, q = QueryResult.ok bt →
      (jetkvm_video_get_status (run_detect_format_cycle env q s)).ready = true ∧
      (jetkvm_video_get_status (run_detect_format_cycle env q s)).error = none ∧
      (jetkvm_video_get_status (run_detect_format_cycle env q s)).width = bt.width % 65536 ∧
      (jetkvm_video_get_status (run_detect_format_cycle env q s)).height
        = bt.height % 65536) ∧
    ((jetkvm_video_get_status (run_detect_format_cycle env q s)).ready = true ↔
      (q.succeeded = true ∨
        (q.unclassified = true ∧ (jetkvm_video_get_status s).ready = true))) ∧
    (jetkvm_video_get_status (run_detect_format_cycles qs s)).ready
      = ready_after (jetkvm_video_get_status s).ready (qs.map Prod.snd) := by
  unfold jetkvm_video_get_status
  refine ⟨?_, ?_, ?_, ?_, ?_, ?_, ?_⟩
  · intro hq
    rw [hq, run_detect_format_cycle_failed_state, if_pos rfl]
  · intro hq
    rw [hq, run_detect_format_cycle_failed_state, if_neg (by decide), if_pos rfl]
  · intro hq
    rw [hq, run_detect_format_cycle_failed_state, if_neg (by decide), if_neg (by decide),
      if_pos rfl]
  · exact run_detect_format_cycle_unclassified env q s
  · intro bt hq
    subst hq
    have h := run_detect_format_cycle_ok_state env bt s
    exact ⟨by rw [h], by rw [h], by rw [h], by rw [h]⟩
  · rw [run_detect_format_cycle_ready]
    cases hu : q.unclassified
    · simp
    · cases q with
      | ok bt => simp [QueryResult.unclassified] at hu
      | failed errno => simp [QueryResult.succeeded]
  · exact run_detect_format_cycles_ready qs s

/-- C12, witness: no signal three times, then 1920x1080 at 60 Hz: `ready` is false
after each of the first three cycles and true after the fourth. -/
theorem run_detect_format_status_witness :
    (jetkvm_video_get_status (run_detect_format_cycles
      [(⟨true, 0, 7⟩, QueryResult.failed ENOLINK)] initial_monitor_state)).ready = false ∧
    (jetkvm_video_get_status (run_detect_format_cycles
      [(⟨true, 0, 7⟩, QueryResult.failed ENOLINK), (⟨true, 0, 7⟩, QueryResult.failed ENOLINK)]
      initial_monitor_state)).ready = false ∧
    (jetkvm_video_get_status (run_detect_format_cycles
      [(⟨true, 0, 7⟩, QueryResult.failed ENOLINK), (⟨true, 0, 7⟩, QueryResult.failed ENOLINK),
        (⟨true, 0, 7⟩, QueryResult.failed ENOLINK)] initial_monitor_state)).ready = false ∧
    (jetkvm_video_get_status (run_detect_format_cycles
      [(⟨true, 0, 7⟩, QueryResult.failed ENOLINK), (⟨true, 0, 7⟩, QueryResult.failed ENOLINK),
        (⟨true, 0, 7⟩, QueryResult.failed ENOLINK),
        (⟨true, 0, 7⟩, QueryResult.ok timings_1080p60)] initial_monitor_state)).ready
      = true :=
  ⟨(run_detect_format_status ⟨true, 0, 7⟩ (QueryResult.failed ENOLINK) initial_monitor_state
      [(⟨true, 0, 7⟩, QueryResult.failed ENOLINK)]).2.2.2.2.2.2.trans (by decide),
   (run_detect_format_status ⟨true, 0, 7⟩ (QueryResult.failed ENOLINK) initial_monitor_state
      [(⟨true, 0, 7⟩, QueryResult.failed ENOLINK),
        (⟨true, 0, 7⟩, QueryResult.failed ENOLINK)]).2.2.2.2.2.2.trans (by decide),
   (run_detect_format_status ⟨true, 0, 7⟩ (QueryResult.failed ENOLINK) initial_monitor_state
      [(⟨true, 0, 7⟩, QueryResult.failed ENOLINK), (⟨true, 0, 7⟩, QueryResult.failed ENOLINK),
        (⟨true, 0, 7⟩, QueryResult.failed ENOLINK)]).2.2.2.2.2.2.trans (by decide),
   (run_detect_format_status ⟨true, 0, 7⟩ (QueryResult.failed ENOLINK) initial_monitor_state
      [(⟨true, 0, 7⟩, QueryResult.failed ENOLINK), (⟨true, 0, 7⟩, QueryResult.failed ENOLINK),
        (⟨true, 0, 7⟩, QueryResult.failed ENOLINK),
        (⟨true, 0, 7⟩, QueryResult.ok timings_1080p60)]).2.2.2.2.2.2.trans (by decide)⟩

/-- C12, counterexample: a successful query followed by a query that fails with
`EIO` (5): the second cycle publishes nothing, so `ready` is still true after a
cycle whose query failed. -/
theorem run_detect_format_ready_after_failure :
    (QueryResult.failed 5).succeeded = false ∧
    (jetkvm_video_get_status (run_detect_format_cycle ⟨true, 0, 7⟩ (QueryResult.failed 5)
      (run_detect_format_cycle ⟨true, 0, 7⟩ (QueryResult.ok timings_1080p60)
        initial_monitor_state))).ready = true := by
  refine ⟨rfl, ?_⟩
  unfold jetkvm_video_get_status
  rw [run_detect_format_cycle_ready, run_detect_format_cycle_ready]
  decide

/-- C13 (as amended): after every successful detection cycle with detected width W
and height H and computed rate F, `jetkvm_video_get_status()` returns
ready = true, error = NULL, width = W mod 65536, height = H mod 65536 and
frame_per_second = F; width and height equal W and H whenever these are below
65536. -/
theorem status_after_successful_cycle (env : ThreadEnv) (bt : v4l2_bt_timings)
    (s : MonitorState) :
    (run_detect_format_cycle env (QueryResult.ok bt) s).detected_width = bt.width ∧
    (run_detect_format_cycle env (QueryResult.ok bt) s).detected_height = bt.height ∧
    jetkvm_video_get_status (run_detect_format_cycle env (QueryResult.ok bt) s)
      = { ready := true, error := none, width := bt.width % 65536,
          height := bt.height % 65536, frame_per_second := frames_per_second bt } ∧
    (bt.width < 65536 →
      (jetkvm_video_get_status (run_detect_format_cycle env (QueryResult.ok bt) s)).width
        = bt.width) ∧
    (bt.height < 65536 →
      (jetkvm_video_get_status (run_detect_format_cycle env (QueryResult.ok bt) s)).height
        = bt.height) := by
  obtain ⟨hw, hh, _⟩ := run_detect_format_cycle_detected env bt s
  have hst := run_detect_format_cycle_ok_state env bt s
  unfold jetkvm_video_get_status
  refine ⟨hw, hh, hst, ?_, ?_⟩
  · intro hlt
    rw [hst]
    exact Nat.mod_eq_of_lt hlt
  · intro hlt
    rw [hst]
    exact Nat.mod_eq_of_lt hlt

/-- C13, witness: 1920x1080 at 60 Hz detected in the initial state. -/
theorem status_after_successful_cycle_witness :
    (jetkvm_video_get_status (run_detect_format_cycle ⟨true, 0, 7⟩
      (QueryResult.ok timings_1080p60) initial_monitor_state)).width = 1920 ∧
    (jetkvm_video_get_status (run_detect_format_cycle ⟨true, 0, 7⟩
      (QueryResult.ok timings_1080p60) initial_monitor_state)).height = 1080 :=
  have h := status_after_successful_cycle ⟨true, 0, 7⟩ timings_1080p60 initial_monitor_state
  ⟨h.2.2.2.1 (by decide), h.2.2.2.2 (by decide)⟩

/-- C13, counterexample: a detected width of 67456 (a valid 32-bit value) is
published as 1920. -/
theorem status_width_truncated :
    (run_detect_format_cycle ⟨true, 0, 7⟩ (QueryResult.ok timings_width_17bit)
      initial_monitor_state).detected_width = 67456 ∧
    (jetkvm_video_get_status (run_detect_format_cycle ⟨true, 0, 7⟩
      (QueryResult.ok timings_width_17bit) initial_monitor_state)).width = 1920 ∧
    (jetkvm_video_get_status (run_detect_format_cycle ⟨true, 0, 7⟩
      (QueryResult.ok timings_width_17bit) initial_monitor_state)).width
      ≠ (run_detect_format_cycle ⟨true, 0, 7⟩ (QueryResult.ok timings_width_17bit)
          initial_monitor_state).detected_width := by
  obtain ⟨hw, _, _⟩ :=
    run_detect_format_cycle_detected ⟨true, 0, 7⟩ timings_width_17bit initial_monitor_state
  have hst :=
    run_detect_format_cycle_ok_state ⟨true, 0, 7⟩ timings_width_17bit initial_monitor_state
  unfold jetkvm_video_get_status
  rw [hst, hw]
  decide

/-! ### Frame rate -/

theorem frames_per_second_eq (bt : v4l2_bt_timings) :
    frames_per_second bt
      = f64 (f64 (bt.pixelclock : ℚ) /
          (((bt.height + bt.vfrontporch + bt.vsync + bt.vbackporch) % 4294967296 *
            ((bt.width + bt.hfrontporch + bt.hsync + bt.hbackporch) % 4294967296)
            % 4294967296 : ℕ) : ℚ)) := by
  unfold frames_per_second
  simp only
  rw [f64_nat _ (lt_trans (Nat.mod_lt _ (by norm_num)) (by norm_num))]

/-- C19 (as amended): on every successful timings query for which the divisor is
non-zero, the published framesPerSecond is the `double` nearest to
pixelclock (converted to `double`) divided by
((height + vfrontporch + vsync + vbackporch) * (width + hfrontporch + hsync +
hbackporch)), the sums and the product being taken modulo 2^32; it equals the
quotient by the exact product, rounded to `double`, whenever that product is
below 2^32 and the pixel clock below 2^53. -/
theorem frames_per_second_published (env : ThreadEnv) (bt : v4l2_bt_timings)
    (s : MonitorState)
    (hT : (bt.height + bt.vfrontporch + bt.vsync + bt.vbackporch) % 4294967296 *
      ((bt.width + bt.hfrontporch + bt.hsync + bt.hbackporch) % 4294967296)
      % 4294967296 ≠ 0) :
    (jetkvm_video_get_status
        (run_detect_format_cycle env (QueryResult.ok bt) s)).frame_per_second
      = f64 (f64 (bt.pixelclock : ℚ) /
          (((bt.height + bt.vfrontporch + bt.vsync + bt.vbackporch) % 4294967296 *
            ((bt.width + bt.hfrontporch + bt.hsync + bt.hbackporch) % 4294967296)
            % 4294967296 : ℕ) : ℚ)) ∧
    ((bt.height + bt.vfrontporch + bt.vsync + bt.vbackporch) *
        (bt.width + bt.hfrontporch + bt.hsync + bt.hbackporch) < 4294967296 →
      bt.pixelclock < 9007199254740992 →
      (jetkvm_video_get_status
          (run_detect_format_cycle env (QueryResult.ok bt) s)).frame_per_second
        = framesPerSecond_spec bt) := by
  have hst := run_detect_format_cycle_ok_state env bt s
  unfold jetkvm_video_get_status
  rw [hst]
  refine ⟨frames_per_second_eq bt, ?_⟩
  intro hlt hpc
  show frames_per_second bt = framesPerSecond_spec bt
  rw [frames_per_second_eq]
  unfold framesPerSecond_spec
  generalize hv : bt.height + bt.vfrontporch + bt.vsync + bt.vbackporch = v at hT hlt ⊢
  generalize hh : bt.width + bt.hfrontporch + bt.hsync + bt.hbackporch = w at hT hlt ⊢
  have hv0 : v ≠ 0 := by
    rintro rfl
    simp at hT
  have hw0 : w ≠ 0 := by
    rintro rfl
    simp at hT
  have hvlt : v < 4294967296 :=
    lt_of_le_of_lt (Nat.le_mul_of_pos_right v (Nat.pos_of_ne_zero hw0)) hlt
  have hwlt : w < 4294967296 :=
    lt_of_le_of_lt (Nat.le_mul_of_pos_left w (Nat.pos_of_ne_zero hv0)) hlt
  rw [Nat.mod_eq_of_lt hvlt, Nat.mod_eq_of_lt hwlt, Nat.mod_eq_of_lt hlt,
    f64_nat _ (by norm_num; exact hpc)]


theorem f64_sixty : f64 60 = 60 := by
  have h := f64_nat 60 (by norm_num)
  norm_num at h ⊢
  exact h

theorem framesPerSecond_spec_1080p60 : framesPerSecond_spec timings_1080p60 = 60 := by
  unfold framesPerSecond_spec timings_1080p60
  norm_num
  exact f64_sixty

/-- C19, witness: pixel clock 148500000 with totals 2200 x 1125 is published as
exactly 60. -/
theorem frames_per_second_published_witness :
    (jetkvm_video_get_status (run_detect_format_cycle ⟨true, 0, 7⟩
      (QueryResult.ok timings_1080p60) initial_monitor_state)).frame_per_second = 60 :=
  ((frames_per_second_published ⟨true, 0, 7⟩ timings_1080p60 initial_monitor_state
      (by decide)).2 (by decide) (by decide)).trans framesPerSecond_spec_1080p60

/-- C19, counterexample: with totals 65536 x 65537 (fields that fit 32 bits, exact
product 4295032832, non-zero) the 32-bit product is 65536, so pixel clock
3932160 is published as 60 while the quotient by the exact product is below 1. -/
theorem frames_per_second_wraps :
    (timings_wide.height + timings_wide.vfrontporch + timings_wide.vsync
        + timings_wide.vbackporch) *
      (timings_wide.width + timings_wide.hfrontporch + timings_wide.hsync
        + timings_wide.hbackporch) = 4295032832 ∧
    (jetkvm_video_get_status (run_detect_format_cycle ⟨true, 0, 7⟩
      (QueryResult.ok timings_wide) initial_monitor_state)).frame_per_second = 60 ∧
    framesPerSecond_spec timings_wide ≤ 1 ∧
    (jetkvm_video_get_status (run_detect_format_cycle ⟨true, 0, 7⟩
      (QueryResult.ok timings_wide) initial_monitor_state)).frame_per_second
      ≠ framesPerSecond_spec timings_wide := by
  have hpub : (jetkvm_video_get_status (run_detect_format_cycle ⟨true, 0, 7⟩
      (QueryResult.ok timings_wide) initial_monitor_state)).frame_per_second = 60 := by
    unfold jetkvm_video_get_status
    rw [run_detect_format_cycle_ok_state]
    show frames_per_second timings_wide = 60
    rw [frames_per_second_eq]
    have hT : (timings_wide.height + timings_wide.vfrontporch + timings_wide.vsync
        + timings_wide.vbackporch) % 4294967296 *
      ((timings_wide.width + timings_wide.hfrontporch + timings_wide.hsync
        + timings_wide.hbackporch) % 4294967296) % 4294967296 = 65536 := by decide
    have hpc : timings_wide.pixelclock = 3932160 := rfl
    rw [hT, hpc, f64_nat _ (by norm_num)]
    norm_num
    exact f64_sixty
  have hspec : framesPerSecond_spec timings_wide ≤ 1 := by
    unfold framesPerSecond_spec timings_wide
    have h1 := f64_nat 1 (by norm_num)
    have hmono := f64_mono (x := ((3932160 : ℕ) : ℚ) /
        (((65537 + 0 + 0 + 0) * (65536 + 0 + 0 + 0) : ℕ) : ℚ)) (y := ((1 : ℕ) : ℚ))
      (by positivity) (by norm_num)
    rw [h1] at hmono
    exact_mod_cast hmono
  refine ⟨by decide, hpub, hspec, ?_⟩
  rw [hpub]
  intro hcon
  rw [← hcon] at hspec
  norm_num at hspec


/-! ### Restart on a format change -/

theorem restart_counts (env : ThreadEnv) (s : VideoState) (h : s.streaming_thread ≠ none) :
    (video_stop_streaming { s with trace := s.trace ++ [Event.log_info] }).streaming_thread
      = none ∧
    joined (video_start_streaming env
        (video_stop_streaming { s with trace := s.trace ++ [Event.log_info] }))
      = joined s + 1 ∧
    spawn_attempts (video_start_streaming env
        (video_stop_streaming { s with trace := s.trace ++ [Event.log_info] }))
      = spawn_attempts s + 1 := by
  obtain ⟨t, ht⟩ := Option.ne_none_iff_exists'.mp h
  have hstop : video_stop_streaming { s with trace := s.trace ++ [Event.log_info] }
      = { s with
          streaming_flag := false
          streaming_thread := none
          trace := (s.trace ++ [Event.log_info]) ++
            [Event.log_info, Event.usleep 1000000, Event.log_info, Event.pthread_join t,
              Event.free, Event.log_info] } := by
    unfold video_stop_streaming
    simp only [ht]
  refine ⟨by rw [hstop], ?_, ?_⟩
  · rw [hstop]
    unfold video_start_streaming
    simp only [ne_eq, not_true_eq_false, if_false]
    split_ifs <;> simp [joined, List.countP_append, Event.isJoin]
  · rw [spawn_attempts_start_of_no_session env _ (by rw [hstop]), hstop]
    simp [spawn_attempts, List.countP_append, Event.isAlloc]

theorem wrapInt32_mod (n : ℕ) :
    (wrapInt32 ((n % 4294967296 : ℕ) : ℤ) % 4294967296).toNat = n % 4294967296 := by
  unfold wrapInt32
  omega

/-! ### Return values of `video_init`, `hex_to_bytes` and `get_edid` -/

/-- C15: with `RK_SUCCESS = 0` and `RK_FAILURE = -1`, `video_init` returns 0 when
every step succeeds and -1 when `RK_MPI_SYS_Init` or the pool creation fails, but
when opening the control sub-device fails with `errno = ENOENT` (2) it returns 2,
not -1. -/
theorem video_init_open_failure :
    (video_init ⟨0, -1⟩ ⟨0, 3, 0, some 0⟩ initial_init_state).1 = 0 ∧
    (video_init ⟨0, -1⟩ ⟨-1, 3, 0, some 0⟩ initial_init_state).1 = -1 ∧
    (video_init ⟨0, -1⟩ ⟨0, 3, 0, none⟩ initial_init_state).1 = -1 ∧
    (video_init ⟨0, -1⟩ ⟨0, -1, 2, some 0⟩ initial_init_state).1 = 2 := by
  decide

/-- C16: `hex_to_bytes` accepts two-character groups that are not two hexadecimal
digits, because `strtol` skips white space and reads a sign: " 1" yields the byte
0x01, "+f" the byte 0x0f and "-0" the byte 0x00, each with return value 1. -/
theorem hex_to_bytes_accepts_non_hex :
    hex_digit 32 = none ∧ hex_digit 43 = none ∧ hex_digit 45 = none ∧
    hex_to_bytes [32, 49] [255] 1 = (1, [1]) ∧
    hex_to_bytes [43, 102] [255] 1 = (1, [15]) ∧
    hex_to_bytes [45, 48] [255] 1 = (1, [0]) := by
  decide

theorem get_edid_success (env : EdidEnv) (buf : List ℕ) (max_size : ℕ)
    (hsize : max_size = 128 ∨ max_size = 256) (hopen : 0 ≤ env.open_fd)
    (hio : 0 ≤ env.ioctl_result) :
    get_edid env (some buf) max_size
      = { ret := wrapInt32 ((env.blocks_out * 128 % 4294967296 : ℕ) : ℤ),
          edid := some (env.data_out ++ buf.drop env.data_out.length), errno := none,
          dev := [DevEvent.open_dev env.open_fd, DevEvent.g_edid 2 env.ioctl_result,
            DevEvent.close_dev] } := by
  unfold get_edid
  simp only
  rw [if_neg (by omega), if_neg (by omega), if_neg (by omega)]

/-- C17: `get_edid` always asks the driver for two blocks; with `max_size = 128`
and a display holding two blocks it returns 256, more than `max_size`, after the
driver has stored 256 bytes through the caller's pointer. -/
theorem get_edid_exceeds_max_size :
    (get_edid ⟨3, 0, 2, List.replicate 256 17⟩ (some (List.replicate 128 0)) 128).ret = 256 ∧
    (get_edid ⟨3, 0, 2, List.replicate 256 17⟩ (some (List.replicate 128 0)) 128).dev
      = [DevEvent.open_dev 3, DevEvent.g_edid 2 0, DevEvent.close_dev] ∧
    (get_edid ⟨3, 0, 2, List.replicate 256 17⟩ (some (List.replicate 128 0)) 128).edid
      = some (List.replicate 256 17) := by
  rw [get_edid_success ⟨3, 0, 2, List.replicate 256 17⟩ (List.replicate 128 0) 128
    (Or.inl rfl) (by decide) (by decide)]
  refine ⟨by decide, rfl, ?_⟩
  show some (List.replicate 256 17 ++ (List.replicate 128 0).drop (List.replicate 256 17).length)
    = some (List.replicate 256 17)
  rw [List.length_replicate, List.drop_eq_nil_of_le (by rw [List.length_replicate]; decide),
    List.append_nil]

/-! ### Interleaved lifecycle requests -/

theorem set_quality_request_sequential (env : ThreadEnv) (f : ℚ) (s : VideoState) :
    (run_schedule [0, 0, 0, 0, 0] [set_quality_request env f] s).2
      = video_set_quality_factor env f s := by
  cases hflag : s.streaming_flag <;>
    simp [run_schedule, step_request, exec_step, set_quality_request,
      video_set_quality_factor, hflag]

theorem monitor_restart_request_sequential (env : ThreadEnv) (s : VideoState) :
    (run_schedule [0, 0, 0, 0] [monitor_restart_request env] s).2
      = run_detect_format_restart env s := by
  cases hflag : s.streaming_flag <;>
    simp [run_schedule, step_request, exec_step, monitor_restart_request,
      run_detect_format_restart, hflag]

theorem stop_request_sequential (s : VideoState) :
    (run_schedule [0] [stop_request] s).2 = video_stop_streaming s := by
  simp [run_schedule, step_request, exec_step, stop_request]

/-- C18: a session with thread handle 7 is running; `video_set_quality_factor`
(request 0) and `video_stop_streaming` of another caller (request 1) are issued.
When the stop runs between the restart's check and its stop, the restart's own
stop finds nothing to stop and its start creates a new session (handle 8), the
outcome of neither serial order; the same happens with the monitor's restart. -/
theorem restart_not_atomic :
    (run_schedule [0, 0, 1, 0, 0, 0] [set_quality_request ⟨true, 0, 8⟩ (1 / 2), stop_request]
      (video_start_streaming ⟨true, 0, 7⟩ initial_state)).2.streaming_thread = some 8 ∧
    (run_schedule [0, 0, 0, 0, 0, 1] [set_quality_request ⟨true, 0, 8⟩ (1 / 2), stop_request]
      (video_start_streaming ⟨true, 0, 7⟩ initial_state)).2.streaming_thread = none ∧
    (run_schedule [1, 0, 0, 0, 0, 0] [set_quality_request ⟨true, 0, 8⟩ (1 / 2), stop_request]
      (video_start_streaming ⟨true, 0, 7⟩ initial_state)).2.streaming_thread = none ∧
    (run_schedule [0, 0, 1, 0, 0, 0] [set_quality_request ⟨true, 0, 8⟩ (1 / 2), stop_request]
      (video_start_streaming ⟨true, 0, 7⟩ initial_state)).2.trace
      = [Event.malloc true, Event.pthread_create 0 7,
          Event.log_info, Event.usleep 1000000, Event.log_info, Event.pthread_join 7,
          Event.free, Event.log_info,
          Event.log_info,
          Event.malloc true, Event.pthread_create 0 8] ∧
    (run_schedule [0, 1, 0, 0, 0] [monitor_restart_request ⟨true, 0, 8⟩, stop_request]
      (video_start_streaming ⟨true, 0, 7⟩ initial_state)).2.streaming_thread = some 8 ∧
    (run_schedule [0, 0, 0, 0, 1] [monitor_restart_request ⟨true, 0, 8⟩, stop_request]
      (video_start_streaming ⟨true, 0, 7⟩ initial_state)).2.streaming_thread = none ∧
    (run_schedule [1, 0, 0, 0, 0] [monitor_restart_request ⟨true, 0, 8⟩, stop_request]
      (video_start_streaming ⟨true, 0, 7⟩ initial_state)).2.streaming_thread = none := by
  refine ⟨?_, ?_, ?_, ?_, ?_, ?_, ?_⟩ <;>
    simp [run_schedule, step_request, exec_step, set_quality_request, monitor_restart_request,
      stop_request, video_start_streaming, video_stop_streaming, initial_state]

/-! ### Submitting a frame -/

theorem submissions_append (a b : List CaptureEvent) :
    submissions (a ++ b) = submissions a ++ submissions b := by
  induction a with
  | nil => rfl
  | cons e rest ih => cases e <;> simp [submissions, ih]

theorem requeues_append (a b : List CaptureEvent) :
    requeues (a ++ b) = requeues a + requeues b := by
  induction a with
  | nil => simp [requeues]
  | cons e rest ih =>
    cases e
    all_goals simp [requeues, ih]
    omega

/-! ### Lifecycle invariant under sequential and interleaved requests -/

theorem lifecycle_inv_exec_step (st : AtomicStep) (b : Bool) {s : VideoState}
    (hs : lifecycle_inv s) : lifecycle_inv (exec_step st b s).2 := by
  cases st with
  | store_quality f => exact ⟨hs.1, hs.2⟩
  | check => exact hs
  | log_if =>
    simp only [exec_step]
    split_ifs
    · exact lifecycle_inv_log hs s.quality_factor
    · exact hs
  | stop_if =>
    simp only [exec_step]
    split_ifs
    · exact lifecycle_inv_stop hs
    · exact hs
  | start_if env =>
    simp only [exec_step]
    split_ifs
    · exact lifecycle_inv_start env hs
    · exact hs
  | stop => exact lifecycle_inv_stop hs
  | start env => exact lifecycle_inv_start env hs

theorem lifecycle_inv_step_request (i : ℕ) (rs : List Request) {s : VideoState}
    (hs : lifecycle_inv s) : lifecycle_inv (step_request i rs s).2 := by
  unfold step_request
  split
  · split
    · exact lifecycle_inv_exec_step _ _ hs
    · exact hs
  · exact hs

theorem lifecycle_inv_run_schedule (sched : List ℕ) (rs : List Request) {s : VideoState}
    (hs : lifecycle_inv s) : lifecycle_inv (run_schedule sched rs s).2 := by
  induction sched generalizing rs s with
  | nil => exact hs
  | cons i rest ih =>
    simp only [run_schedule]
    exact ih _ (lifecycle_inv_step_request i rs hs)

/-- C25: in every state reachable from the initial state through
`video_start_streaming`, `video_stop_streaming`, `video_set_quality_factor` and
the monitor's restart, `streaming_flag` is true exactly when `streaming_thread`
is non-NULL; the same holds after any interleaving of the critical sections of
further requests started in such a state. -/
theorem streaming_flag_iff_thread (s : VideoState) (hr : Reachable s) (sched : List ℕ)
    (rs : List Request) :
    (s.streaming_flag = true ↔ s.streaming_thread ≠ none) ∧
    ((run_schedule sched rs s).2.streaming_flag = true ↔
      (run_schedule sched rs s).2.streaming_thread ≠ none) :=
  ⟨(lifecycle_inv_of_reachable hr).1,
    (lifecycle_inv_run_schedule sched rs (lifecycle_inv_of_reachable hr)).1⟩

/-- C25, witness: the state after start, restart by the monitor and stop, and the
interleaving of a quality change with a stop of another caller. -/
theorem streaming_flag_iff_thread_witness :
    ((video_stop_streaming (run_detect_format_restart ⟨true, 0, 8⟩
        (video_start_streaming ⟨true, 0, 7⟩ initial_state))).streaming_flag = true ↔
      (video_stop_streaming (run_detect_format_restart ⟨true, 0, 8⟩
        (video_start_streaming ⟨true, 0, 7⟩ initial_state))).streaming_thread ≠ none) ∧
    ((run_schedule [0, 0, 1, 0, 0, 0]
        [set_quality_request ⟨true, 0, 8⟩ (1 / 2), stop_request]
        (video_start_streaming ⟨true, 0, 7⟩ initial_state)).2.streaming_flag = true ↔
      (run_schedule [0, 0, 1, 0, 0, 0]
        [set_quality_request ⟨true, 0, 8⟩ (1 / 2), stop_request]
        (video_start_streaming ⟨true, 0, 7⟩ initial_state)).2.streaming_thread ≠ none) :=
  ⟨(streaming_flag_iff_thread _
      (Reachable.stop (Reachable.format_change ⟨true, 0, 8⟩
        (Reachable.start ⟨true, 0, 7⟩ Reachable.init))) [] []).1,
   (streaming_flag_iff_thread _ (Reachable.start ⟨true, 0, 7⟩ Reachable.init)
      [0, 0, 1, 0, 0, 0] [set_quality_request ⟨true, 0, 8⟩ (1 / 2), stop_request]).2⟩

/-! ### Frame of the EDID fix-up -/

theorem list_eq_of_getD_eq (a b : List ℕ) (hlen : a.length = b.length)
    (h : ∀ j, a.getD j 0 = b.getD j 0) : a = b := by
  apply List.ext_getElem hlen
  intro n h1 h2
  have := h n
  rwa [List.getD_eq_getElem _ _ h1, List.getD_eq_getElem _ _ h2] at this

theorem fix_edid_checksum_getD (edid : List ℕ) (size j : ℕ) :
    (fix_edid_checksum edid size).getD j 0
      = if j % 128 = 127 ∧ j / 128 < size / 128 ∧ j < edid.length
        then (256 - checksum_sum edid (j / 128) 127) % 256 else edid.getD j 0 :=
  (fix_edid_blocks_spec edid (size / 128)).2 j

theorem fix_edid_checksum_length (edid : List ℕ) (size : ℕ) :
    (fix_edid_checksum edid size).length = edid.length :=
  (fix_edid_blocks_spec edid (size / 128)).1

/-- C26: for every buffer and size, `fix_edid_checksum` keeps the length, leaves
unchanged every byte at an offset that is not 127 modulo 128 and every byte
beyond the last complete block, and applying it twice gives the same buffer as
applying it once. -/
theorem fix_edid_checksum_frame (edid : List ℕ) (size : ℕ) :
    (fix_edid_checksum edid size).length = edid.length ∧
    (∀ j, j % 128 ≠ 127 → (fix_edid_checksum edid size).getD j 0 = edid.getD j 0) ∧
    (∀ j, size / 128 * 128 ≤ j → (fix_edid_checksum edid size).getD j 0 = edid.getD j 0) ∧
    fix_edid_checksum (fix_edid_checksum edid size) size = fix_edid_checksum edid size := by
  have hlen := fix_edid_checksum_length edid size
  have hother : ∀ j, j % 128 ≠ 127 →
      (fix_edid_checksum edid size).getD j 0 = edid.getD j 0 := by
    intro j hj
    rw [fix_edid_checksum_getD, if_neg (fun hc => hj hc.1)]
  refine ⟨hlen, hother, ?_, ?_⟩
  · intro j hj
    rw [fix_edid_checksum_getD, if_neg]
    intro hc
    have := Nat.div_mul_le_self j 128
    have h2 : j / 128 < size / 128 := hc.2.1
    have h3 : (j / 128 + 1) * 128 ≤ size / 128 * 128 := Nat.mul_le_mul_right 128 h2
    omega
  · apply list_eq_of_getD_eq
    · rw [fix_edid_checksum_length]
    · intro j
      rw [fix_edid_checksum_getD (fix_edid_checksum edid size), hlen]
      by_cases hc : j % 128 = 127 ∧ j / 128 < size / 128 ∧ j < edid.length
      · rw [if_pos hc, fix_edid_checksum_getD, if_pos hc]
        rw [checksum_sum_congr (fix_edid_checksum edid size) edid (j / 128) 127
          (fun i hi => hother _ (by omega))]
      · rw [if_neg hc]

/-- C26, witness: a 130-byte buffer of bytes `0x01` fixed up with size 130; byte 5
of the block and byte 129 beyond it keep their value. -/
theorem fix_edid_checksum_frame_witness :
    (fix_edid_checksum (List.replicate 130 1) 130).getD 5 0 = (List.replicate 130 1).getD 5 0 ∧
    (fix_edid_checksum (List.replicate 130 1) 130).getD 129 0
      = (List.replicate 130 1).getD 129 0 ∧
    fix_edid_checksum (fix_edid_checksum (List.replicate 130 1) 130) 130
      = fix_edid_checksum (List.replicate 130 1) 130 :=
  have h := fix_edid_checksum_frame (List.replicate 130 1) 130
  ⟨h.2.1 5 (by decide), h.2.2.1 129 (by decide), h.2.2.2⟩

/-! ### Published status and the internal signal flag -/

theorem run_detect_format_cycle_signal (env : ThreadEnv) (q : QueryResult) (s : MonitorState) :
    (run_detect_format_cycle env q s).detected_signal = q.succeeded := by
  cases q with
  | ok bt => exact (run_detect_format_cycle_detected env bt s).2.2
  | failed errno =>
    simp only [run_detect_format_cycle, QueryResult.succeeded, video_report_format]
    split_ifs <;> rfl

/-- C28, counterexample: after a successful query followed by a query failing
with `EIO` (5), the second cycle has cleared `detected_signal` without
publishing: the status still says ready while the capture worker is told the
signal is absent. -/
theorem ready_differs_from_detected_signal :
    (run_detect_format_cycle ⟨true, 0, 7⟩ (QueryResult.failed 5)
      (run_detect_format_cycle ⟨true, 0, 7⟩ (QueryResult.ok timings_1080p60)
        initial_monitor_state)).detected_signal = false ∧
    (jetkvm_video_get_status (run_detect_format_cycle ⟨true, 0, 7⟩ (QueryResult.failed 5)
      (run_detect_format_cycle ⟨true, 0, 7⟩ (QueryResult.ok timings_1080p60)
        initial_monitor_state))).ready = true := by
  constructor
  · rw [run_detect_format_cycle_signal]
    rfl
  · unfold jetkvm_video_get_status
    rw [run_detect_format_cycle_ready, run_detect_format_cycle_ready]
    decide

/-- C28, amended: after every detection cycle `detected_signal` says whether the
query of that cycle succeeded; after a cycle whose query succeeded or failed
with `ENOLINK`, `ENOLCK` or `ERANGE` the published `ready` equals
`detected_signal`; after a cycle whose query failed with another error
`detected_signal` is false and the published status is the one of before the
cycle. -/
theorem ready_eq_detected_signal (env : ThreadEnv) (q : QueryResult) (s : MonitorState) :
    (run_detect_format_cycle env q s).detected_signal = q.succeeded ∧
    (q.unclassified = false →
      (jetkvm_video_get_status (run_detect_format_cycle env q s)).ready
        = (run_detect_format_cycle env q s).detected_signal) ∧
    (q.unclassified = true →
      (run_detect_format_cycle env q s).detected_signal = false ∧
      jetkvm_video_get_status (run_detect_format_cycle env q s)
        = jetkvm_video_get_status s) := by
  refine ⟨run_detect_format_cycle_signal env q s, ?_, ?_⟩
  · intro hq
    unfold jetkvm_video_get_status
    rw [run_detect_format_cycle_ready, run_detect_format_cycle_signal, hq]
    simp
  · intro hq
    refine ⟨?_, (run_detect_format_cycle_unclassified env q s hq).1⟩
    rw [run_detect_format_cycle_signal]
    cases q with
    | ok bt => simp [QueryResult.unclassified] at hq
    | failed errno => rfl

/-- C28, witness: a cycle with valid 1080p60 timings and a cycle failing with
`ENOLINK` (67), each leaving `ready` equal to `detected_signal`. -/
theorem ready_eq_detected_signal_witness :
    (jetkvm_video_get_status (run_detect_format_cycle ⟨true, 0, 7⟩
        (QueryResult.ok timings_1080p60) initial_monitor_state)).ready
      = (run_detect_format_cycle ⟨true, 0, 7⟩
        (QueryResult.ok timings_1080p60) initial_monitor_state).detected_signal ∧
    (jetkvm_video_get_status (run_detect_format_cycle ⟨true, 0, 7⟩
        (QueryResult.failed 67) initial_monitor_state)).ready
      = (run_detect_format_cycle ⟨true, 0, 7⟩
        (QueryResult.failed 67) initial_monitor_state).detected_signal :=
  ⟨(ready_eq_detected_signal ⟨true, 0, 7⟩ (QueryResult.ok timings_1080p60)
      initial_monitor_state).2.1 rfl,
   (ready_eq_detected_signal ⟨true, 0, 7⟩ (QueryResult.failed 67)
      initial_monitor_state).2.1 (by decide)⟩

/-! ### The LVGL version getter and the application version -/

theorem get_var_lvgl_version_first (major minor patch : ℕ) (s : UiVars)
    (h : s.lvgl_version.getD 0 0 = 0) :
    (get_var_lvgl_version major minor patch s).1
      = { s with
          lvgl_version := strncpy s.lvgl_version (sprintf_version major minor patch) 32,
          app_version := s.app_version.set 31 0 } := by
  unfold get_var_lvgl_version
  rw [if_pos h]

/-- C30: for the 40-character string of letters `a`, `get_var_app_version`
returns the string after `set_var_app_version`, but after the first call of
`get_var_lvgl_version` (whatever the LVGL version numbers) it returns only its
first 31 characters; `system_version` and `main_screen` are unchanged. -/
theorem get_var_lvgl_version_truncates_app_version (major minor patch : ℕ) :
    get_var_app_version (set_var_app_version (List.replicate 40 97) initial_ui_vars)
      = List.replicate 40 97 ∧
    get_var_app_version (get_var_lvgl_version major minor patch
        (set_var_app_version (List.replicate 40 97) initial_ui_vars)).1
      = List.replicate 31 97 ∧
    get_var_system_version (get_var_lvgl_version major minor patch
        (set_var_app_version (List.replicate 40 97) initial_ui_vars)).1
      = get_var_system_version (set_var_app_version (List.replicate 40 97) initial_ui_vars) ∧
    get_var_main_screen (get_var_lvgl_version major minor patch
        (set_var_app_version (List.replicate 40 97) initial_ui_vars)).1
      = get_var_main_screen (set_var_app_version (List.replicate 40 97) initial_ui_vars) := by
  rw [get_var_lvgl_version_first major minor patch _ (by decide)]
  refine ⟨by decide, ?_, rfl, rfl⟩
  show c_string ((set_var_app_version (List.replicate 40 97) initial_ui_vars).app_version.set
    31 0) = List.replicate 31 97
  decide

/-! ### Hexadecimal round trip -/

theorem strtol16_hex_char : ∀ a < 16, ∀ b < 16,
    strtol16 [hex_char a, hex_char b] = (((16 * a + b : ℕ) : ℤ), 2) := by
  decide

theorem hex_char_is_lower_hex : ∀ d < 16,
    (48 ≤ hex_char d ∧ hex_char d ≤ 57) ∨ (97 ≤ hex_char d ∧ hex_char d ≤ 102) := by
  decide

theorem bytes_to_hex_loop_length (b : List ℕ) : (bytes_to_hex_loop b).length = 2 * b.length := by
  induction b with
  | nil => rfl
  | cons x rest ih =>
    simp only [bytes_to_hex_loop, snprintf_02x, List.length_append, List.length_cons,
      List.length_nil, ih]
    omega

theorem bytes_to_hex_loop_chars (b : List ℕ) (hb : ∀ x ∈ b, x < 256) :
    ∀ c ∈ bytes_to_hex_loop b, (48 ≤ c ∧ c ≤ 57) ∨ (97 ≤ c ∧ c ≤ 102) := by
  induction b with
  | nil => intro c hc; simp [bytes_to_hex_loop] at hc
  | cons x rest ih =>
    intro c hc
    have hx : x < 256 := hb x (List.mem_cons_self _ _)
    simp only [bytes_to_hex_loop, snprintf_02x, List.mem_append, List.mem_cons,
      List.mem_singleton, List.not_mem_nil, or_false] at hc
    rcases hc with (rfl | rfl) | hc
    · exact hex_char_is_lower_hex _ (by omega)
    · exact hex_char_is_lower_hex _ (Nat.mod_lt _ (by norm_num))
    · exact ih (fun y hy => hb y (List.mem_cons_of_mem _ hy)) c hc

theorem hex_to_bytes_loop_hex (b : List ℕ) (hb : ∀ x ∈ b, x < 256) (k : ℕ) (out : List ℕ) :
    (hex_to_bytes_loop (bytes_to_hex_loop b) k out).1 = true ∧
    (hex_to_bytes_loop (bytes_to_hex_loop b) k out).2.length = out.length ∧
    ∀ j, (hex_to_bytes_loop (bytes_to_hex_loop b) k out).2.getD j 0
      = if k ≤ j ∧ j < k + b.length ∧ j < out.length then b.getD (j - k) 0
        else out.getD j 0 := by
  induction b generalizing k out with
  | nil =>
    refine ⟨rfl, rfl, ?_⟩
    intro j
    rw [if_neg]
    · rfl
    · simp only [List.length_nil]; omega
  | cons x rest ih =>
    have hx : x < 256 := hb x (List.mem_cons_self _ _)
    have hdiv : x / 16 < 16 := by omega
    have hmod : x % 16 < 16 := Nat.mod_lt _ (by norm_num)
    have hval : 16 * (x / 16) + x % 16 = x := Nat.div_add_mod x 16
    have hstep : hex_to_bytes_loop (bytes_to_hex_loop (x :: rest)) k out
        = hex_to_bytes_loop (bytes_to_hex_loop rest) (k + 1) (out.set k x) := by
      simp only [bytes_to_hex_loop, snprintf_02x, List.cons_append, List.nil_append,
        hex_to_bytes_loop]
      rw [strtol16_hex_char _ hdiv _ hmod, hval]
      have h1 : ([hex_char (x / 16), hex_char (x % 16)] ++ [0]).getD 2 0 = 0 := rfl
      have h2 : ((x : ℤ)).toNat % 256 = x := by
        rw [Int.toNat_ofNat]; omega
      simp only [h1, h2]
      rw [if_neg]
      · rfl
      · intro hc
        rcases hc with hc | hc | hc
        · exact hc rfl
        · omega
        · omega
    have hrest := ih (fun y hy => hb y (List.mem_cons_of_mem _ hy)) (k + 1) (out.set k x)
    rw [hstep]
    refine ⟨hrest.1, ?_, ?_⟩
    · rw [hrest.2.1, List.length_set]
    · intro j
      rw [hrest.2.2 j, List.length_set, getD_set_nat, List.length_cons]
      by_cases hj : k = j
      · subst hj
        by_cases hlt : k < out.length
        · rw [if_neg (by omega), if_pos ⟨rfl, hlt⟩, if_pos ⟨le_refl _, by omega, hlt⟩]
          simp
        · rw [if_neg (by omega), if_neg (by omega), if_neg (by omega)]
      · by_cases hc : k + 1 ≤ j ∧ j < k + 1 + rest.length ∧ j < out.length
        · rw [if_pos hc, if_pos ⟨by omega, by omega, hc.2.2⟩]
          have : j - k = (j - (k + 1)) + 1 := by omega
          rw [this, List.getD_cons_succ]
        · rw [if_neg hc, if_neg (by omega), if_neg (by omega)]

/-- C27: when `malloc` returns storage, for every non-empty array `b` of bytes
(values below 256) of length at most 2048 and every `max_len` at least that
length, with an output array of at least `max_len` bytes, `bytes_to_hex` returns
a string of exactly twice as many characters, each in `0-9` or `a-f`, and
`hex_to_bytes` of that string returns the length of `b` and stores `b` in the
first bytes of the output array. -/
theorem bytes_to_hex_round_trip (b out : List ℕ) (max_len : ℕ) (hne : b ≠ [])
    (hlen : b.length ≤ 2048) (hmax : b.length ≤ max_len) (hout : max_len ≤ out.length)
    (hb : ∀ x ∈ b, x < 256) :
    ∃ hex, bytes_to_hex true (some b) b.length = some hex ∧
      hex.length = 2 * b.length ∧
      (∀ c ∈ hex, (48 ≤ c ∧ c ≤ 57) ∨ (97 ≤ c ∧ c ≤ 102)) ∧
      (hex_to_bytes hex out max_len).1 = (b.length : ℤ) ∧
      (hex_to_bytes hex out max_len).2.take b.length = b := by
  have hpos : b.length ≠ 0 := fun h => hne (List.length_eq_zero.mp h)
  refine ⟨bytes_to_hex_loop b, ?_, bytes_to_hex_loop_length b, bytes_to_hex_loop_chars b hb, ?_⟩
  · simp [bytes_to_hex, hpos]
  · have hl := bytes_to_hex_loop_length b
    have hloop := hex_to_bytes_loop_hex b hb 0 out
    have hsn : strnlen (bytes_to_hex_loop b) 4096 = 2 * b.length := by
      unfold strnlen; rw [hl]; omega
    have htake : (bytes_to_hex_loop b).take (2 * b.length) = bytes_to_hex_loop b := by
      rw [← hl]; exact List.take_length _
    have hcond : ¬ ((2 * b.length) % 2 ≠ 0 ∨ (2 * b.length) / 2 > max_len) := by omega
    have hres : hex_to_bytes (bytes_to_hex_loop b) out max_len
        = (((2 * b.length / 2 : ℕ) : ℤ), (hex_to_bytes_loop (bytes_to_hex_loop b) 0 out).2) := by
      unfold hex_to_bytes
      simp only [hsn, htake]
      rw [if_neg hcond]
      generalize hex_to_bytes_loop (bytes_to_hex_loop b) 0 out = r at hloop
      obtain ⟨r1, r2⟩ := r
      simp only at hloop
      rw [hloop.1]
    rw [hres]
    constructor
    · simp
    · apply list_eq_of_getD_eq
      · rw [List.length_take, hloop.2.1]; omega
      · intro j
        by_cases hj : j < b.length
        · rw [List.getD_eq_getElem?_getD, List.getElem?_take_of_lt hj,
            ← List.getD_eq_getElem?_getD, hloop.2.2 j, if_pos ⟨by omega, by omega, by omega⟩]
          simp
        · rw [List.getD_eq_default _ _ (by rw [List.length_take]; omega),
            List.getD_eq_default _ _ (by omega)]

/-- C27, witness: the bytes `0x00, 0xff, 0x4a` give "00ff4a", which decodes into
a four-byte array as 3 bytes equal to the input. -/
theorem bytes_to_hex_round_trip_witness :
    ∃ hex, bytes_to_hex true (some [0, 255, 74]) 3 = some hex ∧
      hex.length = 2 * 3 ∧
      (∀ c ∈ hex, (48 ≤ c ∧ c ≤ 57) ∨ (97 ≤ c ∧ c ≤ 102)) ∧
      (hex_to_bytes hex [9, 9, 9, 9] 4).1 = 3 ∧
      (hex_to_bytes hex [9, 9, 9, 9] 4).2.take 3 = [0, 255, 74] :=
  bytes_to_hex_round_trip [0, 255, 74] [9, 9, 9, 9] 4 (by decide) (by decide) (by decide)
    (by decide) (by decide)

/-! ### The encode channel -/

theorem venc_start_success (k : RkConsts) (env : VencEnv) (s : VencState)
    (h1 : 0 ≤ env.create_chn) (h2 : 0 ≤ env.start_recv_frame) (h3 : env.pthread_create = 0) :
    venc_start k env s
      = (k.RK_SUCCESS,
          { venc_running := true, venc_read_thread := some (some env.thread),
            chn_created := true, receiving := true,
            trace := s.trace ++ [VencEvent.create_chn env.create_chn] ++
              [VencEvent.start_recv_frame env.start_recv_frame, VencEvent.malloc] ++
              [VencEvent.pthread_create env.pthread_create] }) := by
  unfold venc_start
  simp only [not_lt.mpr h1, not_lt.mpr h2, h3, if_false, ne_eq, not_true_eq_false]

theorem venc_stop_running (k : RkConsts) (env : VencEnv) (s : VencState) :
    (venc_stop k env s).2.venc_running = false := by
  unfold venc_stop
  simp only
  split_ifs
  · rfl
  · cases s.venc_read_thread <;> rfl
  · cases s.venc_read_thread <;> rfl

theorem venc_stop_stopped (k : RkConsts) (env : VencEnv) (s : VencState)
    (h : env.stop_recv_frame = k.RK_SUCCESS) :
    (venc_stop k env s).2.venc_read_thread = none ∧
    (venc_stop k env s).2.receiving = false ∧
    (venc_stop k env s).2.chn_created
      = (if env.destroy_chn = k.RK_SUCCESS then false else s.chn_created) ∧
    (venc_stop k env s).1 = env.destroy_chn ∧
    ∀ t, s.venc_read_thread = some t →
      VencEvent.pthread_join t ∈ (venc_stop k env s).2.trace := by
  unfold venc_stop
  simp only [h, ne_eq, not_true_eq_false, if_false]
  by_cases hd : env.destroy_chn = k.RK_SUCCESS
  · cases hth : s.venc_read_thread <;> simp [hd]
  · cases hth : s.venc_read_thread <;> simp [hd]

theorem venc_stop_stop_failure (k : RkConsts) (env : VencEnv) (s : VencState)
    (h : env.stop_recv_frame ≠ k.RK_SUCCESS) :
    (venc_stop k env s).1 = env.stop_recv_frame := by
  unfold venc_stop
  simp only [ne_eq, h, not_false_eq_true, if_true]

/-- C24, counterexample: from the Active state reached by a successful
`venc_start`, a `venc_stop` whose `RK_MPI_VENC_DestroyChn` fails with -1 returns
-1 and the channel still exists in the engine. -/
theorem venc_stop_channel_remains :
    venc_active 7 (venc_start ⟨0, -1⟩ ⟨0, 0, 0, 7, 0, -1⟩ initial_venc_state).2 ∧
    (venc_stop ⟨0, -1⟩ ⟨0, 0, 0, 7, 0, -1⟩
      (venc_start ⟨0, -1⟩ ⟨0, 0, 0, 7, 0, -1⟩ initial_venc_state).2).1 = -1 ∧
    (venc_stop ⟨0, -1⟩ ⟨0, 0, 0, 7, 0, -1⟩
      (venc_start ⟨0, -1⟩ ⟨0, 0, 0, 7, 0, -1⟩ initial_venc_state).2).2.chn_created = true ∧
    ¬ venc_idle (venc_stop ⟨0, -1⟩ ⟨0, 0, 0, 7, 0, -1⟩
      (venc_start ⟨0, -1⟩ ⟨0, 0, 0, 7, 0, -1⟩ initial_venc_state).2).2 := by
  decide

/-- C24, amended: `venc_running` is false after every `venc_stop`; a `venc_stop`
that returns `RK_SUCCESS` leaves the channel Idle, and it returns `RK_SUCCESS`
when both engine calls do; when `RK_MPI_VENC_StopRecvFrame` succeeds, frame intake
is stopped, the read-back worker stored in `venc_read_thread` was joined and
`venc_read_thread` is `NULL`, and the channel is destroyed exactly when
`RK_MPI_VENC_DestroyChn` succeeds; a successful `venc_start` makes the channel
Active. -/
theorem venc_stop_idle_on_success (k : RkConsts) (env : VencEnv) (s : VencState) :
    (venc_stop k env s).2.venc_running = false ∧
    ((venc_stop k env s).1 = k.RK_SUCCESS → venc_idle (venc_stop k env s).2) ∧
    (env.stop_recv_frame = k.RK_SUCCESS → env.destroy_chn = k.RK_SUCCESS →
      (venc_stop k env s).1 = k.RK_SUCCESS) ∧
    (env.stop_recv_frame = k.RK_SUCCESS →
      (venc_stop k env s).2.venc_read_thread = none ∧
      (venc_stop k env s).2.receiving = false ∧
      (∀ t, s.venc_read_thread = some t →
        VencEvent.pthread_join t ∈ (venc_stop k env s).2.trace) ∧
      ((venc_stop k env s).2.chn_created = false ↔
        (env.destroy_chn = k.RK_SUCCESS ∨ s.chn_created = false))) ∧
    (0 ≤ env.create_chn → 0 ≤ env.start_recv_frame → env.pthread_create = 0 →
      (venc_start k env s).1 = k.RK_SUCCESS ∧ venc_active env.thread (venc_start k env s).2) := by
  refine ⟨venc_stop_running k env s, ?_, ?_, ?_, ?_⟩
  · intro hret
    by_cases h : env.stop_recv_frame = k.RK_SUCCESS
    · have hs := venc_stop_stopped k env s h
      have hd : env.destroy_chn = k.RK_SUCCESS := by rw [← hs.2.2.2.1]; exact hret
      refine ⟨venc_stop_running k env s, hs.1, ?_, hs.2.1⟩
      rw [hs.2.2.1, if_pos hd]
    · exact absurd ((venc_stop_stop_failure k env s h).symm.trans hret) h
  · intro h hd
    rw [(venc_stop_stopped k env s h).2.2.2.1, hd]
  · intro h
    have hs := venc_stop_stopped k env s h
    refine ⟨hs.1, hs.2.1, hs.2.2.2.2, ?_⟩
    rw [hs.2.2.1]
    by_cases hd : env.destroy_chn = k.RK_SUCCESS
    · simp [hd]
    · simp [hd]
  · intro h1 h2 h3
    rw [venc_start_success k env s h1 h2 h3]
    exact ⟨rfl, rfl, rfl, rfl, rfl⟩

/-- C24, witness: start and stop with every call succeeding goes from Idle to
Active and back to Idle, joining thread 7. -/
theorem venc_stop_idle_on_success_witness :
    venc_idle initial_venc_state ∧
    venc_active 7 (venc_start ⟨0, -1⟩ ⟨0, 0, 0, 7, 0, 0⟩ initial_venc_state).2 ∧
    venc_idle (venc_stop ⟨0, -1⟩ ⟨0, 0, 0, 7, 0, 0⟩
      (venc_start ⟨0, -1⟩ ⟨0, 0, 0, 7, 0, 0⟩ initial_venc_state).2).2 ∧
    VencEvent.pthread_join (some 7) ∈ (venc_stop ⟨0, -1⟩ ⟨0, 0, 0, 7, 0, 0⟩
      (venc_start ⟨0, -1⟩ ⟨0, 0, 0, 7, 0, 0⟩ initial_venc_state).2).2.trace :=
  ⟨by decide,
   ((venc_stop_idle_on_success ⟨0, -1⟩ ⟨0, 0, 0, 7, 0, 0⟩ initial_venc_state).2.2.2.2
      (by decide) (by decide) (by decide)).2,
   (venc_stop_idle_on_success ⟨0, -1⟩ ⟨0, 0, 0, 7, 0, 0⟩
      (venc_start ⟨0, -1⟩ ⟨0, 0, 0, 7, 0, 0⟩ initial_venc_state).2).2.1 (by decide),
   ((venc_stop_idle_on_success ⟨0, -1⟩ ⟨0, 0, 0, 7, 0, 0⟩
      (venc_start ⟨0, -1⟩ ⟨0, 0, 0, 7, 0, 0⟩ initial_venc_state).2).2.2.2.1
      (by decide)).2.2.1 (some 7) (by decide)⟩

/-- C29: when `RK_MPI_VENC_CreateChn` and `RK_MPI_VENC_StartRecvFrame` succeed and
`pthread_create` fails with `EAGAIN` (11), `venc_start` returns `RK_FAILURE` with
`venc_running` still true and `venc_read_thread` pointing to storage that holds no
created thread, and the `venc_stop` that follows calls `pthread_join` on it. -/
theorem venc_start_thread_failure_not_idle :
    (venc_start ⟨0, -1⟩ ⟨0, 0, 11, 7, 0, 0⟩ initial_venc_state).1 = -1 ∧
    (venc_start ⟨0, -1⟩ ⟨0, 0, 11, 7, 0, 0⟩ initial_venc_state).2.venc_running = true ∧
    (venc_start ⟨0, -1⟩ ⟨0, 0, 11, 7, 0, 0⟩ initial_venc_state).2.venc_read_thread
      = some none ∧
    VencEvent.pthread_join none ∈ (venc_stop ⟨0, -1⟩ ⟨0, 0, 11, 7, 0, 0⟩
      (venc_start ⟨0, -1⟩ ⟨0, 0, 11, 7, 0, 0⟩ initial_venc_state).2).2.trace := by
  decide

/-! ### The capture worker -/

theorem run_video_stream_of_next (k : RkConsts) (env : PassEnv) (rest : List PassEnv)
    (s : WorkerState) (h : (run_video_stream_pass k env s).1 = PassResult.next) :
    run_video_stream k (env :: rest) s
      = run_video_stream k rest (run_video_stream_pass k env s).2 := by
  rcases hp : run_video_stream_pass k env s with ⟨r, s1⟩
  rw [hp] at h
  simp only at h
  subst h
  simp only [run_video_stream, hp]

theorem wrapInt32_cast_mod (n : ℕ) :
    (wrapInt32 ((n : ℤ) % 4294967296) % 4294967296).toNat = n % 4294967296 := by
  unfold wrapInt32
  omega

theorem query_buffers_ok (env : PassEnv) (b0 b1 b2 : ℕ)
    (h0 : env.slots 0 = ⟨true, some b0, true⟩) (h1 : env.slots 1 = ⟨true, some b1, true⟩)
    (h2 : env.slots 2 = ⟨true, some b2, true⟩) (tr : List WorkerEvent) :
    query_buffers env (List.range input_buffer_count) (List.replicate 3 none) tr
      = (none, [some b0, some b1, some b2],
          tr ++ [WorkerEvent.querybuf 0 true, WorkerEvent.get_mb 0 (some b0),
            WorkerEvent.handle2fd b0 true, WorkerEvent.querybuf 1 true,
            WorkerEvent.get_mb 1 (some b1), WorkerEvent.handle2fd b1 true,
            WorkerEvent.querybuf 2 true, WorkerEvent.get_mb 2 (some b2),
            WorkerEvent.handle2fd b2 true]) := by
  have hr : List.range input_buffer_count = [0, 1, 2] := by decide
  rw [hr]
  simp [query_buffers, h0, h1, h2]

theorem queue_buffers_ok (env : PassEnv) (h0 : env.qbuf_ok 0 = true)
    (h1 : env.qbuf_ok 1 = true) (h2 : env.qbuf_ok 2 = true) (tr : List WorkerEvent) :
    queue_buffers env (List.range input_buffer_count) tr
      = (none, tr ++ [WorkerEvent.qbuf 0 true, WorkerEvent.qbuf 1 true,
          WorkerEvent.qbuf 2 true]) := by
  have hr : List.range input_buffer_count = [0, 1, 2] := by decide
  rw [hr]
  simp [queue_buffers, h0, h1, h2]

theorem run_video_stream_pass_session (k : RkConsts) (env : PassEnv) (s : WorkerState)
    (b0 b1 b2 : ℕ) (hflag : env.streaming_flag = true) (hs : session_starts env b0 b1 b2) :
    run_video_stream_pass k env s =
      match capture_loop env.detected_width env.detected_height env.rounds 0
          (s.trace ++ setup_events env.detected_width env.detected_height b0 b1 b2
            k.RK_SUCCESS) with
      | (LoopEnd.pending, tr2) =>
        (PassResult.pending, { venc := (venc_start k env.venc s.venc).2, trace := tr2 })
      | (LoopEnd.aborted, tr2) =>
        (PassResult.aborted, { venc := (venc_start k env.venc s.venc).2, trace := tr2 })
      | (LoopEnd.left, tr2) =>
        (PassResult.next, cleanup k env [some b0, some b1, some b2]
          { venc := (venc_start k env.venc s.venc).2, trace := tr2 }) := by
  obtain ⟨hsig, hopen, hfmt, hreq, h0, h1, h2, hq0, hq1, hq2, hon, hv1, hv2, hv3⟩ := hs
  have hret : (venc_start k env.venc s.venc).1 = k.RK_SUCCESS := by
    rw [venc_start_success k env.venc s.venc hv1 hv2 hv3]
  unfold run_video_stream_pass
  rw [if_neg (by simp [hflag]), if_neg (by simp [hsig]), if_neg (by simp [hopen])]
  simp only
  rw [if_neg (by simp [hfmt]), if_neg (by simp [hreq]),
    query_buffers_ok env b0 b1 b2 h0 h1 h2]
  simp only
  rw [queue_buffers_ok env hq0 hq1 hq2]
  simp only
  rw [if_neg (by simp [hon]), if_neg (by simp [hret]), hret, wrapInt32_cast_mod,
    wrapInt32_cast_mod]
  simp only [setup_events, List.append_assoc, List.cons_append, List.nil_append]

theorem filter_isCleanup_capture (l : List CaptureEvent) :
    (l.map WorkerEvent.capture).filter WorkerEvent.isCleanup = [] := by
  induction l with
  | nil => rfl
  | cons e rest ih => simp [List.filter_cons, WorkerEvent.isCleanup, ih]

theorem filterMap_waitKind_capture (l : List CaptureEvent) :
    (l.map WorkerEvent.capture).filterMap WorkerEvent.waitKind = [] := by
  induction l with
  | nil => rfl
  | cons e rest ih => simp [List.filterMap_cons, WorkerEvent.waitKind, ih]

theorem run_video_stream_frame_of_blk (env : FrameEnv) (index width height blk : ℕ)
    (s : CaptureState) (hb : env.blk = some blk) :
    run_video_stream_frame env index width height s
      = { num := (s.num + 1) % 4294967296,
          trace := s.trace ++ send_frame env blk width height s.num env.now ++
            (if env.qbuf = true then [CaptureEvent.qbuf index true]
              else [CaptureEvent.qbuf index false, CaptureEvent.log_error]),
          running := s.running } := by
  simp [run_video_stream_frame, hb]

theorem capture_loop_frame (width height : ℕ) (index blk : ℕ) (frame : FrameEnv)
    (hb : frame.blk = some blk) (rest : List Round) (num : ℕ) (tr : List WorkerEvent) :
    capture_loop width height (⟨true, WaitOutcome.ready (some index) frame⟩ :: rest) num tr
      = capture_loop width height rest ((num + 1) % 4294967296)
          (tr ++ [WorkerEvent.select WaitKind.ready, WorkerEvent.dqbuf (some index)] ++
            (send_frame frame blk width height num frame.now ++
              (if frame.qbuf = true then [CaptureEvent.qbuf index true]
                else [CaptureEvent.qbuf index false, CaptureEvent.log_error])).map
              WorkerEvent.capture) := by
  simp only [capture_loop]
  rw [if_neg (by simp), run_video_stream_frame_of_blk frame index width height blk _ hb]
  simp

theorem capture_loop_stays (width height : ℕ) (pre : List Round)
    (hpre : ∀ r ∈ pre, r.stays = true) (rest : List Round) (num : ℕ)
    (tr : List WorkerEvent) :
    ∃ mid num1,
      capture_loop width height (pre ++ rest) num tr
        = capture_loop width height rest num1 (tr ++ mid) ∧
      mid.filter WorkerEvent.isCleanup = [] ∧
      mid.filterMap WorkerEvent.waitKind = pre.map (fun r => r.wait.kind) := by
  induction pre generalizing num tr with
  | nil => exact ⟨[], num, by simp, rfl, rfl⟩
  | cons r pre ih =>
    have hr := hpre r (List.mem_cons_self _ _)
    have hrest : ∀ r1 ∈ pre, r1.stays = true := fun r1 h1 => hpre r1 (List.mem_cons_of_mem _ h1)
    obtain ⟨flag, wait⟩ := r
    cases wait with
    | timeout => simp [Round.stays] at hr
    | error => simp [Round.stays] at hr
    | eintr =>
      simp only [Round.stays, Bool.and_true] at hr
      subst hr
      obtain ⟨mid, num1, h1, h2, h3⟩ := ih hrest num (tr ++ [WorkerEvent.select WaitKind.eintr])
      refine ⟨[WorkerEvent.select WaitKind.eintr] ++ mid, num1, ?_, ?_, ?_⟩
      · rw [List.cons_append]
        simp only [capture_loop]
        rw [if_neg (by simp), h1, List.append_assoc]
      · simp [List.filter_cons, WorkerEvent.isCleanup, h2]
      · simp [List.filterMap_cons, WorkerEvent.waitKind, WaitOutcome.kind, h3]
    | ready dq frame =>
      cases dq with
      | none => simp [Round.stays] at hr
      | some index =>
        simp only [Round.stays, Bool.and_eq_true, Option.isSome_iff_exists] at hr
        obtain ⟨hflag, blk, hb⟩ := hr
        subst hflag
        obtain ⟨mid, num1, h1, h2, h3⟩ := ih hrest ((num + 1) % 4294967296)
          (tr ++ [WorkerEvent.select WaitKind.ready, WorkerEvent.dqbuf (some index)] ++
            (send_frame frame blk width height num frame.now ++
              (if frame.qbuf = true then [CaptureEvent.qbuf index true]
                else [CaptureEvent.qbuf index false, CaptureEvent.log_error])).map
              WorkerEvent.capture)
        refine ⟨[WorkerEvent.select WaitKind.ready, WorkerEvent.dqbuf (some index)] ++
            (send_frame frame blk width height num frame.now ++
              (if frame.qbuf = true then [CaptureEvent.qbuf index true]
                else [CaptureEvent.qbuf index false, CaptureEvent.log_error])).map
              WorkerEvent.capture ++ mid, num1, ?_, ?_, ?_⟩
        · rw [List.cons_append, capture_loop_frame width height index blk frame hb, h1]
          simp only [List.append_assoc]
        · rw [List.filter_append, List.filter_append, filter_isCleanup_capture, h2]
          simp [List.filter_cons, WorkerEvent.isCleanup]
        · rw [List.filterMap_append, List.filterMap_append, filterMap_waitKind_capture, h3]
          simp [List.filterMap_cons, WorkerEvent.waitKind, WaitOutcome.kind]

theorem cleanup_session (k : RkConsts) (env : PassEnv) (b0 b1 b2 : ℕ) (s : WorkerState) :
    cleanup k env [some b0, some b1, some b2] s
      = { venc := (venc_stop k env.venc s.venc).2,
          trace := s.trace ++
            cleanup_events env.streamoff_ok (venc_stop k env.venc s.venc).1 b0 b1 b2 } := by
  simp [cleanup, cleanup_events]

/-- The pass of a session whose set-up succeeds and whose capture loop is left
after the rounds `pre`, the leaving round adding the effects `last`. -/
theorem run_video_stream_pass_left (k : RkConsts) (env : PassEnv) (s : WorkerState)
    (b0 b1 b2 : ℕ) (pre : List Round) (leave : Round) (rest : List Round)
    (last : List WorkerEvent)
    (hflag : env.streaming_flag = true) (hs : session_starts env b0 b1 b2)
    (hr : env.rounds = pre ++ leave :: rest) (hpre : ∀ r ∈ pre, r.stays = true)
    (hleave : ∀ num tr, capture_loop env.detected_width env.detected_height (leave :: rest)
      num tr = (LoopEnd.left, tr ++ last)) :
    ∃ mid,
      mid.filter WorkerEvent.isCleanup = [] ∧
      mid.filterMap WorkerEvent.waitKind = pre.map (fun r => r.wait.kind) ∧
      run_video_stream_pass k env s
        = (PassResult.next,
            { venc := (venc_stop k env.venc (venc_start k env.venc s.venc).2).2,
              trace := s.trace ++
                setup_events env.detected_width env.detected_height b0 b1 b2 k.RK_SUCCESS ++
                mid ++ last ++
                cleanup_events env.streamoff_ok
                  (venc_stop k env.venc (venc_start k env.venc s.venc).2).1 b0 b1 b2 }) := by
  obtain ⟨mid, num1, h1, h2, h3⟩ := capture_loop_stays env.detected_width env.detected_height
    pre hpre (leave :: rest) 0
    (s.trace ++ setup_events env.detected_width env.detected_height b0 b1 b2 k.RK_SUCCESS)
  refine ⟨mid, h2, h3, ?_⟩
  rw [run_video_stream_pass_session k env s b0 b1 b2 hflag hs, hr, h1, hleave]
  simp only
  rw [cleanup_session]

/-- C21, counterexample: in a session whose set-up succeeded, a first wait that
times out while `streaming_flag` is true is the only wait of the session: the
pass goes through stream-off, `venc_stop`, the release of the three blocks and
the close of the device, although a readable device would follow. -/
theorem select_timeout_ends_session :
    (run_video_stream_pass ⟨0, -1⟩
      (pass_ok [⟨true, WaitOutcome.timeout⟩,
        ⟨true, WaitOutcome.ready (some 0) ⟨some 5, 0, fun _ => true, true⟩⟩])
      initial_worker_state).1 = PassResult.next ∧
    (run_video_stream_pass ⟨0, -1⟩
      (pass_ok [⟨true, WaitOutcome.timeout⟩,
        ⟨true, WaitOutcome.ready (some 0) ⟨some 5, 0, fun _ => true, true⟩⟩])
      initial_worker_state).2.trace.filter
        (fun e => e.isCleanup || e == WorkerEvent.select WaitKind.timeout ||
          e == WorkerEvent.select WaitKind.ready)
      = [WorkerEvent.select WaitKind.timeout, WorkerEvent.streamoff true,
          WorkerEvent.venc_stop 0, WorkerEvent.release_mb 10, WorkerEvent.release_mb 11,
          WorkerEvent.release_mb 12, WorkerEvent.close] := by
  decide

/-- C21, amended: in a session whose set-up and `venc_start` succeeded, when a
wait times out while `streaming_flag` is true, after any rounds `pre` in which
the wait was interrupted by a signal or a frame was captured (these rounds are
followed by the next wait of the same session), the worker leaves the capture
loop without a further wait and runs the cleanup: stream-off, `venc_stop`,
release of the three blocks and close of the device, in this order, none of them
earlier in the pass; the outer loop then goes on with its next pass.  A wait
that fails with an error other than `EINTR` ends the session in the same way. -/
theorem select_timeout_cleanup (k : RkConsts) (env : PassEnv) (s : WorkerState)
    (b0 b1 b2 : ℕ) (pre : List Round) (w : WaitOutcome) (rest : List Round)
    (hflag : env.streaming_flag = true) (hs : session_starts env b0 b1 b2)
    (hw : w = WaitOutcome.timeout ∨ w = WaitOutcome.error)
    (hr : env.rounds = pre ++ ⟨true, w⟩ :: rest) (hpre : ∀ r ∈ pre, r.stays = true) :
    ∃ mid,
      mid.filter WorkerEvent.isCleanup = [] ∧
      mid.filterMap WorkerEvent.waitKind = pre.map (fun r => r.wait.kind) ∧
      run_video_stream_pass k env s
        = (PassResult.next,
            { venc := (venc_stop k env.venc (venc_start k env.venc s.venc).2).2,
              trace := s.trace ++
                setup_events env.detected_width env.detected_height b0 b1 b2 k.RK_SUCCESS ++
                mid ++ [WorkerEvent.select w.kind] ++
                cleanup_events env.streamoff_ok
                  (venc_stop k env.venc (venc_start k env.venc s.venc).2).1 b0 b1 b2 }) ∧
      ∀ more, run_video_stream k (env :: more) s
        = run_video_stream k more (run_video_stream_pass k env s).2 := by
  have hleave : ∀ num tr, capture_loop env.detected_width env.detected_height
      (⟨true, w⟩ :: rest) num tr = (LoopEnd.left, tr ++ [WorkerEvent.select w.kind]) := by
    intro num tr
    rcases hw with rfl | rfl
    · simp [capture_loop, WaitOutcome.kind]
    · simp [capture_loop, WaitOutcome.kind]
  obtain ⟨mid, h1, h2, h3⟩ := run_video_stream_pass_left k env s b0 b1 b2 pre ⟨true, w⟩ rest
    [WorkerEvent.select w.kind] hflag hs hr hpre hleave
  refine ⟨mid, h1, h2, h3, fun more => ?_⟩
  exact run_video_stream_of_next k env more s (by rw [h3])

/-- C21, witness: a pass with successful set-up in which a wait is interrupted,
then a frame is captured from slot 0, then the wait times out. -/
theorem select_timeout_cleanup_witness :
    ∃ mid,
      mid.filter WorkerEvent.isCleanup = [] ∧
      mid.filterMap WorkerEvent.waitKind = [WaitKind.eintr, WaitKind.ready] ∧
      run_video_stream_pass ⟨0, -1⟩
          (pass_ok [⟨true, WaitOutcome.eintr⟩,
            ⟨true, WaitOutcome.ready (some 0) ⟨some 5, 0, fun _ => true, true⟩⟩,
            ⟨true, WaitOutcome.timeout⟩])
          initial_worker_state
        = (PassResult.next,
            { venc := (venc_stop ⟨0, -1⟩ ⟨0, 0, 0, 7, 0, 0⟩
                (venc_start ⟨0, -1⟩ ⟨0, 0, 0, 7, 0, 0⟩ initial_venc_state).2).2,
              trace := [] ++ setup_events 1920 1080 10 11 12 0 ++ mid ++
                [WorkerEvent.select WaitKind.timeout] ++
                cleanup_events true 0 10 11 12 }) :=
  (select_timeout_cleanup ⟨0, -1⟩
    (pass_ok [⟨true, WaitOutcome.eintr⟩,
      ⟨true, WaitOutcome.ready (some 0) ⟨some 5, 0, fun _ => true, true⟩⟩,
      ⟨true, WaitOutcome.timeout⟩])
    initial_worker_state 10 11 12
    [⟨true, WaitOutcome.eintr⟩,
      ⟨true, WaitOutcome.ready (some 0) ⟨some 5, 0, fun _ => true, true⟩⟩]
    WaitOutcome.timeout [] rfl (by decide) (Or.inl rfl) rfl (by decide)).imp
    fun _ h => ⟨h.1, h.2.1, h.2.2.1⟩

/-- C22: when slot 0 gets block 10 and `RK_MPI_MB_GetMB` returns `NULL` for slot 1,
the worker closes the device and returns from the thread function without
releasing block 10; the same happens to block 10 when `RK_MPI_MB_Handle2Fd` fails
for slot 0. -/
theorem get_mb_failure_leaks_blocks :
    (run_video_stream_pass ⟨0, -1⟩
      { pass_ok [] with
        slots := fun i => if i = 0 then ⟨true, some 10, true⟩ else ⟨true, none, true⟩ }
      initial_worker_state)
      = (PassResult.exited ExitValue.unspecified,
          { venc := initial_venc_state,
            trace := [WorkerEvent.open_dev true, WorkerEvent.s_fmt 1920 1080 true,
              WorkerEvent.reqbufs true, WorkerEvent.querybuf 0 true,
              WorkerEvent.get_mb 0 (some 10), WorkerEvent.handle2fd 10 true,
              WorkerEvent.querybuf 1 true, WorkerEvent.get_mb 1 none,
              WorkerEvent.close] }) ∧
    (run_video_stream_pass ⟨0, -1⟩
      { pass_ok [] with slots := fun _ => ⟨true, some 10, false⟩ }
      initial_worker_state)
      = (PassResult.exited ExitValue.errno,
          { venc := initial_venc_state,
            trace := [WorkerEvent.open_dev true, WorkerEvent.s_fmt 1920 1080 true,
              WorkerEvent.reqbufs true, WorkerEvent.querybuf 0 true,
              WorkerEvent.get_mb 0 (some 10), WorkerEvent.handle2fd 10 false,
              WorkerEvent.close] }) := by
  decide

/-- C20, counterexample: for a dequeued frame whose memory block is not found
(`RK_MPI_MMZ_Fd2Handle` returns `RK_NULL`) the assertion on line 499 stops the
process: the frame is not submitted, the slot is not re-queued and the capture
loop does not wait for the next buffer. -/
theorem frame_without_block_not_submitted :
    run_video_stream_frame ⟨none, 1000, fun _ => true, true⟩ 2 1920 1080 ⟨5, [], true⟩
      = ⟨5, [CaptureEvent.assert_failed], false⟩ ∧
    capture_loop 1920 1080
        [⟨true, WaitOutcome.ready (some 2) ⟨none, 1000, fun _ => true, true⟩⟩,
          ⟨true, WaitOutcome.ready (some 0) ⟨some 3, 2000, fun _ => true, true⟩⟩] 5 []
      = (LoopEnd.aborted,
          [WorkerEvent.select WaitKind.ready, WorkerEvent.dqbuf (some 2),
            WorkerEvent.capture CaptureEvent.assert_failed]) := by
  decide

/-- C20, amended: for every dequeued frame whose memory block `blk` is found and
every pattern of encoder outcomes, the effects of handling the frame are, in
order: one submission of the block with the session geometry, the frame counter
and the timestamp; when it failed, an error line, a pause of 1 ms and a second
submission with the same block, geometry, sequence number and timestamp, followed
by an error line when that failed too; then one `VIDIOC_QBUF` for the slot that
was dequeued, with an error line when it fails.  The frame counter advances by
one and the capture loop goes on to its next round. -/
theorem run_video_stream_frame_submit (env : FrameEnv) (index width height blk : ℕ)
    (s : CaptureState) (hblk : env.blk = some blk) :
    (run_video_stream_frame env index width height s).trace
      = s.trace ++
        [CaptureEvent.send_frame blk width height s.num env.now (env.send 0)] ++
        (if env.send 0 = true then []
          else [CaptureEvent.log_error, CaptureEvent.usleep 1000,
              CaptureEvent.send_frame blk width height s.num env.now (env.send 1)] ++
            (if env.send 1 = true then [] else [CaptureEvent.log_error])) ++
        [CaptureEvent.qbuf index env.qbuf] ++
        (if env.qbuf = true then [] else [CaptureEvent.log_error]) ∧
    (run_video_stream_frame env index width height s).running = s.running ∧
    (run_video_stream_frame env index width height s).num = (s.num + 1) % 4294967296 ∧
    ∀ rest tr, capture_loop width height
        (⟨true, WaitOutcome.ready (some index) env⟩ :: rest) s.num tr
      = capture_loop width height rest ((s.num + 1) % 4294967296)
          (tr ++ [WorkerEvent.select WaitKind.ready, WorkerEvent.dqbuf (some index)] ++
            (run_video_stream_frame env index width height
              { num := s.num, trace := [], running := true }).trace.map
              WorkerEvent.capture) := by
  refine ⟨?_, ?_, ?_, ?_⟩
  · rw [run_video_stream_frame_of_blk env index width height blk s hblk]
    simp only [send_frame, retry_send_frame]
    cases h0 : env.send 0 <;> cases h1 : env.send 1 <;> cases hq : env.qbuf <;> simp
  · rw [run_video_stream_frame_of_blk env index width height blk s hblk]
  · rw [run_video_stream_frame_of_blk env index width height blk s hblk]
  · intro rest tr
    rw [capture_loop_frame width height index blk env hblk,
      run_video_stream_frame_of_blk env index width height blk _ hblk]
    simp

/-- C20, witness: the encoder refuses the frame of slot 2 twice; block 3 is
submitted twice with sequence number 5 and timestamp 1000, then slot 2 is
re-queued. -/
theorem run_video_stream_frame_submit_witness :
    (run_video_stream_frame ⟨some 3, 1000, fun _ => false, true⟩ 2 1920 1080
        ⟨5, [], true⟩).trace
      = [CaptureEvent.send_frame 3 1920 1080 5 1000 false, CaptureEvent.log_error,
          CaptureEvent.usleep 1000, CaptureEvent.send_frame 3 1920 1080 5 1000 false,
          CaptureEvent.log_error, CaptureEvent.qbuf 2 true] :=
  (run_video_stream_frame_submit ⟨some 3, 1000, fun _ => false, true⟩ 2 1920 1080 3
    ⟨5, [], true⟩ rfl).1

/-! ### Restart of the session by the signal monitor -/

end Kvm
